import Mathlib

/-!
# Mumble BRT mixer: gain model, listener orientation, frame mixing and module registry

Shallow embedding of `src/mumble/AudioOutput.cpp` and of the registry `CBRTManager` of
`3rdparty/BRTLibrary-main/include/Base/BRTManager.hpp`.  C++ `float` values are
embedded as elements of a linearly ordered field `F` (exact arithmetic); the
definitions are generic in `F`, so they run on `ℚ` and are reasoned about on
`ℝ`.  The `<cmath>` routines the code calls are taken as a parameter
(`Libm`), and `IsRealLibm` states that they are the exact real functions.
-/

namespace Mumble

/-! ## External numeric routines -/

/-- The `<cmath>` routines (and `M_PI`) used by `AudioOutput.cpp`. -/
structure Libm (F : Type) where
  sqrtf : F → F
  powf : F → F → F
  log10f : F → F
  sinf : F → F
  cosf : F → F
  acosf : F → F
  atan2f : F → F → F
  pi : F

/-- The routines of `m` are the exact real functions they approximate. -/
structure IsRealLibm (m : Libm ℝ) : Prop where
  sqrtf_eq : ∀ x, m.sqrtf x = Real.sqrt x
  powf_eq : ∀ x y, m.powf x y = x ^ y
  log10f_eq : ∀ x, m.log10f x = Real.logb 10 x
  sinf_eq : ∀ x, m.sinf x = Real.sin x
  cosf_eq : ∀ x, m.cosf x = Real.cos x
  acosf_eq : ∀ x, m.acosf x = Real.arccos x
  atan2f_eq : ∀ y x, m.atan2f y x = Complex.arg ⟨x, y⟩
  pi_eq : m.pi = Real.pi

/-! ## Settings read by the mixer (`Global::get().s`) -/

/-- The fields of `Global::get().s` that `calcGain` and `mix` read. -/
structure Settings (F : Type) where
  fVolume : F
  fAudioBloom : F
  fAudioMinDistance : F
  fAudioMaxDistance : F
  fAudioMaxDistVolume : F
  bPositionalAudio : Bool

section Gain

variable {F : Type} [LinearOrderedField F]

/-- The function `AudioOutput::calcGain` (AudioOutput.cpp:123-169). -/
def calcGain (m : Libm F) (s : Settings F) (dotproduct distance : F) : F :=
  let dotfactor0 : F := (dotproduct + 1) / 2
  let offset : F := (1 - dotfactor0) * 0.25
  let dotfactor : F := dotfactor0 + offset
  if distance < 0.01 then
    1
  else if s.fAudioMaxDistVolume > 0.99 then
    min 1 (dotfactor + s.fAudioBloom)
  else if distance < s.fAudioMinDistance then
    let bloomfac : F := s.fAudioBloom * (1 - distance / s.fAudioMinDistance)
    min 1 (bloomfac + dotfactor)
  else
    let datt : F :=
      if distance ≥ s.fAudioMaxDistance then
        s.fAudioMaxDistVolume
      else
        let mvol : F := if s.fAudioMaxDistVolume < 0.005 then 0.005 else s.fAudioMaxDistVolume
        let drel : F := (distance - s.fAudioMinDistance)
          / (s.fAudioMaxDistance - s.fAudioMinDistance)
        m.powf 10 (m.log10f mvol * drel)
    datt * dotfactor

/-- The value of `dotfactor` after line 131 of `calcGain`: the dot product
remapped to `[0, 1]` plus the quarter offset. -/
def dotRemap (dotproduct : F) : F :=
  (dotproduct + 1) / 2 + (1 - (dotproduct + 1) / 2) * 0.25

end Gain

/-! ## Vectors and listener orientation (`AudioOutput::mix`, lines 678-769) -/

/-- Modelled from the spec: the `Vector3D` / `Position3D` type of `PositionalData.h`, which is
not part of the sources at hand; three `float` coordinates. -/
structure Vector3D (F : Type) where
  x : F
  y : F
  z : F

/-- The 3x3 matrix `a` (a `std::vector` of three rows) filled at lines 738-740. -/
structure Mat3 (F : Type) where
  a00 : F
  a01 : F
  a02 : F
  a10 : F
  a11 : F
  a12 : F
  a20 : F
  a21 : F
  a22 : F

/-- The four entries `listenerRotationQuat[0..3]`, in the order `(w, x, y, z)`. -/
structure Quat (F : Type) where
  w : F
  x : F
  y : F
  z : F

section Orientation

variable {F : Type} [LinearOrderedField F]

namespace Vector3D

/-- Modelled from the spec: `Vector3D::isZero()` with its default threshold, "zero-length". -/
def isZero (v : Vector3D F) : Bool :=
  decide (v.x = 0) && decide (v.y = 0) && decide (v.z = 0)

/-- Modelled from the spec: `Vector3D::dotProduct`, the `forward · up` of step 3. -/
def dotProduct (v o : Vector3D F) : F :=
  v.x * o.x + v.y * o.y + v.z * o.z

/-- Modelled from the spec: `Vector3D::norm`, the Euclidean length. -/
def norm (m : Libm F) (v : Vector3D F) : F :=
  m.sqrtf (v.x * v.x + v.y * v.y + v.z * v.z)

/-- Modelled from the spec: `Vector3D::normalize`, division of each coordinate by the length. -/
def normalize (m : Libm F) (v : Vector3D F) : Vector3D F :=
  let len : F := norm m v
  ⟨v.x / len, v.y / len, v.z / len⟩

/-- Modelled from the spec: `Vector3D::crossProduct`, as in `right = up × forward`. -/
def crossProduct (v o : Vector3D F) : Vector3D F :=
  ⟨v.y * o.z - v.z * o.y, v.z * o.x - v.x * o.z, v.x * o.y - v.y * o.x⟩

/-- Modelled from the spec: `Vector3D::operator-`, coordinate-wise difference. -/
def sub (v o : Vector3D F) : Vector3D F :=
  ⟨v.x - o.x, v.y - o.y, v.z - o.z⟩

/-- Modelled from the spec: `Vector3D::operator*(float)`, scaling by a factor. -/
def scale (v : Vector3D F) (factor : F) : Vector3D F :=
  ⟨v.x * factor, v.y * factor, v.z * factor⟩

end Vector3D

/-- The value `error` of line 697: `|cameraDir · cameraAxis|` after both inputs have been
normalised (a zero `cameraAxis` being replaced by `(0, 1, 0)`), lines 688-697. -/
def orientationError (m : Libm F) (cameraDir cameraAxis : Vector3D F) : F :=
  let dir := Vector3D.normalize m cameraDir
  let axis := if !cameraAxis.isZero then Vector3D.normalize m cameraAxis else ⟨0, 1, 0⟩
  |dir.dotProduct axis|

/-- Lines 696-719: the repair of `cameraAxis` against `cameraDir`, both already normalised. -/
def repairAxis (m : Libm F) (cameraDir cameraAxis : Vector3D F) : Vector3D F :=
  let dotproduct : F := cameraDir.dotProduct cameraAxis
  let error : F := |dotproduct|
  if error > 0.5 then
    let azimuth : F :=
      if cameraDir.x ≠ 0 ∨ cameraDir.z ≠ 0 then m.atan2f cameraDir.z cameraDir.x else 0
    let inclination : F := m.acosf cameraDir.y - m.pi / 2
    ⟨m.sinf inclination * m.cosf azimuth, m.cosf inclination,
      m.sinf inclination * m.sinf azimuth⟩
  else if error > 0.01 then
    Vector3D.normalize m (cameraAxis.sub (cameraDir.scale dotproduct))
  else
    cameraAxis

/-- Basis reconstruction, lines 687-724: returns the final `(cameraDir, cameraAxis)`. -/
def reconstructBasis (m : Libm F) (cameraDir cameraAxis : Vector3D F) :
    Vector3D F × Vector3D F :=
  if !cameraDir.isZero then
    let dir := Vector3D.normalize m cameraDir
    let axis := if !cameraAxis.isZero then Vector3D.normalize m cameraAxis else ⟨0, 1, 0⟩
    (dir, repairAxis m dir axis)
  else
    (⟨0, 0, 1⟩, ⟨0, 1, 0⟩)

/-- The matrix assembled at lines 738-740: columns `right`, `cameraAxis`, `cameraDir`. -/
def basisMatrix (right cameraAxis cameraDir : Vector3D F) : Mat3 F :=
  ⟨right.x, cameraAxis.x, cameraDir.x,
   right.y, cameraAxis.y, cameraDir.y,
   right.z, cameraAxis.z, cameraDir.z⟩

/-- Quaternion extraction, lines 742-769. -/
def extractQuaternion (m : Libm F) (a : Mat3 F) : Quat F :=
  let trace : F := a.a00 + a.a11 + a.a22
  if trace > 0 then
    let s : F := 0.5 / m.sqrtf (trace + 1)
    ⟨0.25 / s, (a.a21 - a.a12) * s, (a.a02 - a.a20) * s, (a.a10 - a.a01) * s⟩
  else if a.a00 > a.a11 ∧ a.a00 > a.a22 then
    let s : F := 2 * m.sqrtf (1 + a.a00 - a.a11 - a.a22)
    ⟨(a.a21 - a.a12) / s, 0.25 * s, (a.a01 + a.a10) / s, (a.a02 + a.a20) / s⟩
  else if a.a11 > a.a22 then
    let s : F := 2 * m.sqrtf (1 + a.a11 - a.a00 - a.a22)
    ⟨(a.a02 - a.a20) / s, (a.a01 + a.a10) / s, 0.25 * s, (a.a12 + a.a21) / s⟩
  else
    let s : F := 2 * m.sqrtf (1 + a.a22 - a.a00 - a.a11)
    ⟨(a.a10 - a.a01) / s, (a.a02 + a.a20) / s, (a.a12 + a.a21) / s, 0.25 * s⟩

/-- The divisors met by the branch of `extractQuaternion` that `a` selects (lines 744-745,
751-755, 757-761, 763-767). -/
def extractQuaternionDivisors (m : Libm F) (a : Mat3 F) : List F :=
  let trace : F := a.a00 + a.a11 + a.a22
  if trace > 0 then
    [m.sqrtf (trace + 1), 0.5 / m.sqrtf (trace + 1)]
  else if a.a00 > a.a11 ∧ a.a00 > a.a22 then
    [2 * m.sqrtf (1 + a.a00 - a.a11 - a.a22)]
  else if a.a11 > a.a22 then
    [2 * m.sqrtf (1 + a.a11 - a.a00 - a.a22)]
  else
    [2 * m.sqrtf (1 + a.a22 - a.a00 - a.a11)]

/-- The listener basis and quaternion of one frame, lines 681-769. -/
structure ListenerOrientation (F : Type) where
  cameraDir : Vector3D F
  cameraAxis : Vector3D F
  right : Vector3D F
  quat : Quat F

/-- Lines 681-769: basis reconstruction, `right = cameraAxis × cameraDir`, quaternion. -/
def listenerOrientation (m : Libm F) (cameraDir cameraAxis : Vector3D F) :
    ListenerOrientation F :=
  let basis := reconstructBasis m cameraDir cameraAxis
  let right := basis.2.crossProduct basis.1
  ⟨basis.1, basis.2, right, extractQuaternion m (basisMatrix right basis.2 basis.1)⟩

/-- Squared Euclidean norm `w^2 + x^2 + y^2 + z^2` of a quaternion. -/
def Quat.normSq (q : Quat F) : F :=
  q.w * q.w + q.x * q.x + q.y * q.y + q.z * q.z

/-- The standard rotation matrix of a quaternion `(w, x, y, z)`. -/
def Quat.toMat3 (q : Quat F) : Mat3 F :=
  ⟨1 - 2 * (q.y * q.y + q.z * q.z), 2 * (q.x * q.y - q.w * q.z), 2 * (q.x * q.z + q.w * q.y),
   2 * (q.x * q.y + q.w * q.z), 1 - 2 * (q.x * q.x + q.z * q.z), 2 * (q.y * q.z - q.w * q.x),
   2 * (q.x * q.z - q.w * q.y), 2 * (q.y * q.z + q.w * q.x), 1 - 2 * (q.x * q.x + q.y * q.y)⟩

/-- Determinant of a 3x3 matrix. -/
def Mat3.det (a : Mat3 F) : F :=
  a.a00 * (a.a11 * a.a22 - a.a12 * a.a21) - a.a01 * (a.a10 * a.a22 - a.a12 * a.a20)
    + a.a02 * (a.a10 * a.a21 - a.a11 * a.a20)

/-- A rotation matrix: orthogonal (its columns are orthonormal) with determinant `+1`. -/
structure Mat3.IsRotation (a : Mat3 F) : Prop where
  col0 : a.a00 * a.a00 + a.a10 * a.a10 + a.a20 * a.a20 = 1
  col1 : a.a01 * a.a01 + a.a11 * a.a11 + a.a21 * a.a21 = 1
  col2 : a.a02 * a.a02 + a.a12 * a.a12 + a.a22 * a.a22 = 1
  col01 : a.a00 * a.a01 + a.a10 * a.a11 + a.a20 * a.a21 = 0
  col02 : a.a00 * a.a02 + a.a10 * a.a12 + a.a20 * a.a22 = 0
  col12 : a.a01 * a.a02 + a.a11 * a.a12 + a.a21 * a.a22 = 0
  det_eq : a.det = 1

end Orientation

/-! ## Relations used to state the orientation results -/

section OrientationRelations

variable {F : Type} [LinearOrderedField F]

/-- The entry-wise relations between a quaternion and the matrix it represents: the ten
products of two components, each read off the matrix. -/
structure Quat.Represents (q : Quat F) (a : Mat3 F) : Prop where
  ww : 4 * (q.w * q.w) = 1 + a.a00 + a.a11 + a.a22
  xx : 4 * (q.x * q.x) = 1 + a.a00 - a.a11 - a.a22
  yy : 4 * (q.y * q.y) = 1 - a.a00 + a.a11 - a.a22
  zz : 4 * (q.z * q.z) = 1 - a.a00 - a.a11 + a.a22
  wx : 4 * (q.w * q.x) = a.a21 - a.a12
  wy : 4 * (q.w * q.y) = a.a02 - a.a20
  wz : 4 * (q.w * q.z) = a.a10 - a.a01
  xy : 4 * (q.x * q.y) = a.a01 + a.a10
  xz : 4 * (q.x * q.z) = a.a02 + a.a20
  yz : 4 * (q.y * q.z) = a.a12 + a.a21

/-- The products of the off-diagonal sums and differences of a rotation matrix, each
expressed through the diagonal. -/
structure Mat3.Products (a : Mat3 F) : Prop where
  wx_sq :
    (a.a21 - a.a12) * (a.a21 - a.a12) = (1 + a.a00 + a.a11 + a.a22) * (1 + a.a00 - a.a11 - a.a22)
  wy_sq :
    (a.a02 - a.a20) * (a.a02 - a.a20) = (1 + a.a00 + a.a11 + a.a22) * (1 - a.a00 + a.a11 - a.a22)
  wz_sq :
    (a.a10 - a.a01) * (a.a10 - a.a01) = (1 + a.a00 + a.a11 + a.a22) * (1 - a.a00 - a.a11 + a.a22)
  xy_sq :
    (a.a01 + a.a10) * (a.a01 + a.a10) = (1 + a.a00 - a.a11 - a.a22) * (1 - a.a00 + a.a11 - a.a22)
  xz_sq :
    (a.a02 + a.a20) * (a.a02 + a.a20) = (1 + a.a00 - a.a11 - a.a22) * (1 - a.a00 - a.a11 + a.a22)
  yz_sq :
    (a.a12 + a.a21) * (a.a12 + a.a21) = (1 - a.a00 + a.a11 - a.a22) * (1 - a.a00 - a.a11 + a.a22)
  wx_wy :
    (a.a21 - a.a12) * (a.a02 - a.a20) = (1 + a.a00 + a.a11 + a.a22) * (a.a01 + a.a10)
  wx_wz :
    (a.a21 - a.a12) * (a.a10 - a.a01) = (1 + a.a00 + a.a11 + a.a22) * (a.a02 + a.a20)
  wy_wz :
    (a.a02 - a.a20) * (a.a10 - a.a01) = (1 + a.a00 + a.a11 + a.a22) * (a.a12 + a.a21)
  wx_xy :
    (a.a21 - a.a12) * (a.a01 + a.a10) = (1 + a.a00 - a.a11 - a.a22) * (a.a02 - a.a20)
  wx_xz :
    (a.a21 - a.a12) * (a.a02 + a.a20) = (1 + a.a00 - a.a11 - a.a22) * (a.a10 - a.a01)
  xy_xz :
    (a.a01 + a.a10) * (a.a02 + a.a20) = (1 + a.a00 - a.a11 - a.a22) * (a.a12 + a.a21)
  wy_xy :
    (a.a02 - a.a20) * (a.a01 + a.a10) = (1 - a.a00 + a.a11 - a.a22) * (a.a21 - a.a12)
  wy_yz :
    (a.a02 - a.a20) * (a.a12 + a.a21) = (1 - a.a00 + a.a11 - a.a22) * (a.a10 - a.a01)
  xy_yz :
    (a.a01 + a.a10) * (a.a12 + a.a21) = (1 - a.a00 + a.a11 - a.a22) * (a.a02 + a.a20)
  wz_xz :
    (a.a10 - a.a01) * (a.a02 + a.a20) = (1 - a.a00 - a.a11 + a.a22) * (a.a21 - a.a12)
  wz_yz :
    (a.a10 - a.a01) * (a.a12 + a.a21) = (1 - a.a00 - a.a11 + a.a22) * (a.a02 - a.a20)
  xz_yz :
    (a.a02 + a.a20) * (a.a12 + a.a21) = (1 - a.a00 - a.a11 + a.a22) * (a.a01 + a.a10)

/-- Two vectors of length one that are perpendicular to each other. -/
structure OrthonormalPair (d u : Vector3D F) : Prop where
  dir_unit : d.dotProduct d = 1
  axis_unit : u.dotProduct u = 1
  perp : d.dotProduct u = 0

end OrientationRelations


/-! ## The divisions and logarithms of `calcGain` -/

section GainChecked

variable {F : Type} [LinearOrderedField F]

/-- A division by a configured quantity, or a logarithm, that `calcGain` executes, with its
divisor or argument.  (The division of line 125 is by the constant `2.0f`.) -/
inductive GainOperation (F : Type) where
  /-- The division `distance / fAudioMinDistance` of line 147. -/
  | divideByMinDistance (divisor : F)
  /-- The division by `fAudioMaxDistance - fAudioMinDistance` of lines 160-161. -/
  | divideByRange (divisor : F)
  /-- The call `log10f(mvol)` of line 162. -/
  | log10f (argument : F)

/-- The divisions and logarithms that `calcGain` executes for a given distance, following the
branches of lines 135-167. -/
def calcGainOperations (s : Settings F) (distance : F) : List (GainOperation F) :=
  if distance < 0.01 then
    []
  else if s.fAudioMaxDistVolume > 0.99 then
    []
  else if distance < s.fAudioMinDistance then
    [GainOperation.divideByMinDistance s.fAudioMinDistance]
  else
    if distance ≥ s.fAudioMaxDistance then
      []
    else
      let mvol : F := if s.fAudioMaxDistVolume < 0.005 then 0.005 else s.fAudioMaxDistVolume
      [GainOperation.divideByRange (s.fAudioMaxDistance - s.fAudioMinDistance),
        GainOperation.log10f mvol]

/-- A division that fails (`none`) when the divisor is zero. -/
def divChecked (a b : F) : Option F :=
  if b = 0 then none else some (a / b)

/-- The call `log10f` that fails (`none`) when the argument is not positive. -/
def log10fChecked (m : Libm F) (x : F) : Option F :=
  if x ≤ 0 then none else some (m.log10f x)

/-- The function `AudioOutput::calcGain` (lines 123-169) with every division by a configured
quantity and every logarithm checked: the value is `none` as soon as one of them divides by
zero or takes the logarithm of a number that is not positive. -/
def calcGainChecked (m : Libm F) (s : Settings F) (dotproduct distance : F) : Option F :=
  let dotfactor0 : F := (dotproduct + 1) / 2
  let offset : F := (1 - dotfactor0) * 0.25
  let dotfactor : F := dotfactor0 + offset
  if distance < 0.01 then
    some 1
  else if s.fAudioMaxDistVolume > 0.99 then
    some (min 1 (dotfactor + s.fAudioBloom))
  else if distance < s.fAudioMinDistance then
    (divChecked distance s.fAudioMinDistance).bind fun q =>
      let bloomfac : F := s.fAudioBloom * (1 - q)
      some (min 1 (bloomfac + dotfactor))
  else
    let datt : Option F :=
      if distance ≥ s.fAudioMaxDistance then
        some s.fAudioMaxDistVolume
      else
        let mvol : F := if s.fAudioMaxDistVolume < 0.005 then 0.005 else s.fAudioMaxDistVolume
        (divChecked (distance - s.fAudioMinDistance)
          (s.fAudioMaxDistance - s.fAudioMinDistance)).bind fun drel =>
        (log10fChecked m mvol).bind fun l =>
        some (m.powf 10 (l * drel))
    datt.map fun d => d * dotfactor

end GainChecked

/-! ## The manual positioning plugin (`ManualPlugin.cpp`) -/

section ManualPlugin

variable {F : Type} [LinearOrderedField F]

/-- The function `Manual::updateTopAndFront` (ManualPlugin.cpp:598-617): the vectors written
to `my.avatar_front` and `my.avatar_top` (and copied to `my.camera_front`, `my.camera_top`)
for an azimuth and an elevation in degrees.  The routines `sin` and `cos` on `double` are the
fields `sinf` and `cosf` of `Libm`. -/
def updateTopAndFront (m : Libm F) (azimuth elevation : Int) : Vector3D F × Vector3D F :=
  let azim : F := (azimuth : F) * m.pi / 180
  let elev : F := (elevation : F) * m.pi / 180
  (⟨m.cosf elev * m.sinf azim, m.sinf elev, m.cosf elev * m.cosf azim⟩,
    ⟨-m.sinf elev * m.sinf azim, m.cosf elev, -m.sinf elev * m.cosf azim⟩)

end ManualPlugin
/-! ## Frame mixer (`AudioOutput::mix`, lines 514-1105)

The model follows the build with `USE_MANUAL_PLUGIN` defined (the only one in which the
per-session source nodes used by the hand-off exist).  The recording buffer `recbuff` and
the UI map `positions` are not represented; the per-session containers (`userPos`,
`userBuffer`, `envSources`) and the lock `qrwlOutputs` have sections of their own below; the
module graph, the plugin hooks and `prepareSampleBuffer` are collaborators outside this file
and enter through `MixEnv`.  The member `tempTransform`
carries the identity orientation whenever it is read without one being set just before
(line 1051 resets it after each use). -/

/-- Modelled from the spec: `Settings::TalkState`, declared outside the sources at hand; the
mixer only tests for `Whispering`. -/
inductive TalkState where
  | Passive
  | Talking
  | Whispering
  | Shouting
  | MutedTalking
  deriving DecidableEq

/-- The type `SampleFormat` of the audio backend (`eSampleFormat`). -/
inductive SampleFormat where
  | SampleShort
  | SampleFloat
  deriving DecidableEq

/-- What `mix` reads of a `ClientUser`. -/
structure ClientUser (F : Type) where
  uiSession : Nat
  bPrioritySpeaker : Bool
  tsState : TalkState
  /-- Value of `getLocalVolumeAdjustments()`. -/
  localVolumeAdjustments : F
  /-- Whether `qobject_cast< RecordUser * >` succeeds on the user. -/
  isRecordUser : Bool
  /-- The factor of `getListenerVolumeAdjustment` for the user's channel, present when
  `cChannel` is set and `isListening(Global::get().uiSession, cChannel->iId)` holds. -/
  listenerVolumeAdjustment : Option F

/-- The dynamic type of an `AudioOutputBuffer`: `AudioOutputSpeech` or `AudioOutputSample`. -/
inductive BufferKind (F : Type) where
  | speech (p : ClientUser F) (m_suggestedVolumeAdjustment : F) (m_audioContextIsListen : Bool)
  | sample (volume : F)

/-- An `AudioOutputBuffer` as `mix` sees it.  `pfVolume` and `piOffset` are `none` while the
pointers are null. -/
structure AudioOutputBuffer (F : Type) where
  kind : BufferKind F
  fPos : Vector3D F
  bStereo : Bool
  pfBuffer : Nat → F
  pfVolume : Option (Nat → F)
  piOffset : Option (Nat → Int)

/-- The samples and transform handed to a per-session source node (`SetSourceTransform`,
`SetBuffer`). -/
structure HandOff (F : Type) where
  session : Nat
  position : Vector3D F
  samples : List F

/-- The transform given to the listener node (`SetListenerTransform`). -/
structure ListenerTransform (F : Type) where
  position : Vector3D F
  orientation : Quat F

/-- The members of `AudioOutput` that `mix` reads or writes. -/
structure AudioOutput (F : Type) where
  iChannels : Nat
  fSpeakers : Nat → F
  fSpeakerVolume : Nat → F
  bSpeakerPositional : Nat → Bool
  fStereoPanningFactor : Nat → F
  eSampleFormat : SampleFormat
  newInstance : Bool
  listenerRotationQuat : Quat F
  /-- The function-static vector `speaker` of `mix`. -/
  speaker : Nat → F
  qmOutputs : List (AudioOutputBuffer F)
  userPos : Nat → Option (Vector3D F)

/-- Everything `mix` obtains from outside `AudioOutput`: settings, globals, plugin data,
virtual methods, signal handlers and the module graph. -/
structure MixEnv (F : Type) where
  libm : Libm F
  s : Settings F
  prioritySpeakerActiveOverride : Bool
  /-- Truth of `sh && sh->m_version >= Mumble::Protocol::PROTOBUF_INTRODUCTION_VERSION`. -/
  protobufProtocol : Bool
  /-- Whether `recorder` is non-null. -/
  recorder : Bool
  fetchPositionalData : Bool
  cameraDir : Vector3D F
  cameraAxis : Vector3D F
  cameraPos : Vector3D F
  /-- The constant `INTERAURAL_DELAY` of `AudioOutput.h`. -/
  INTERAURAL_DELAY : F
  /-- Truth of `ClientUser::c_qmUsers.contains(session)`. -/
  knownUser : Nat → Bool
  /-- The sessions queued in `Manual::bufferToBeDeleted`. -/
  bufferToBeDeleted : List Nat
  /-- The virtual `prepareSampleBuffer(frameCount)`: its result and the buffer afterwards. -/
  prepareSampleBuffer : AudioOutputBuffer F → Nat → Bool × AudioOutputBuffer F
  /-- Handlers of `audioSourceFetched`, which may rewrite the PCM of the source. -/
  audioSourceFetched : (Nat → F) → Nat → Nat → Bool → Nat → F
  /-- Handlers of `audioOutputAboutToPlay`: the output afterwards and `pluginModifiedAudio`. -/
  audioOutputAboutToPlay : (Nat → F) → Nat → Nat → (Nat → F) × Bool
  /-- The call `envManager.ProcessAll()` followed by `listener->GetBuffers(left, right)`. -/
  processAll : List (HandOff F) → ListenerTransform F → (Nat → F) × (Nat → F)

section Mixer

variable {F : Type} [LinearOrderedField F] [FloorRing F]

/-- The conversion `static_cast< int >` of a `float`: truncation towards zero. -/
def truncToInt (x : F) : Int :=
  if 0 ≤ x then ⌊x⌋ else ⌈x⌉

/-- The counted loop `for (unsigned int i = 0; i < n; ++i) body`, acting on a state. -/
def forLoop {σ : Type} (n : Nat) (body : Nat → σ → σ) (init : σ) : σ :=
  (List.range n).foldl (fun st i => body i st) init

/-- The Qt function `qBound(min, val, max)`, which is `qMax(min, qMin(max, val))`. -/
def qBound (lo val hi : F) : F :=
  max lo (min hi val)

/-- The value `old` of line 953: the cached gain, or the new one while the cache holds the
negative sentinel. -/
def interpOld (cached channelVol : F) : F :=
  if cached ≥ 0 then cached else channelVol

/-- The value `inc` of line 954. -/
def interpInc (old channelVol : F) (frameCount : Nat) : F :=
  (channelVol - old) / (frameCount : F)

/-- The gain `old + inc * i` multiplied into sample `i`, lines 986 and 988. -/
def interpGain (old inc : F) (i : Nat) : F :=
  old + inc * (i : F)

/-- The value `channelVol` of lines 940-950. -/
def positionalChannelVol (m : Libm F) (s : Settings F) (isAudible : Bool)
    (svol dot len volumeAdjustment : F) : F :=
  if isAudible then svol * calcGain m s dot len * volumeAdjustment else 0

/-- The state threaded through the channel loop of lines 935-992. -/
structure ChannelState (F : Type) where
  output : Nat → F
  pfVolume : Nat → F
  piOffset : Nat → Int

/-- The value `dot` of lines 936-939 for channel `s`. -/
def channelDot (ao : AudioOutput F) (connectionVec : Vector3D F) (s : Nat) : F :=
  if ao.bSpeakerPositional s then
    connectionVec.x * ao.speaker (s * 3 + 0) + connectionVec.y * ao.speaker (s * 3 + 1)
      + connectionVec.z * ao.speaker (s * 3 + 2)
  else 1

/-- The value `offset` of line 968: the target ITD offset of the frame. -/
def itdOffset (INTERAURAL_DELAY dot : F) : Int :=
  truncToInt (INTERAURAL_DELAY * (1 + dot) / 2)

/-- The value `incOffset` of lines 970-971. -/
def itdIncOffset (offset oldOffset : Int) (frameCount : Nat) : F :=
  ((offset - oldOffset : Int) : F) / (frameCount : F)

/-- The value `currentOffset` of lines 979-980 for sample `i`. -/
def itdCurrentOffset (oldOffset : Int) (incOffset : F) (i : Nat) : Nat :=
  (truncToInt ((oldOffset : F) + incOffset * (i : F))).toNat

/-- Body of the channel loop, lines 936-991, for channel `s`. -/
def mixPositionalChannel (env : MixEnv F) (ao : AudioOutput F) (frameCount : Nat)
    (svol : Nat → F) (connectionVec : Vector3D F) (len : F) (isAudible : Bool)
    (volumeAdjustment : F) (speechStereo : Bool) (pfBuffer : Nat → F) (s : Nat)
    (st : ChannelState F) : ChannelState F :=
  let nchan := ao.iChannels
  let dot : F := channelDot ao connectionVec s
  let channelVol : F :=
    positionalChannelVol env.libm env.s isAudible (svol s) dot len volumeAdjustment
  let old : F := interpOld (st.pfVolume s) channelVol
  let inc : F := interpInc old channelVol frameCount
  let offset : Int := itdOffset env.INTERAURAL_DELAY dot
  let oldOffset : Int := st.piOffset s
  let incOffset : F := itdIncOffset offset oldOffset frameCount
  let output : Nat → F :=
    if old ≥ 0.00000001 ∨ channelVol ≥ 0.00000001 then
      forLoop frameCount (fun i o =>
        let currentOffset : Nat := itdCurrentOffset oldOffset incOffset i
        if speechStereo then
          Function.update o (i * nchan + s)
            (o (i * nchan + s)
              + (pfBuffer (2 * i + currentOffset) / 2 + pfBuffer (2 * i + currentOffset + 1) / 2)
                * interpGain old inc i)
        else
          Function.update o (i * nchan + s)
            (o (i * nchan + s) + pfBuffer (i + currentOffset) * interpGain old inc i))
        st.output
    else st.output
  ⟨output, Function.update st.pfVolume s channelVol, Function.update st.piOffset s offset⟩

/-- The value `adjustFactor` of line 531, `std::pow(10.f, -18.f / 20)`. -/
def adjustFactor (m : Libm F) : F :=
  m.powf 10 (-18 / 20)

/-- The multiplier `volumeAdjustment` of lines 796-833. -/
def volumeAdjustment (env : MixEnv F) (prioritySpeakerActive : Bool)
    (b : AudioOutputBuffer F) : F :=
  match b.kind with
  | .speech p suggested isListen =>
    let v0 : F := 1 * p.localVolumeAdjustments
    let v1 : F :=
      if env.protobufProtocol then v0 * suggested
      else
        match p.listenerVolumeAdjustment with
        | some factor => if isListen then v0 * factor else v0
        | none => v0
    if prioritySpeakerActive then
      if p.tsState ≠ TalkState.Whispering ∧ p.bPrioritySpeaker = false then
        v1 * adjustFactor env.libm
      else v1
    else v1
  | .sample volume => 1 * volume

/-- The contents written to `userBuffer[userId]` by the loops of lines 881-892 and 999-1009:
a stereo stream is folded by adding the two channels. -/
def userSamples (frameCount : Nat) (bStereo : Bool) (pfBuffer : Nat → F) : List F :=
  (List.range frameCount).map fun i =>
    if bStereo then pfBuffer (2 * i) + pfBuffer (2 * i + 1) else pfBuffer i

/-- Lines 903-992: a positioned source that is not speech, mixed directly.  Returns the
output and the buffer with its gain and offset caches. -/
def mixPositional (env : MixEnv F) (ao : AudioOutput F) (frameCount : Nat) (svol : Nat → F)
    (volumeAdjustment : F) (b : AudioOutputBuffer F) (pfBuffer : Nat → F)
    (output : Nat → F) : (Nat → F) × AudioOutputBuffer F :=
  let outputPos : Vector3D F := b.fPos
  let ownPos : Vector3D F := env.cameraPos
  let connectionVec0 : Vector3D F := outputPos.sub ownPos
  let len : F := connectionVec0.norm env.libm
  let connectionVec : Vector3D F :=
    if len > 0 then ⟨connectionVec0.x / len, connectionVec0.y / len, connectionVec0.z / len⟩
    else connectionVec0
  let pfVolume : Nat → F :=
    match b.pfVolume with
    | some v => v
    | none => fun _ => -1
  let piOffset : Nat → Int :=
    match b.piOffset with
    | some o => o
    | none => fun _ => 0
  let isAudible : Bool :=
    decide (env.s.fAudioMaxDistVolume > 0) || decide (len < env.s.fAudioMaxDistance)
  let st : ChannelState F :=
    forLoop ao.iChannels
      (mixPositionalChannel env ao frameCount svol connectionVec len isAudible
        volumeAdjustment false pfBuffer)
      ⟨output, pfVolume, piOffset⟩
  (st.output,
    { b with pfBuffer := pfBuffer, pfVolume := some st.pfVolume, piOffset := some st.piOffset })

/-- Lines 1022-1037: a source without position that is not speech, mixed with the static
per-channel factors. -/
def mixStatic (ao : AudioOutput F) (frameCount : Nat) (svol : Nat → F) (volumeAdjustment : F)
    (bStereo : Bool) (pfBuffer : Nat → F) (output : Nat → F) : Nat → F :=
  let nchan := ao.iChannels
  forLoop nchan (fun s o =>
    let channelVol : F := svol s * volumeAdjustment
    if bStereo then
      forLoop frameCount (fun i o =>
        Function.update o (i * nchan + s)
          (o (i * nchan + s)
            + (pfBuffer (2 * i) * ao.fStereoPanningFactor (2 * s + 0)
                + pfBuffer (2 * i + 1) * ao.fStereoPanningFactor (2 * s + 1)) * channelVol)) o
    else
      forLoop frameCount (fun i o =>
        Function.update o (i * nchan + s) (o (i * nchan + s) + pfBuffer i * channelVol)) o)
    output

/-- The state threaded through the loop over `qlMix`, lines 793-1042. -/
structure MixState (F : Type) where
  output : Nat → F
  handOffs : List (HandOff F)
  mixed : List (AudioOutputBuffer F)

/-- Body of the loop over `qlMix`, lines 793-1042, for one buffer. -/
def mixBuffer (env : MixEnv F) (ao : AudioOutput F) (frameCount : Nat) (svol : Nat → F)
    (prioritySpeakerActive : Bool) (st : MixState F) (b : AudioOutputBuffer F) : MixState F :=
  let volumeAdj : F := volumeAdjustment env prioritySpeakerActive b
  let positioned : Bool := !b.fPos.isZero
  match b.kind with
  | .speech p _ _ =>
    let channels : Nat := if b.bStereo then 2 else 1
    let pfBuffer := env.audioSourceFetched b.pfBuffer frameCount channels true
    let b1 : AudioOutputBuffer F := { b with pfBuffer := pfBuffer }
    if env.recorder && p.isRecordUser then
      { st with mixed := st.mixed ++ [b1] }
    else
      let position : Vector3D F :=
        if positioned then ⟨b.fPos.z, -b.fPos.x, b.fPos.y⟩ else ⟨0, 0, 0⟩
      { st with
        handOffs := st.handOffs
          ++ [⟨p.uiSession, position, userSamples frameCount b.bStereo pfBuffer⟩]
        mixed := st.mixed ++ [b1] }
  | .sample _ =>
    let pfBuffer := env.audioSourceFetched b.pfBuffer frameCount 1 false
    if positioned then
      let r := mixPositional env ao frameCount svol volumeAdj b pfBuffer st.output
      { st with output := r.1, mixed := st.mixed ++ [r.2] }
    else
      { st with
        output := mixStatic ao frameCount svol volumeAdj b.bStereo pfBuffer st.output
        mixed := st.mixed ++ [{ b with pfBuffer := pfBuffer }] }

/-- The result of the collection pass, lines 542-597. -/
structure Collected (F : Type) where
  qlMix : List (AudioOutputBuffer F)
  qlDel : List (AudioOutputBuffer F)
  prioritySpeakerActive : Bool
  userPos : Nat → Option (Vector3D F)

/-- Body of the collection loop, lines 546-597, for one entry of `qmOutputs`.  The key of a
speech buffer is its user, the key of a sample is null. -/
def collectBuffer (env : MixEnv F) (frameCount : Nat) (acc : Collected F)
    (b : AudioOutputBuffer F) : Collected F :=
  let r := env.prepareSampleBuffer b frameCount
  if !r.1 then
    { acc with qlDel := acc.qlDel ++ [r.2] }
  else
    match r.2.kind with
    | .speech p _ _ =>
      let userPos : Nat → Option (Vector3D F) :=
        if (acc.userPos p.uiSession).isSome then acc.userPos
        else Function.update acc.userPos p.uiSession (some ⟨0, 0.0001, 0⟩)
      let b1 : AudioOutputBuffer F :=
        if env.knownUser p.uiSession then
          match userPos p.uiSession with
          | some newPos => { r.2 with fPos := newPos }
          | none => r.2
        else r.2
      { qlMix := acc.qlMix ++ [b1]
        qlDel := acc.qlDel
        prioritySpeakerActive := acc.prioritySpeakerActive || p.bPrioritySpeaker
        userPos := userPos }
    | .sample _ =>
      { acc with qlMix := acc.qlMix ++ [r.2] }

/-- The collection pass over `qmOutputs`, lines 542-597. -/
def collect (env : MixEnv F) (ao : AudioOutput F) (frameCount : Nat) : Collected F :=
  ao.qmOutputs.foldl (collectBuffer env frameCount) ⟨[], [], false, ao.userPos⟩

/-- Lines 778-785: the speaker directions rotated into the listener basis. -/
def rotateSpeakers (ao : AudioOutput F) (o : ListenerOrientation F) : Nat → F :=
  forLoop ao.iChannels (fun i sp =>
    let sp0 := Function.update sp (3 * i + 0)
      (ao.fSpeakers (3 * i + 0) * o.right.x + ao.fSpeakers (3 * i + 1) * o.cameraAxis.x
        + ao.fSpeakers (3 * i + 2) * o.cameraDir.x)
    let sp1 := Function.update sp0 (3 * i + 1)
      (ao.fSpeakers (3 * i + 0) * o.right.y + ao.fSpeakers (3 * i + 1) * o.cameraAxis.y
        + ao.fSpeakers (3 * i + 2) * o.cameraDir.y)
    Function.update sp1 (3 * i + 2)
      (ao.fSpeakers (3 * i + 0) * o.right.z + ao.fSpeakers (3 * i + 1) * o.cameraAxis.z
        + ao.fSpeakers (3 * i + 2) * o.cameraDir.z))
    ao.speaker

/-- Lines 1063-1069: the binaural buffers added to the first two channels. -/
def addBinaural (nchan frameCount : Nat) (left right : Nat → F) (output : Nat → F) :
    Nat → F :=
  if nchan ≥ 2 then
    forLoop frameCount (fun i o =>
      let o1 := Function.update o (i * nchan) (o (i * nchan) + left i)
      Function.update o1 (i * nchan + 1) (o1 (i * nchan + 1) + right i)) output
  else output

/-- What one call of `mix` leaves behind. -/
structure MixResult (F : Type) where
  /-- The value returned: whether data has been written to `outbuff`. -/
  ret : Bool
  /-- The float array `output` (which is `outbuff` itself for `SampleFloat`). -/
  output : Nat → F
  /-- The contents of `outbuff` read as an array of `short` (for `SampleShort`). -/
  outShort : Nat → Int
  /-- The buffers of `qlMix` after the frame. -/
  qlMix : List (AudioOutputBuffer F)
  /-- The buffers of `qlDel`, for which `removeBuffer` is requested after the locks are
  released. -/
  qlDel : List (AudioOutputBuffer F)
  /-- The hand-offs to the per-session source nodes, in order. -/
  handOffs : List (HandOff F)
  /-- The transform set on the listener node, if any. -/
  listenerTransform : Option (ListenerTransform F)
  ao : AudioOutput F

/-- Lines 530-1074 of `AudioOutput::mix`: the frame up to and including the emission of
`audioOutputAboutToPlay`, before the clipping of lines 1076-1086.  In the result, `output`
holds the mixed values (not yet clipped), `ret` the condition
`pluginModifiedAudio || !qlMix.isEmpty()`, and `outShort` is still as on entry. -/
def mixUnclipped (env : MixEnv F) (ao : AudioOutput F) (outFloat : Nat → F)
    (outShort : Nat → Int) (frameCount : Nat) : MixResult F :=
    let mul : F := env.s.fVolume
    let nchan : Nat := ao.iChannels
    let col := collect env ao frameCount
    let prioritySpeakerActive : Bool :=
      col.prioritySpeakerActive || env.prioritySpeakerActiveOverride
    let zeroed : Nat → F := fun k => if k < frameCount * nchan then 0 else outFloat k
    let svol : Nat → F := fun i => mul * ao.fSpeakerVolume i
    let validListener : Bool :=
      env.s.bPositionalAudio && decide (nchan > 1) && env.fetchPositionalData
    let orient := listenerOrientation env.libm env.cameraDir env.cameraAxis
    let active : Bool := !col.qlMix.isEmpty && !ao.newInstance
    let ao1 : AudioOutput F :=
      if active && validListener then
        { ao with listenerRotationQuat := orient.quat, speaker := rotateSpeakers ao orient }
      else ao
    let st : MixState F :=
      if active then
        col.qlMix.foldl (mixBuffer env ao1 frameCount svol prioritySpeakerActive)
          ⟨zeroed, [], []⟩
      else ⟨zeroed, [], col.qlMix⟩
    let listenerPos : Vector3D F := ⟨env.cameraPos.z, -env.cameraPos.x, env.cameraPos.y⟩
    let transform : ListenerTransform F :=
      if validListener then
        ⟨listenerPos, ⟨ao1.listenerRotationQuat.w, ao1.listenerRotationQuat.z,
          ao1.listenerRotationQuat.x, ao1.listenerRotationQuat.y⟩⟩
      else ⟨listenerPos, ⟨1, 0, 0, 0⟩⟩
    let mixedOut : Nat → F :=
      if active then
        let lr := env.processAll st.handOffs transform
        addBinaural nchan frameCount lr.1 lr.2 st.output
      else st.output
    let hook := env.audioOutputAboutToPlay mixedOut frameCount nchan
    let written : Bool := hook.2 || !col.qlMix.isEmpty
    ⟨written, hook.1, outShort, st.mixed, col.qlDel, st.handOffs,
      if active then some transform else none,
      { ao1 with
        newInstance := false
        userPos := fun k => if k ∈ env.bufferToBeDeleted then none else col.userPos k }⟩

/-- The function `AudioOutput::mix` (lines 514-1105).  `outFloat` is the initial contents of
the float array `output`, `outShort` the initial contents of `outbuff` read as shorts. -/
def mix (env : MixEnv F) (ao : AudioOutput F) (outFloat : Nat → F) (outShort : Nat → Int)
    (frameCount : Nat) : MixResult F :=
  if env.s.fVolume < 0.01 then
    ⟨false, outFloat, outShort, [], [], [], none, ao⟩
  else
    let r := mixUnclipped env ao outFloat outShort frameCount
    let clippedFloat : Nat → F :=
      if r.ret && decide (ao.eSampleFormat = SampleFormat.SampleFloat) then
        forLoop (frameCount * ao.iChannels)
          (fun i o => Function.update o i (qBound (-1) (o i) 1)) r.output
      else r.output
    let clippedShort : Nat → Int :=
      if r.ret && decide (ao.eSampleFormat ≠ SampleFormat.SampleFloat) then
        forLoop (frameCount * ao.iChannels) (fun i o =>
          Function.update o i (truncToInt (qBound (-32768) (r.output i * 32768) 32767)))
          outShort
      else outShort
    { r with output := clippedFloat, outShort := clippedShort }

end Mixer

/-! ## Example data for the scenarios -/

section Examples

variable {F : Type} [LinearOrderedField F]

/-- Example settings: master volume 1, bloom 0.5, distances from 1 to 15, floor 0.1,
positional audio enabled. -/
def exampleSettings : Settings F :=
  ⟨1, 0.5, 1, 15, 0.1, true⟩

/-- Example environment: no recorder, no plugin handler, no positional data fetched, every
buffer ready with its PCM in place, and a module graph that returns 0.25 on both ears. -/
def exampleEnv (m : Libm F) (s : Settings F) (cameraPos : Vector3D F) : MixEnv F where
  libm := m
  s := s
  prioritySpeakerActiveOverride := false
  protobufProtocol := true
  recorder := false
  fetchPositionalData := false
  cameraDir := ⟨0, 0, 1⟩
  cameraAxis := ⟨0, 1, 0⟩
  cameraPos := cameraPos
  INTERAURAL_DELAY := 20
  knownUser := fun _ => false
  bufferToBeDeleted := []
  prepareSampleBuffer := fun b _ => (true, b)
  audioSourceFetched := fun pf _ _ _ => pf
  audioOutputAboutToPlay := fun o _ _ => (o, false)
  processAll := fun _ _ => (fun _ => 0.25, fun _ => 0.25)

/-- Example mixer state: float output, full speaker volumes, every speaker pointing forward
`(0, 0, 1)` and positional as soon as there is more than one channel, not a new instance. -/
def exampleOutput (iChannels : Nat) (qmOutputs : List (AudioOutputBuffer F)) :
    AudioOutput F where
  iChannels := iChannels
  fSpeakers := fun k => if k % 3 = 2 then 1 else 0
  fSpeakerVolume := fun _ => 1
  bSpeakerPositional := fun _ => decide (iChannels > 1)
  fStereoPanningFactor := fun _ => 0.5
  eSampleFormat := SampleFormat.SampleFloat
  newInstance := false
  listenerRotationQuat := ⟨0, 0, 0, 0⟩
  speaker := fun k => if k % 3 = 2 then 1 else 0
  qmOutputs := qmOutputs
  userPos := fun _ => none

/-- Example user: session 1, talking at full volume, no priority speaker. -/
def exampleUser : ClientUser F :=
  ⟨1, false, TalkState.Talking, 1, false, none⟩

/-- Example speech buffer: mono, without position, every PCM sample equal to `pcm`. -/
def exampleSpeech (pcm : F) : AudioOutputBuffer F :=
  ⟨BufferKind.speech exampleUser 1 false, ⟨0, 0, 0⟩, false, fun _ => pcm, none, none⟩

/-- Example one-shot sample: mono, at `fPos`, every PCM sample equal to `pcm`, with the
gain cache `pfVolume`. -/
def exampleSample (volume : F) (fPos : Vector3D F) (pcm : F) (pfVolume : Option (Nat → F)) :
    AudioOutputBuffer F :=
  ⟨BufferKind.sample volume, fPos, false, fun _ => pcm, pfVolume, none⟩

end Examples


section PriorityExamples

variable {F : Type} [LinearOrderedField F]

/-- Example priority speaker: session 2, talking at full volume. -/
def examplePriorityUser : ClientUser F :=
  ⟨2, true, TalkState.Talking, 1, false, none⟩

/-- Example speech buffer of the priority speaker: mono, without position, every PCM sample
equal to `pcm`. -/
def examplePrioritySpeech (pcm : F) : AudioOutputBuffer F :=
  ⟨BufferKind.speech examplePriorityUser 1 false, ⟨0, 0, 0⟩, false, fun _ => pcm, none, none⟩

end PriorityExamples

section CollectExamples

variable {F : Type} [LinearOrderedField F]

/-- Example settings with the master volume at 0.005, below the threshold of `mix`. -/
def exampleSettingsQuiet : Settings F :=
  ⟨0.005, 0.5, 1, 15, 0.1, true⟩

end CollectExamples

/-! ## Speaker set-up (`AudioOutput::initializeMixer`, lines 339-455) -/

/-- Modelled from the spec: the speaker position masks `SPEAKER_...`, which are declared
outside the sources at hand; the values are those of the platform header `ksmedia.h`. -/
def SPEAKER_FRONT_LEFT : Nat := 0x1

/-- Modelled from the spec: see `SPEAKER_FRONT_LEFT`. -/
def SPEAKER_FRONT_RIGHT : Nat := 0x2

/-- Modelled from the spec: see `SPEAKER_FRONT_LEFT`. -/
def SPEAKER_FRONT_CENTER : Nat := 0x4

/-- Modelled from the spec: see `SPEAKER_FRONT_LEFT`. -/
def SPEAKER_LOW_FREQUENCY : Nat := 0x8

/-- Modelled from the spec: see `SPEAKER_FRONT_LEFT`. -/
def SPEAKER_BACK_LEFT : Nat := 0x10

/-- Modelled from the spec: see `SPEAKER_FRONT_LEFT`. -/
def SPEAKER_BACK_RIGHT : Nat := 0x20

/-- Modelled from the spec: see `SPEAKER_FRONT_LEFT`. -/
def SPEAKER_FRONT_LEFT_OF_CENTER : Nat := 0x40

/-- Modelled from the spec: see `SPEAKER_FRONT_LEFT`. -/
def SPEAKER_FRONT_RIGHT_OF_CENTER : Nat := 0x80

/-- Modelled from the spec: see `SPEAKER_FRONT_LEFT`. -/
def SPEAKER_BACK_CENTER : Nat := 0x100

/-- Modelled from the spec: see `SPEAKER_FRONT_LEFT`. -/
def SPEAKER_SIDE_LEFT : Nat := 0x200

/-- Modelled from the spec: see `SPEAKER_FRONT_LEFT`. -/
def SPEAKER_SIDE_RIGHT : Nat := 0x400

/-- Modelled from the spec: see `SPEAKER_FRONT_LEFT`. -/
def SPEAKER_TOP_CENTER : Nat := 0x800

/-- Modelled from the spec: see `SPEAKER_FRONT_LEFT`. -/
def SPEAKER_TOP_FRONT_LEFT : Nat := 0x1000

/-- Modelled from the spec: see `SPEAKER_FRONT_LEFT`. -/
def SPEAKER_TOP_FRONT_CENTER : Nat := 0x2000

/-- Modelled from the spec: see `SPEAKER_FRONT_LEFT`. -/
def SPEAKER_TOP_FRONT_RIGHT : Nat := 0x4000

/-- Modelled from the spec: see `SPEAKER_FRONT_LEFT`. -/
def SPEAKER_TOP_BACK_LEFT : Nat := 0x8000

/-- Modelled from the spec: see `SPEAKER_FRONT_LEFT`. -/
def SPEAKER_TOP_BACK_CENTER : Nat := 0x10000

/-- Modelled from the spec: see `SPEAKER_FRONT_LEFT`. -/
def SPEAKER_TOP_BACK_RIGHT : Nat := 0x20000

/-- The masks that the `switch` of `initializeMixer` has a `case` for. -/
def recognisedSpeakerMasks : List Nat :=
  [SPEAKER_FRONT_LEFT, SPEAKER_FRONT_RIGHT, SPEAKER_FRONT_CENTER, SPEAKER_LOW_FREQUENCY,
    SPEAKER_BACK_LEFT, SPEAKER_BACK_RIGHT, SPEAKER_FRONT_LEFT_OF_CENTER,
    SPEAKER_FRONT_RIGHT_OF_CENTER, SPEAKER_BACK_CENTER, SPEAKER_SIDE_LEFT, SPEAKER_SIDE_RIGHT,
    SPEAKER_TOP_CENTER, SPEAKER_TOP_FRONT_LEFT, SPEAKER_TOP_FRONT_CENTER,
    SPEAKER_TOP_FRONT_RIGHT, SPEAKER_TOP_BACK_LEFT, SPEAKER_TOP_BACK_CENTER,
    SPEAKER_TOP_BACK_RIGHT]

section InitializeMixer

variable {F : Type} [LinearOrderedField F]

/-- What `initializeMixer` computes for one channel: the direction `s[0..2]` (the cells
`fSpeakers[3 i .. 3 i + 2]`), `bSpeakerPositional[i]` and `fSpeakerVolume[i]`. -/
structure SpeakerSetup (F : Type) where
  s : Vector3D F
  bSpeakerPositional : Bool
  fSpeakerVolume : F

/-- The `switch (chanmasks[i])` of lines 364-448, entered with `s` zeroed,
`bSpeakerPositional[i] = true` and `fSpeakerVolume[i] = 1`. -/
def speakerSwitch (mask : Nat) : SpeakerSetup F :=
  if mask = SPEAKER_FRONT_LEFT then ⟨⟨-0.5, 0, 1⟩, true, 1⟩
  else if mask = SPEAKER_FRONT_RIGHT then ⟨⟨0.5, 0, 1⟩, true, 1⟩
  else if mask = SPEAKER_FRONT_CENTER then ⟨⟨0, 0, 1⟩, true, 1⟩
  else if mask = SPEAKER_LOW_FREQUENCY then ⟨⟨0, 0, 0⟩, true, 1⟩
  else if mask = SPEAKER_BACK_LEFT then ⟨⟨-0.5, 0, -1⟩, true, 1⟩
  else if mask = SPEAKER_BACK_RIGHT then ⟨⟨0.5, 0, -1⟩, true, 1⟩
  else if mask = SPEAKER_FRONT_LEFT_OF_CENTER then ⟨⟨-0.25, 0, 1⟩, true, 1⟩
  else if mask = SPEAKER_FRONT_RIGHT_OF_CENTER then ⟨⟨0.25, 0, 1⟩, true, 1⟩
  else if mask = SPEAKER_BACK_CENTER then ⟨⟨0, 0, -1⟩, true, 1⟩
  else if mask = SPEAKER_SIDE_LEFT then ⟨⟨-1, 0, 0⟩, true, 1⟩
  else if mask = SPEAKER_SIDE_RIGHT then ⟨⟨1, 0, 0⟩, true, 1⟩
  else if mask = SPEAKER_TOP_CENTER then ⟨⟨0, 1, 1⟩, true, 1⟩
  else if mask = SPEAKER_TOP_FRONT_LEFT then ⟨⟨-0.5, 1, 1⟩, true, 1⟩
  else if mask = SPEAKER_TOP_FRONT_CENTER then ⟨⟨0, 1, 1⟩, true, 1⟩
  else if mask = SPEAKER_TOP_FRONT_RIGHT then ⟨⟨0.5, 1, 1⟩, true, 1⟩
  else if mask = SPEAKER_TOP_BACK_LEFT then ⟨⟨-0.5, 1, -1⟩, true, 1⟩
  else if mask = SPEAKER_TOP_BACK_CENTER then ⟨⟨0, 1, -1⟩, true, 1⟩
  else if mask = SPEAKER_TOP_BACK_RIGHT then ⟨⟨0.5, 1, -1⟩, true, 1⟩
  else ⟨⟨0, 0, 0⟩, false, 0⟩

/-- Body of the first channel loop, lines 360-455: the `switch`, then the headphone
adjustment of lines 450-455. -/
def speakerSetup (bPositionalHeadphone forceheadphone : Bool) (mask : Nat) :
    SpeakerSetup F :=
  let r : SpeakerSetup F := speakerSwitch mask
  if bPositionalHeadphone || forceheadphone then
    ⟨⟨r.s.x, 0, 0⟩, r.bSpeakerPositional, if r.s.x = 0 then 0 else r.fSpeakerVolume⟩
  else r

/-- Body of the second channel loop, lines 457-465: the direction divided by its length when
the length is positive. -/
def speakerNormalised (m : Libm F) (s : Vector3D F) : Vector3D F :=
  let d : F := m.sqrtf (s.x * s.x + s.y * s.y + s.z * s.z)
  if d > 0 then ⟨s.x / d, s.y / d, s.z / d⟩ else s

/-- The arrays that `initializeMixer` allocates and fills. -/
structure MixerSetup (F : Type) where
  fSpeakers : Nat → F
  bSpeakerPositional : Nat → Bool
  fSpeakerVolume : Nat → F
  fStereoPanningFactor : Nat → F

/-- The function `AudioOutput::initializeMixer`, lines 339-449, for `iChannels` channels
with the masks `chanmasks`; `bPositionalHeadphone` is the setting
`Global::get().s.bPositionalHeadphone`.  Each iteration of the two channel loops writes only
the cells of its own channel, so the arrays are given cell by cell: cell `k` of `fSpeakers`
belongs to channel `k / 3`, cell `k` of `fStereoPanningFactor` to channel `k / 2`.  Cells that
no statement writes keep the value of the initialisation (`memset` to zero, volume 1); the
cells of `fStereoPanningFactor` are not initialised and read as 0 here. -/
def initializeMixer (m : Libm F) (iChannels : Nat) (bPositionalHeadphone : Bool)
    (chanmasks : Nat → Nat) (forceheadphone : Bool) : MixerSetup F :=
  let setup : Nat → SpeakerSetup F := fun i =>
    speakerSetup bPositionalHeadphone forceheadphone (chanmasks i)
  let direction : Nat → Vector3D F := fun i => speakerNormalised m (setup i).s
  if iChannels > 1 then
    { fSpeakers := fun k =>
        if k / 3 < iChannels then
          if k % 3 = 0 then (direction (k / 3)).x
          else if k % 3 = 1 then (direction (k / 3)).y
          else (direction (k / 3)).z
        else 0
      bSpeakerPositional := fun i =>
        if i < iChannels then (setup i).bSpeakerPositional else false
      fSpeakerVolume := fun i => if i < iChannels then (setup i).fSpeakerVolume else 1
      fStereoPanningFactor := fun k =>
        if k / 2 < iChannels then
          if k % 2 = 0 then (1 - (direction (k / 2)).x) / 2
          else (1 + (direction (k / 2)).x) / 2
        else 0 }
  else
    { fSpeakers := fun _ => 0
      bSpeakerPositional := fun _ => false
      fSpeakerVolume := fun _ => 1
      fStereoPanningFactor := fun k => if iChannels = 1 ∧ k < 2 then 0.5 else 0 }

end InitializeMixer

/-! ## Output buffers of the listener model (`CListenerModelBase`)

Shallow embedding of `GetBuffers`, `updateFromEntryPoint`, `UpdateLeftBuffer` and
`UpdateRightBuffer` of `3rdparty/BRTLibrary-main-old/include/Base/ListenerModelBase.hpp`. -/

section ListenerModel

variable {F : Type} [LinearOrderedField F]

/-- Modelled from the spec: the constructor `CMonoBuffer<float>(n)`, a buffer of `n` samples
set to zero.  The buffer class is not part of the sources at hand; a buffer is the list of its
samples. -/
def CMonoBuffer (n : Nat) : List F :=
  List.replicate n 0

/-- Modelled from the spec: the operator `+=` of `CMonoBuffer`, which adds the other buffer
sample by sample; both buffers are taken to have the same size. -/
def CMonoBuffer.add (buffer other : List F) : List F :=
  List.zipWith (fun a b => a + b) buffer other

/-- The data members of `CListenerModelBase` that the output buffers depend on, and the value
`globalParameters.GetBufferSize()`. -/
structure CListenerModelBase (F : Type) where
  bufferSize : Nat
  leftBuffer : List F
  rightBuffer : List F
  leftDataReady : Bool
  rightDataReady : Bool

namespace CListenerModelBase

/-- `UpdateLeftBuffer`, lines 160-169; `buffer` is the value of
`GetSamplesEntryPoint("leftEar")->GetData()`. -/
def UpdateLeftBuffer (st : CListenerModelBase F) (buffer : List F) : CListenerModelBase F :=
  let st1 : CListenerModelBase F :=
    if !st.leftDataReady then { st with leftBuffer := CMonoBuffer st.bufferSize } else st
  if buffer.length ≠ 0 then
    { st1 with leftBuffer := CMonoBuffer.add st1.leftBuffer buffer, leftDataReady := true }
  else st1

/-- `UpdateRightBuffer`, lines 173-182; `buffer` is the value of
`GetSamplesEntryPoint("rightEar")->GetData()`. -/
def UpdateRightBuffer (st : CListenerModelBase F) (buffer : List F) : CListenerModelBase F :=
  let st1 : CListenerModelBase F :=
    if !st.rightDataReady then { st with rightBuffer := CMonoBuffer st.bufferSize } else st
  if buffer.length ≠ 0 then
    { st1 with rightBuffer := CMonoBuffer.add st1.rightBuffer buffer, rightDataReady := true }
  else st1

/-- `updateFromEntryPoint`, lines 127-134; `buffer` is the data held by the entry point
named `id` at the time of the call. -/
def updateFromEntryPoint (st : CListenerModelBase F) (id : String) (buffer : List F) :
    CListenerModelBase F :=
  if id = "leftEar" then UpdateLeftBuffer st buffer
  else if id = "rightEar" then UpdateRightBuffer st buffer
  else st

/-- `GetBuffers`, lines 100-122: the pair `(_leftBuffer, _rightBuffer)` and the state
afterwards. -/
def GetBuffers (st : CListenerModelBase F) : (List F × List F) × CListenerModelBase F :=
  let left : List F := if st.leftDataReady then st.leftBuffer else CMonoBuffer st.bufferSize
  let st1 : CListenerModelBase F :=
    if st.leftDataReady then { st with leftDataReady := false } else st
  let right : List F :=
    if st1.rightDataReady then st1.rightBuffer else CMonoBuffer st1.bufferSize
  let st2 : CListenerModelBase F :=
    if st1.rightDataReady then { st1 with rightDataReady := false } else st1
  ((left, right), st2)

/-- The state after a sequence of updates, each given by the name of the entry point and the
buffer it holds. -/
def updates (st : CListenerModelBase F) (received : List (String × List F)) :
    CListenerModelBase F :=
  received.foldl (fun s u => updateFromEntryPoint s u.1 u.2) st

end CListenerModelBase

/-- The sample-by-sample sum, starting from a zero buffer of `bufferSize` samples, of the
buffers of `received` that are not empty and came in on the entry point `id`; a zero buffer
when there is none. -/
def earSum (bufferSize : Nat) (id : String) (received : List (String × List F)) : List F :=
  ((received.filter fun u => decide (u.1 = id) && decide (u.2.length ≠ 0)).map
    fun u => u.2).foldl CMonoBuffer.add (CMonoBuffer bufferSize)

end ListenerModel

/-! ## The module registry, `CBRTManager`

Shallow embedding of `3rdparty/BRTLibrary-main/include/Base/BRTManager.hpp`.  The registry is a
record of its data members; every member function becomes a function from the registry before
the call to the value returned and the registry after the call.  The calls the registry makes
on the modules themselves (wiring of entry points, `SetDataReady`) are recorded, in order, in
the field `calls`.  Reports to the error handler (`SET_RESULT`) and exhaustion of memory (the
`catch (std::bad_alloc&)` branches) are not represented. -/

/-- Modelled from the spec: a module (node) of the graph, held by the registry through a
`shared_ptr`.  The module classes are not part of the sources at hand; the registry only uses
the identifier given to the constructor, which `GetID` / `GetModelID` return.  `serial` is the
rank of the allocation that made the object: it stands for the address, and tells apart two
objects created with the same identifier at different times. -/
structure Module where
  serial : Nat
  id : String
  deriving DecidableEq, Repr

/-- The kinds of entry and exit points that the `ConnectModule...` functions wire. -/
inductive PointType
  | Transform
  | HRTF
  | HRBRIR
  | ABIR
  | ILD
  | ID
  | Samples
  | MultipleSamplesVectors
  deriving DecidableEq, Repr

/-- One call made by the registry on a module. -/
inductive ModuleCall
  /-- The call `module2->connect...EntryTo(module1->Get...ExitPoint(exitPointID), entryPointID)`;
  `exitPointID` is empty for the point types whose exit point has no name. -/
  | connectEntryTo (point : PointType) (module1 : Module) (exitPointID : String)
      (module2 : Module) (entryPointID : String)
  /-- The call `module2->disconnect...EntryTo(module1->Get...ExitPoint(exitPointID), entryPointID)`. -/
  | disconnectEntryTo (point : PointType) (module1 : Module) (exitPointID : String)
      (module2 : Module) (entryPointID : String)
  /-- The call `module1->connectCommandEntryTo(commandsExitPoint)`. -/
  | connectCommandEntryTo (module1 : Module)
  /-- The call `module1->disconnectCommandEntryTo(commandsExitPoint)`. -/
  | disconnectCommandEntryTo (module1 : Module)
  /-- The call `source->SetDataReady()`. -/
  | SetDataReady (source : Module)
  deriving DecidableEq, Repr

/-- The data members of `CBRTManager` (lines 836-842), the count of modules allocated so far and
the record of the calls made on modules. -/
structure CBRTManager where
  audioSources : List Module
  listeners : List Module
  listenerModels : List Module
  environmentModels : List Module
  binauralFilters : List Module
  initialized : Bool
  setupModeActivated : Bool
  /-- Number of modules allocated so far by the `Create...` functions. -/
  allocated : Nat
  /-- The calls made on modules so far, oldest first. -/
  calls : List ModuleCall
  deriving DecidableEq, Repr

namespace CBRTManager

/-- The constructor, line 42: no module stored, neither initialised nor in setup mode. -/
def ctor : CBRTManager :=
  ⟨[], [], [], [], [], false, false, 0, []⟩

/-- The search `std::find_if(list.begin(), list.end(), item->GetID() == id)` used throughout:
the first stored module with the identifier, `none` standing for `list.end()`. -/
def findIf (list : List Module) (id : String) : Option Module :=
  list.find? (fun item => item.id == id)

/-- The call `list.erase(it)` for the iterator `it` that `findIf` returned: the first stored
module with the identifier is taken out, the others keep their order. -/
def eraseFound (list : List Module) (id : String) : List Module :=
  list.eraseP (fun item => item.id == id)

/-- `BeginSetup`, lines 49-51. -/
def BeginSetup (st : CBRTManager) : CBRTManager :=
  { st with setupModeActivated := true }

/-- `EndSetup`, lines 58-67. -/
def EndSetup (st : CBRTManager) : Bool × CBRTManager :=
  if st.setupModeActivated then
    (true, { st with initialized := true, setupModeActivated := false })
  else (false, st)

/-- `ConnectModulesCommand`, lines 789-794; the test of the setup mode is commented out in the
source. -/
def ConnectModulesCommand (st : CBRTManager) (module1 : Module) : Bool × CBRTManager :=
  (true, { st with calls := st.calls ++ [ModuleCall.connectCommandEntryTo module1] })

/-- `DisconnectModulesCommand`, lines 804-809; the test of the setup mode is commented out in
the source. -/
def DisconnectModulesCommand (st : CBRTManager) (module1 : Module) : Bool × CBRTManager :=
  (true, { st with calls := st.calls ++ [ModuleCall.disconnectCommandEntryTo module1] })

/-- `CreateListener`, lines 74-98.  The value is the pointer returned (`none` for `nullptr`)
and the registry after the call. -/
def CreateListener (st : CBRTManager) (_listenerID : String) : Option Module × CBRTManager :=
  if !st.setupModeActivated then (none, st)
  else if (findIf st.listeners _listenerID).isSome then (none, st)
  else
    let newListener : Module := ⟨st.allocated, _listenerID⟩
    let st1 := (ConnectModulesCommand { st with allocated := st.allocated + 1 } newListener).2
    (some newListener, { st1 with listeners := st1.listeners ++ [newListener] })

/-- `GetListener`, lines 107-131. -/
def GetListener (st : CBRTManager) (_listenerID : String) : Option Module :=
  st.listeners.find? (fun it => it.id == _listenerID)

/-- `GetListenerIDs`, lines 137-143. -/
def GetListenerIDs (st : CBRTManager) : List String :=
  st.listeners.map (fun it => it.id)

/-- `CreateSoundSource`, lines 151-175. -/
def CreateSoundSource (st : CBRTManager) (_sourceID : String) : Option Module × CBRTManager :=
  if !st.setupModeActivated then (none, st)
  else if (findIf st.audioSources _sourceID).isSome then (none, st)
  else
    let newSource : Module := ⟨st.allocated, _sourceID⟩
    let st1 := (ConnectModulesCommand { st with allocated := st.allocated + 1 } newSource).2
    (some newSource, { st1 with audioSources := st1.audioSources ++ [newSource] })

/-- `GetSoundSource`, lines 183-185, through `FindSoundSource`, lines 876-882. -/
def GetSoundSource (st : CBRTManager) (_sourceID : String) : Option Module :=
  findIf st.audioSources _sourceID

/-- `RemoveSoundSource`, lines 192-204. -/
def RemoveSoundSource (st : CBRTManager) (_sourceID : String) : Bool × CBRTManager :=
  if !st.setupModeActivated then (false, st)
  else
    match findIf st.audioSources _sourceID with
    | some it =>
      let st1 := (DisconnectModulesCommand st it).2
      (true, { st1 with audioSources := eraseFound st1.audioSources _sourceID })
    | none => (false, st)

/-- `CreateListenerModel`, lines 212-237. -/
def CreateListenerModel (st : CBRTManager) (_listenerID : String) :
    Option Module × CBRTManager :=
  if !st.setupModeActivated then (none, st)
  else if (findIf st.listenerModels _listenerID).isSome then (none, st)
  else
    let newListener : Module := ⟨st.allocated, _listenerID⟩
    let st1 := (ConnectModulesCommand { st with allocated := st.allocated + 1 } newListener).2
    (some newListener, { st1 with listenerModels := st1.listenerModels ++ [newListener] })

/-- `GetListenerModel`, lines 245-248, through `FindModel`, lines 862-869. -/
def GetListenerModel (st : CBRTManager) (_listenerModelID : String) : Option Module :=
  findIf st.listenerModels _listenerModelID

/-- `GetListenerModelIDs`, lines 254-260. -/
def GetListenerModelIDs (st : CBRTManager) : List String :=
  st.listenerModels.map (fun it => it.id)

/-- `CreateEnvironment`, lines 274-298. -/
def CreateEnvironment (st : CBRTManager) (_environmentID : String) :
    Option Module × CBRTManager :=
  if !st.setupModeActivated then (none, st)
  else if (findIf st.environmentModels _environmentID).isSome then (none, st)
  else
    let newEnvironment : Module := ⟨st.allocated, _environmentID⟩
    let st1 := (ConnectModulesCommand { st with allocated := st.allocated + 1 } newEnvironment).2
    (some newEnvironment, { st1 with environmentModels := st1.environmentModels ++ [newEnvironment] })

/-- `CreateProcessor`, lines 324-362 (both overloads): the processor is not stored. -/
def CreateProcessor (st : CBRTManager) : Option Module × CBRTManager :=
  if !st.setupModeActivated then (none, st)
  else
    let newProcessor : Module := ⟨st.allocated, ""⟩
    (some newProcessor,
      (ConnectModulesCommand { st with allocated := st.allocated + 1 } newProcessor).2)

/-- `RemoveListener`, lines 370-380.  The search runs over `listenerModels`.  When it finds a
module, the element is erased (line 375) and `it->reset()` is then called through the iterator
(line 376), which `erase` has invalidated: the behaviour of the call is undefined, rendered as
`none`.  (Where vector iterators are plain pointers, `it` then designates the element that
followed the erased one, or the destroyed last slot.) -/
def RemoveListener (st : CBRTManager) (_listenerID : String) : Option (Bool × CBRTManager) :=
  if !st.setupModeActivated then some (false, st)
  else
    match findIf st.listenerModels _listenerID with
    | some _ => none
    | none => some (false, st)

/-- `RemoveProcessor`, lines 389-394: `reset` acts on the copy of the pointer passed by value. -/
def RemoveProcessor (st : CBRTManager) (_processor : Module) : Bool × CBRTManager :=
  if !st.setupModeActivated then (false, st)
  else (true, (DisconnectModulesCommand st _processor).2)

/-- `CreateBinauralFilter`, lines 402-424. -/
def CreateBinauralFilter (st : CBRTManager) (_binauralFilterID : String) :
    Option Module × CBRTManager :=
  if !st.setupModeActivated then (none, st)
  else if (findIf st.binauralFilters _binauralFilterID).isSome then (none, st)
  else
    let newBinauralFilter : Module := ⟨st.allocated, _binauralFilterID⟩
    let st1 :=
      (ConnectModulesCommand { st with allocated := st.allocated + 1 } newBinauralFilter).2
    (some newBinauralFilter,
      { st1 with binauralFilters := st1.binauralFilters ++ [newBinauralFilter] })

/-- The common body of the guarded `ConnectModule...` and `DisconnectModule...` functions,
lines 463-778: `if (!setupModeActivated) return false;`, then the call on `module2`, then
`return true;`. -/
def guardedCall (st : CBRTManager) (call : ModuleCall) : Bool × CBRTManager :=
  if !st.setupModeActivated then (false, st)
  else (true, { st with calls := st.calls ++ [call] })

/-- `ConnectModuleTransform`, lines 463-474. -/
def ConnectModuleTransform (st : CBRTManager) (module1 module2 : Module)
    (entryPointID : String) : Bool × CBRTManager :=
  guardedCall st (ModuleCall.connectEntryTo PointType.Transform module1 "" module2 entryPointID)

/-- `DisconnectModuleTransform`, lines 485-496. -/
def DisconnectModuleTransform (st : CBRTManager) (module1 module2 : Module)
    (entryPointID : String) : Bool × CBRTManager :=
  guardedCall st
    (ModuleCall.disconnectEntryTo PointType.Transform module1 "" module2 entryPointID)

/-- `ConnectModuleHRTF`, lines 507-518. -/
def ConnectModuleHRTF (st : CBRTManager) (module1 module2 : Module)
    (entryPointID : String) : Bool × CBRTManager :=
  guardedCall st (ModuleCall.connectEntryTo PointType.HRTF module1 "" module2 entryPointID)

/-- `DisconnectModuleHRTF`, lines 529-540. -/
def DisconnectModuleHRTF (st : CBRTManager) (module1 module2 : Module)
    (entryPointID : String) : Bool × CBRTManager :=
  guardedCall st (ModuleCall.disconnectEntryTo PointType.HRTF module1 "" module2 entryPointID)

/-- `ConnectModuleHRBRIR`, lines 551-562. -/
def ConnectModuleHRBRIR (st : CBRTManager) (module1 module2 : Module)
    (entryPointID : String) : Bool × CBRTManager :=
  guardedCall st (ModuleCall.connectEntryTo PointType.HRBRIR module1 "" module2 entryPointID)

/-- `DisconnectModuleHRBRIR`, lines 573-584. -/
def DisconnectModuleHRBRIR (st : CBRTManager) (module1 module2 : Module)
    (entryPointID : String) : Bool × CBRTManager :=
  guardedCall st (ModuleCall.disconnectEntryTo PointType.HRBRIR module1 "" module2 entryPointID)

/-- `ConnectModuleABIR`, lines 586-597. -/
def ConnectModuleABIR (st : CBRTManager) (module1 module2 : Module)
    (entryPointID : String) : Bool × CBRTManager :=
  guardedCall st (ModuleCall.connectEntryTo PointType.ABIR module1 "" module2 entryPointID)

/-- `ConnectModuleILD`, lines 610-621. -/
def ConnectModuleILD (st : CBRTManager) (module1 module2 : Module)
    (entryPointID : String) : Bool × CBRTManager :=
  guardedCall st (ModuleCall.connectEntryTo PointType.ILD module1 "" module2 entryPointID)

/-- `DisconnectModuleILD`, lines 631-642. -/
def DisconnectModuleILD (st : CBRTManager) (module1 module2 : Module)
    (entryPointID : String) : Bool × CBRTManager :=
  guardedCall st (ModuleCall.disconnectEntryTo PointType.ILD module1 "" module2 entryPointID)

/-- `ConnectModuleID`, lines 653-670. -/
def ConnectModuleID (st : CBRTManager) (module1 module2 : Module)
    (entryPointID : String) : Bool × CBRTManager :=
  guardedCall st (ModuleCall.connectEntryTo PointType.ID module1 "" module2 entryPointID)

/-- `DisconnectModuleID`, lines 680-691. -/
def DisconnectModuleID (st : CBRTManager) (module1 module2 : Module)
    (entryPointID : String) : Bool × CBRTManager :=
  guardedCall st (ModuleCall.disconnectEntryTo PointType.ID module1 "" module2 entryPointID)

/-- `ConnectModulesSamples`, lines 702-713. -/
def ConnectModulesSamples (st : CBRTManager) (module1 : Module) (exitPointID : String)
    (module2 : Module) (entryPointID : String) : Bool × CBRTManager :=
  guardedCall st
    (ModuleCall.connectEntryTo PointType.Samples module1 exitPointID module2 entryPointID)

/-- `DisconnectModulesSamples`, lines 723-734. -/
def DisconnectModulesSamples (st : CBRTManager) (module1 : Module) (exitPointID : String)
    (module2 : Module) (entryPointID : String) : Bool × CBRTManager :=
  guardedCall st
    (ModuleCall.disconnectEntryTo PointType.Samples module1 exitPointID module2 entryPointID)

/-- `ConnectModulesMultipleSamplesVectors`, lines 745-756. -/
def ConnectModulesMultipleSamplesVectors (st : CBRTManager) (module1 : Module)
    (exitPointID : String) (module2 : Module) (entryPointID : String) : Bool × CBRTManager :=
  guardedCall st
    (ModuleCall.connectEntryTo PointType.MultipleSamplesVectors module1 exitPointID module2
      entryPointID)

/-- `DisconnectModulesMultipleSamplesVectors`, lines 767-778. -/
def DisconnectModulesMultipleSamplesVectors (st : CBRTManager) (module1 : Module)
    (exitPointID : String) (module2 : Module) (entryPointID : String) : Bool × CBRTManager :=
  guardedCall st
    (ModuleCall.disconnectEntryTo PointType.MultipleSamplesVectors module1 exitPointID module2
      entryPointID)

/-- `ProcessAllThread`, lines 851-853: `SetDataReady` on each stored source, in the order of
`audioSources`. -/
def ProcessAllThread (st : CBRTManager) : CBRTManager :=
  st.audioSources.foldl
    (fun s it => { s with calls := s.calls ++ [ModuleCall.SetDataReady it] }) st

/-- `ProcessAll`, lines 818-822: outside setup mode a thread runs `ProcessAllThread` and is
joined before the function returns, so the caller sees the registry left by that thread. -/
def ProcessAll (st : CBRTManager) : CBRTManager :=
  if st.setupModeActivated then st
  else ProcessAllThread st

end CBRTManager

/-- One call on the registry, as a value: the calls of which call sequences are made. -/
inductive ManagerCall
  | BeginSetup
  | EndSetup
  | CreateSoundSource (_sourceID : String)
  | CreateListener (_listenerID : String)
  | CreateListenerModel (_listenerID : String)
  | CreateEnvironment (_environmentID : String)
  | CreateBinauralFilter (_binauralFilterID : String)
  | CreateProcessor
  | RemoveSoundSource (_sourceID : String)
  | RemoveListener (_listenerID : String)
  | RemoveProcessor (_processor : Module)
  | ProcessAll
  deriving DecidableEq, Repr

namespace CBRTManager

/-- The registry after one call; `none` when the behaviour of the call is undefined. -/
def step (st : CBRTManager) : ManagerCall → Option CBRTManager
  | ManagerCall.BeginSetup => some (BeginSetup st)
  | ManagerCall.EndSetup => some (EndSetup st).2
  | ManagerCall.CreateSoundSource id => some (CreateSoundSource st id).2
  | ManagerCall.CreateListener id => some (CreateListener st id).2
  | ManagerCall.CreateListenerModel id => some (CreateListenerModel st id).2
  | ManagerCall.CreateEnvironment id => some (CreateEnvironment st id).2
  | ManagerCall.CreateBinauralFilter id => some (CreateBinauralFilter st id).2
  | ManagerCall.CreateProcessor => some (CreateProcessor st).2
  | ManagerCall.RemoveSoundSource id => some (RemoveSoundSource st id).2
  | ManagerCall.RemoveListener id => (RemoveListener st id).map Prod.snd
  | ManagerCall.RemoveProcessor p => some (RemoveProcessor st p).2
  | ManagerCall.ProcessAll => some (ProcessAll st)

/-- The registry after a sequence of calls made one after the other. -/
def run : List ManagerCall → CBRTManager → Option CBRTManager
  | [], st => some st
  | c :: cs, st => (step st c).bind (run cs)

end CBRTManager

/-! ### Relations on registry states -/

/-- A list of stored modules is in creation order (allocation ranks increase along the list),
its identifiers are pairwise distinct, and every module was allocated before `bound`. -/
structure StoredList (bound : Nat) (list : List Module) : Prop where
  order : list.Pairwise (fun a b => a.serial < b.serial)
  ids : list.Pairwise (fun a b => a.id ≠ b.id)
  below : ∀ n ∈ list, n.serial < bound

/-- Every category list of the registry is a `StoredList` for the allocation count. -/
structure CBRTManager.Consistent (st : CBRTManager) : Prop where
  audioSources : StoredList st.allocated st.audioSources
  listeners : StoredList st.allocated st.listeners
  listenerModels : StoredList st.allocated st.listenerModels
  environmentModels : StoredList st.allocated st.environmentModels
  binauralFilters : StoredList st.allocated st.binauralFilters

/-- The function `create`, which stores into the category list `list`, creates a module with
the identifier `id` in the registry `st`: it returns a module with that identifier, the list
afterwards is the list before followed by that module, and a second call with the same
identifier returns null and leaves the registry as it is. -/
def CreatesOnce (create : CBRTManager → String → Option Module × CBRTManager)
    (list : CBRTManager → List Module) (st : CBRTManager) (id : String) : Prop :=
  ∃ n : Module, n.id = id ∧ (create st id).1 = some n ∧
    list (create st id).2 = list st ++ [n] ∧
    create (create st id).2 id = (none, (create st id).2)

/-! ### Example call sequences -/

/-- A sequence with a repeated creation, a removal, a creation with the removed identifier and
a frame. -/
def exampleCallsRepeated : List ManagerCall :=
  [ManagerCall.BeginSetup, ManagerCall.CreateSoundSource "a",
    ManagerCall.CreateSoundSource "b", ManagerCall.CreateSoundSource "a",
    ManagerCall.CreateListenerModel "m", ManagerCall.RemoveSoundSource "a",
    ManagerCall.CreateSoundSource "a", ManagerCall.EndSetup, ManagerCall.ProcessAll]

/-- Three sources are created, the first one is removed, and setup mode is left. -/
def exampleCallsThreeSources : List ManagerCall :=
  [ManagerCall.BeginSetup, ManagerCall.CreateSoundSource "a",
    ManagerCall.CreateSoundSource "b", ManagerCall.CreateSoundSource "c",
    ManagerCall.RemoveSoundSource "a", ManagerCall.EndSetup]

/-- A source and a listener model are created and setup mode is left. -/
def exampleCallsRunning : List ManagerCall :=
  [ManagerCall.BeginSetup, ManagerCall.CreateSoundSource "a",
    ManagerCall.CreateListenerModel "m", ManagerCall.EndSetup]

/-! ### Relations on the lists of the collection pass -/

section Sessions

variable {F : Type} [LinearOrderedField F]

/-- The per-session containers of `AudioOutput` and the registry `envManager`. -/
structure SessionMaps (F : Type) where
  userPos : Nat → Option (Vector3D F)
  /-- The hash `userBuffer`, each `CMonoBuffer` given by its size. -/
  userBuffer : Nat → Option Nat
  /-- The hash `envSources`; the value `some none` is a key that holds a null pointer. -/
  envSources : Nat → Option (Option Module)
  envManager : CBRTManager

/-- The identifier `std::string("caller") + std::to_string(session)` of line 562. -/
def callerID (session : Nat) : String :=
  "caller" ++ toString session

/-- Lines 555-565: a session that `userPos` does not contain gets a position, a buffer of
`frameCount` samples and a source node created inside `BeginSetup` / `EndSetup`.  (The call
`envListener->ConnectSoundSource` on the new node is not represented.) -/
def registerSession (frameCount : Nat) (maps : SessionMaps F) (session : Nat) :
    SessionMaps F :=
  if (maps.userPos session).isSome then maps
  else
    let created := (maps.envManager.BeginSetup).CreateSoundSource (callerID session)
    { userPos := Function.update maps.userPos session (some ⟨0, 0.0001, 0⟩)
      userBuffer := Function.update maps.userBuffer session (some frameCount)
      envSources := Function.update maps.envSources session (some created.1)
      envManager := (created.2.EndSetup).2 }

/-- Line 573, inside the branch for a user of `ClientUser::c_qmUsers`:
`userBuffer[session].resize(frameCount)`. -/
def resizeUserBuffer (frameCount : Nat) (maps : SessionMaps F) (session : Nat) :
    SessionMaps F :=
  { maps with userBuffer := Function.update maps.userBuffer session (some frameCount) }

/-- Body of the collection loop, lines 546-597, as far as the per-session containers are
concerned. -/
def collectSessions (env : MixEnv F) (frameCount : Nat) (maps : SessionMaps F)
    (b : AudioOutputBuffer F) : SessionMaps F :=
  let r := env.prepareSampleBuffer b frameCount
  if !r.1 then maps
  else
    match r.2.kind with
    | .speech p _ _ =>
      let maps1 := registerSession frameCount maps p.uiSession
      if env.knownUser p.uiSession then resizeUserBuffer frameCount maps1 p.uiSession
      else maps1
    | .sample _ => maps

/-- Body of the loop over `Manual::bufferToBeDeleted`, lines 602-612, for one session. -/
def deleteSession (maps : SessionMaps F) (session : Nat) : SessionMaps F :=
  let userPos := Function.update maps.userPos session none
  let userBuffer := Function.update maps.userBuffer session none
  match maps.envSources session with
  | some (some node) =>
    { userPos := userPos
      userBuffer := userBuffer
      envSources := Function.update maps.envSources session none
      envManager := (((maps.envManager.BeginSetup).RemoveSoundSource node.id).2.EndSetup).2 }
  | _ =>
    { userPos := userPos
      userBuffer := userBuffer
      envSources := Function.update maps.envSources session (some none)
      envManager := maps.envManager }

/-- The per-session containers when the mixing loop starts (line 793): after the collection
pass over `qmOutputs` and the handling of `Manual::bufferToBeDeleted`. -/
def sessionsAtHandOff (env : MixEnv F) (ao : AudioOutput F) (frameCount : Nat)
    (maps : SessionMaps F) : SessionMaps F :=
  env.bufferToBeDeleted.foldl deleteSession
    (ao.qmOutputs.foldl (collectSessions env frameCount) maps)

/-- What the hand-off of a speech buffer of `session` needs (lines 887-897 and 1004-1014):
`envSources[session]` is a node and not a null pointer, and `userBuffer[session]` has room
for `frameCount` samples. -/
def HandOffSafe (maps : SessionMaps F) (frameCount session : Nat) : Prop :=
  (∃ node : Module, maps.envSources session = some (some node)) ∧
  (∃ size : Nat, maps.userBuffer session = some size ∧ frameCount ≤ size)

/-- The registry as the constructor of `AudioOutput` leaves it (lines 87-93): a listener model
`listenerModel` and a listener `listener`, setup mode left. -/
def exampleEnvManager : CBRTManager :=
  ((((CBRTManager.ctor.BeginSetup).CreateListenerModel "listenerModel").2.CreateListener
    "listener").2.EndSetup).2

/-- The per-session containers of a mixer that has not yet seen any speech. -/
def exampleSessionMaps : SessionMaps F :=
  ⟨fun _ => none, fun _ => none, fun _ => none, exampleEnvManager⟩

/-- The example environment in which session 1 has been queued in
`Manual::bufferToBeDeleted`. -/
def exampleEnvDeleting (m : Libm F) (s : Settings F) (cameraPos : Vector3D F) : MixEnv F :=
  { exampleEnv m s cameraPos with bufferToBeDeleted := [1] }

end Sessions

/-! ## The lock of the output map (`qrwlOutputs`)

The audio thread runs `mix`, which holds the read lock of `qrwlOutputs` from line 540 to line
1092.  A removal is requested with `removeBuffer` (lines 268-274), which only emits the signal
`bufferInvalidated`; the slot `handleInvalidatedBuffer` (lines 237-246) takes the write lock,
erases the buffer from `qmOutputs`, deletes it and releases the lock.  The two threads are
modelled by a step function on the shared state: a step that would block on the lock is not
enabled.  A buffer is identified by a number (its address). -/

/-- Where the audio thread is inside `mix`. -/
inductive MixerPhase where
  /-- Outside `mix`. -/
  | idle
  /-- The read lock is held (line 540), the collection pass has not run yet. -/
  | locked
  /-- The collection pass has built the two lists (line 597). -/
  | collected (qlMix qlDel : List Nat)
  /-- The buffers of the mix list have been mixed (line 1090). -/
  | mixed (qlDel : List Nat)
  /-- The read lock has been released (line 1092). -/
  | unlocked (qlDel : List Nat)
  deriving DecidableEq, Repr

/-- Where the thread that runs the slot `handleInvalidatedBuffer` is. -/
inductive HandlerPhase where
  /-- Outside the slot. -/
  | idle
  /-- In the constructor of the `QWriteLocker` (line 238), waiting for the lock. -/
  | waiting (buffer : Nat)
  /-- The write lock is held. -/
  | holding (buffer : Nat)
  /-- The loop of lines 239-245 has run; the lock is still held. -/
  | erased (buffer : Nat)
  deriving DecidableEq, Repr

/-- Whether the audio thread holds the read lock. -/
def MixerPhase.holdsLock : MixerPhase → Bool
  | MixerPhase.locked => true
  | MixerPhase.collected _ _ => true
  | MixerPhase.mixed _ => true
  | _ => false

/-- Whether the slot holds the write lock. -/
def HandlerPhase.holdsLock : HandlerPhase → Bool
  | HandlerPhase.holding _ => true
  | HandlerPhase.erased _ => true
  | _ => false

/-- The map `qmOutputs`, its lock, the two threads, the signals emitted and not yet delivered,
and the mix lists of the frames mixed so far. -/
structure OutputsState where
  qmOutputs : List Nat
  /-- Number of read locks held on `qrwlOutputs`. -/
  readers : Nat
  /-- Whether the write lock of `qrwlOutputs` is held. -/
  writer : Bool
  /-- The buffers for which `bufferInvalidated` has been emitted and the slot has not yet been
  entered. -/
  pending : List Nat
  mixer : MixerPhase
  handler : HandlerPhase
  /-- The mix list of each frame mixed so far, oldest first. -/
  frames : List (List Nat)
  deriving DecidableEq, Repr

/-- One step of one of the threads. -/
inductive OutputsEvent where
  /-- Some thread calls `removeBuffer(buffer)`: the signal is emitted. -/
  | removeBuffer (buffer : Nat)
  /-- The slot `handleInvalidatedBuffer(buffer)` is entered. -/
  | handlerEnter (buffer : Nat)
  /-- The `QWriteLocker` obtains the write lock. -/
  | handlerLock
  /-- The loop of lines 239-245: the buffer, if it is in the map, is erased and deleted. -/
  | handlerErase
  /-- The `QWriteLocker` is destroyed at the end of the slot. -/
  | handlerUnlock
  /-- The audio thread passes `qrwlOutputs.lockForRead()` (line 540). -/
  | mixLock
  /-- The collection pass (lines 542-597); `exhausted` are the buffers whose
  `prepareSampleBuffer` returns false. -/
  | mixCollect (exhausted : List Nat)
  /-- The mixing loop over `qlMix` (lines 793-1042). -/
  | mixFrame
  /-- The audio thread passes `qrwlOutputs.unlock()` (line 1092). -/
  | mixUnlock
  /-- The loop of lines 1095-1097: `removeBuffer` for every buffer of `qlDel`. -/
  | mixRemove
  deriving DecidableEq, Repr

namespace OutputsState

/-- The state with the map `qmOutputs` given, no lock held and both threads idle. -/
def initial (qmOutputs : List Nat) : OutputsState :=
  ⟨qmOutputs, 0, false, [], MixerPhase.idle, HandlerPhase.idle, []⟩

/-- The state after one step; `none` when the step is not enabled (the thread is elsewhere in
its code, or it is blocked on the lock). -/
def step (st : OutputsState) : OutputsEvent → Option OutputsState
  | OutputsEvent.removeBuffer buffer => some { st with pending := st.pending ++ [buffer] }
  | OutputsEvent.handlerEnter buffer =>
    if buffer ∈ st.pending ∧ st.handler = HandlerPhase.idle then
      some { st with pending := st.pending.erase buffer, handler := HandlerPhase.waiting buffer }
    else none
  | OutputsEvent.handlerLock =>
    match st.handler with
    | HandlerPhase.waiting buffer =>
      if st.readers = 0 ∧ st.writer = false then
        some { st with writer := true, handler := HandlerPhase.holding buffer }
      else none
    | _ => none
  | OutputsEvent.handlerErase =>
    match st.handler with
    | HandlerPhase.holding buffer =>
      some { st with qmOutputs := st.qmOutputs.erase buffer,
                     handler := HandlerPhase.erased buffer }
    | _ => none
  | OutputsEvent.handlerUnlock =>
    match st.handler with
    | HandlerPhase.erased _ => some { st with writer := false, handler := HandlerPhase.idle }
    | _ => none
  | OutputsEvent.mixLock =>
    if st.mixer = MixerPhase.idle ∧ st.writer = false then
      some { st with readers := st.readers + 1, mixer := MixerPhase.locked }
    else none
  | OutputsEvent.mixCollect exhausted =>
    match st.mixer with
    | MixerPhase.locked =>
      some { st with
        mixer := MixerPhase.collected
          (st.qmOutputs.filter (fun b => !decide (b ∈ exhausted)))
          (st.qmOutputs.filter (fun b => decide (b ∈ exhausted))) }
    | _ => none
  | OutputsEvent.mixFrame =>
    match st.mixer with
    | MixerPhase.collected qlMix qlDel =>
      some { st with frames := st.frames ++ [qlMix], mixer := MixerPhase.mixed qlDel }
    | _ => none
  | OutputsEvent.mixUnlock =>
    match st.mixer with
    | MixerPhase.mixed qlDel =>
      some { st with readers := st.readers - 1, mixer := MixerPhase.unlocked qlDel }
    | _ => none
  | OutputsEvent.mixRemove =>
    match st.mixer with
    | MixerPhase.unlocked qlDel =>
      some { st with pending := st.pending ++ qlDel, mixer := MixerPhase.idle }
    | _ => none

/-- The state after a sequence of steps, `none` when one of them is not enabled. -/
def run : List OutputsEvent → OutputsState → Option OutputsState
  | [], st => some st
  | e :: es, st => (step st e).bind (run es)

end OutputsState

/-- The lock is used consistently: the read count is that of the audio thread, the write flag
is that of the slot, the two never hold the lock together, and a mix list that is about to be
mixed names only buffers that are in the map. -/
structure OutputsState.Coherent (st : OutputsState) : Prop where
  readers_eq : st.readers = if st.mixer.holdsLock then 1 else 0
  writer_eq : st.writer = st.handler.holdsLock
  exclusive : ¬ (st.writer = true ∧ st.mixer.holdsLock = true)
  mixList : ∀ qlMix qlDel, st.mixer = MixerPhase.collected qlMix qlDel →
    ∀ b ∈ qlMix, b ∈ st.qmOutputs

/-- The state is inside the frame that took the read lock when the map was `qmOutputs` and the
frames mixed so far were `frames`: the map is still `qmOutputs`, and the frame either has not
collected yet, or has collected the two lists from `qmOutputs`, or has mixed exactly the mix
list collected from `qmOutputs`. -/
def OutputsState.InFrame (qmOutputs : List Nat) (frames : List (List Nat))
    (st : OutputsState) : Prop :=
  st.qmOutputs = qmOutputs ∧
  ((st.mixer = MixerPhase.locked ∧ st.frames = frames) ∨
   (∃ exhausted : List Nat,
      st.mixer = MixerPhase.collected
        (qmOutputs.filter (fun b => !decide (b ∈ exhausted)))
        (qmOutputs.filter (fun b => decide (b ∈ exhausted))) ∧ st.frames = frames) ∨
   (∃ exhausted : List Nat,
      st.mixer = MixerPhase.mixed (qmOutputs.filter (fun b => decide (b ∈ exhausted))) ∧
      st.frames = frames ++ [qmOutputs.filter (fun b => !decide (b ∈ exhausted))]))

/-- Scenario C: a frame over the buffers 1 and 2 during which the removal of buffer 2 is
requested and its slot entered; the slot gets the lock after the frame, and the next frame
runs without buffer 2. -/
def scenarioC : List OutputsEvent :=
  [OutputsEvent.mixLock, OutputsEvent.mixCollect [], OutputsEvent.removeBuffer 2,
    OutputsEvent.handlerEnter 2, OutputsEvent.mixFrame, OutputsEvent.mixUnlock,
    OutputsEvent.handlerLock, OutputsEvent.handlerErase, OutputsEvent.handlerUnlock,
    OutputsEvent.mixRemove,
    OutputsEvent.mixLock, OutputsEvent.mixCollect [], OutputsEvent.mixFrame,
    OutputsEvent.mixUnlock, OutputsEvent.mixRemove]

/-- The first steps of scenario C followed by the slot taking the lock while the frame is
still being mixed. -/
def scenarioCBlocked : List OutputsEvent :=
  [OutputsEvent.mixLock, OutputsEvent.mixCollect [], OutputsEvent.removeBuffer 2,
    OutputsEvent.handlerEnter 2, OutputsEvent.handlerLock]

/-! ## The registry as compiled

`RemoveListener` calls `it->reset()` after `listenerModels.erase(it)` (lines 375-376), which
the language leaves undefined; `CBRTManager.RemoveListener` renders that as no result, and a
call sequence that contains such a call then has no result either.  This section follows the
registry through such sequences too, as the program behaves when it is compiled with a
standard library whose vector iterators are plain pointers:

* after the erasure `it` still designates slot `k` of the vector, which now holds the pointer
  that followed the erased one, and `reset` makes that stored pointer null; when the erased
  pointer was the last one, slot `k` lies behind the end of the vector, `reset` releases the
  already destroyed pointer a second time, and the data members are not touched (should
  that release end the process, the registry is the one reached by the calls so far);
* a search over `listenerModels` calls `listenerItem->GetModelID()` on every pointer it
  visits; on a null pointer this is a null dereference, which ends the process.

The other category lists never hold a null pointer, and the functions that act on them are
those of `CBRTManager`. -/

/-- The data members of `CBRTManager` as the compiled program holds them. -/
structure CompiledManager where
  /-- The vector `listenerModels`; `none` is a stored pointer that is null. -/
  listenerModels : List (Option Module)
  /-- The other data members (the field `listenerModels` of this record is not used and stays
  empty). -/
  members : CBRTManager
  deriving DecidableEq, Repr

namespace CompiledManager

/-- The constructor, line 42. -/
def ctor : CompiledManager :=
  ⟨[], CBRTManager.ctor⟩

/-- The registry without null pointers seen as a compiled one. -/
def ofManager (st : CBRTManager) : CompiledManager :=
  ⟨st.listenerModels.map some, { st with listenerModels := [] }⟩

/-- The listener models stored: the pointers of `listenerModels` that are not null. -/
def storedListenerModels (st : CompiledManager) : List Module :=
  st.listenerModels.filterMap id

/-- The search `std::find_if(listenerModels.begin(), listenerModels.end(),
listenerItem->GetModelID() == id)` of lines 220 and 372: `some (some (k, item))` when slot
`k` is the first whose module has the identifier, `some none` for `listenerModels.end()`,
and `none` when the search reaches a null pointer first (null dereference). -/
def findIf : List (Option Module) → String → Option (Option (Nat × Module))
  | [], _ => some none
  | none :: _, _ => none
  | some item :: rest, id =>
    if item.id == id then some (some (0, item))
    else (findIf rest id).map (fun r => r.map (fun found => (found.1 + 1, found.2)))

/-- `CreateListenerModel`, lines 212-237; `none` when the process ends in the search. -/
def CreateListenerModel (st : CompiledManager) (_listenerID : String) :
    Option (Option Module × CompiledManager) :=
  if !st.members.setupModeActivated then some (none, st)
  else
    match findIf st.listenerModels _listenerID with
    | none => none
    | some (some _) => some (none, st)
    | some none =>
      let newListener : Module := ⟨st.members.allocated, _listenerID⟩
      let members1 :=
        (CBRTManager.ConnectModulesCommand
          { st.members with allocated := st.members.allocated + 1 } newListener).2
      some (some newListener, ⟨st.listenerModels ++ [some newListener], members1⟩)

/-- `RemoveListener`, lines 370-380; `none` when the process ends in the search.  When the
search finds slot `k`, the pointer is erased (line 375) and the pointer that slot `k` holds
afterwards is made null (line 376); `List.set` leaves the list alone when `k` is behind its
end. -/
def RemoveListener (st : CompiledManager) (_listenerID : String) :
    Option (Bool × CompiledManager) :=
  if !st.members.setupModeActivated then some (false, st)
  else
    match findIf st.listenerModels _listenerID with
    | none => none
    | some none => some (false, st)
    | some (some (k, it)) =>
      let members1 := (CBRTManager.DisconnectModulesCommand st.members it).2
      some (true, ⟨(st.listenerModels.eraseIdx k).set k none, members1⟩)

/-- The registry after one call; `none` when the call ends the process.  The calls that do
not concern `listenerModels` act on the other data members as in `CBRTManager.step`. -/
def step (st : CompiledManager) : ManagerCall → Option CompiledManager
  | ManagerCall.CreateListenerModel id => (CreateListenerModel st id).map Prod.snd
  | ManagerCall.RemoveListener id => (RemoveListener st id).map Prod.snd
  | call => (CBRTManager.step st.members call).map (fun members1 => { st with members := members1 })

/-- The calls of a sequence made one after the other: the registry when execution stops, and
the calls that were not completed (none, or the call that ended the process and those after
it). -/
def run : List ManagerCall → CompiledManager → CompiledManager × List ManagerCall
  | [], st => (st, [])
  | call :: calls, st =>
    match step st call with
    | some st1 => run calls st1
    | none => (st, call :: calls)

end CompiledManager

/-- In the compiled registry every category list is a `StoredList`; for `listenerModels` the
list is that of the pointers that are not null. -/
structure CompiledManager.Consistent (st : CompiledManager) : Prop where
  members : st.members.Consistent
  listenerModels : StoredList st.members.allocated st.storedListenerModels

/-- Two listener models are created, the first is removed with `RemoveListener`, then a
sound source is created and a third listener model is asked for. -/
def exampleCallsRemoveListener : List ManagerCall :=
  [ManagerCall.BeginSetup, ManagerCall.CreateListenerModel "A",
    ManagerCall.CreateListenerModel "B", ManagerCall.RemoveListener "A",
    ManagerCall.CreateSoundSource "s", ManagerCall.CreateListenerModel "C"]

/-- A listener model is created, removed with `RemoveListener` and created again. -/
def exampleCallsRemoveLast : List ManagerCall :=
  [ManagerCall.BeginSetup, ManagerCall.CreateListenerModel "A",
    ManagerCall.RemoveListener "A", ManagerCall.CreateListenerModel "A",
    ManagerCall.EndSetup]
/-! ## Theorems -/

/-- Exact real routines exist, so the results stated for `IsRealLibm` are not vacuous. -/
theorem exists_isRealLibm : ∃ m : Libm ℝ, IsRealLibm m :=
  ⟨⟨Real.sqrt, fun x y => x ^ y, Real.logb 10, Real.sin, Real.cos, Real.arccos,
    fun y x => Complex.arg ⟨x, y⟩, Real.pi⟩,
   ⟨fun _ => rfl, fun _ _ => rfl, fun _ => rfl, fun _ => rfl, fun _ => rfl, fun _ => rfl,
    fun _ _ => rfl, rfl⟩⟩

/-! ### The gain model, `calcGain` -/

section GainTheorems

variable {F : Type} [LinearOrderedField F]

/-- Inside the source (`distance < 0.01`) the first branch of `calcGain` is taken. -/
theorem calcGain_near (m : Libm F) (s : Settings F) (dotproduct distance : F)
    (h : distance < 0.01) : calcGain m s dotproduct distance = 1 := by
  simp only [calcGain, if_pos h]

/-- In the roll-off regime at or beyond the maximum distance the gain is the floor times the
remapped dot product. -/
theorem calcGain_far_eq (m : Libm F) (s : Settings F) (dotproduct distance : F)
    (hnear : 0.01 ≤ distance) (hfloor : s.fAudioMaxDistVolume ≤ 0.99)
    (hmin : s.fAudioMinDistance ≤ distance) (hmax : s.fAudioMaxDistance ≤ distance) :
    calcGain m s dotproduct distance = s.fAudioMaxDistVolume * dotRemap dotproduct := by
  simp only [calcGain, dotRemap, if_neg (not_lt.mpr hnear), gt_iff_lt,
    if_neg (not_lt.mpr hfloor), if_neg (not_lt.mpr hmin), ge_iff_le, if_pos hmax]

/-- C1: if `distance < 0.01` then `calcGain` returns exactly 1, whatever the dot product
and the configuration (bloom, minimum and maximum distance, volume floor) are. -/
theorem calcGain_inside_source (m : Libm F) (s : Settings F) (dotproduct distance : F)
    (h : distance < 0.01) : calcGain m s dotproduct distance = 1 :=
  calcGain_near m s dotproduct distance h

/-- C2 (amended): for a distance that is at least `0.01`, at least the minimum distance and
at least the maximum distance, and a volume floor of at most `0.99`, `calcGain` equals the
floor times the remapped dot product `(dot+1)/2 + (1 - (dot+1)/2) * 0.25`. -/
theorem calcGain_beyond_maxDistance (m : Libm F) (s : Settings F) (dotproduct distance : F)
    (hnear : 0.01 ≤ distance) (hfloor : s.fAudioMaxDistVolume ≤ 0.99)
    (hmin : s.fAudioMinDistance ≤ distance) (hmax : s.fAudioMaxDistance ≤ distance) :
    calcGain m s dotproduct distance = s.fAudioMaxDistVolume * dotRemap dotproduct :=
  calcGain_far_eq m s dotproduct distance hnear hfloor hmin hmax

end GainTheorems

/-- Witness of C1: a source 5 mm away, seen sideways. -/
theorem calcGain_inside_source_witness :
    ∃ m : Libm ℝ, IsRealLibm m ∧
      ((0.005 : ℝ) < 0.01 ∧ calcGain m ⟨1, 0.5, 1, 15, 0.1, true⟩ 0 0.005 = 1) := by
  obtain ⟨m, hm⟩ := exists_isRealLibm
  exact ⟨m, hm, by norm_num,
    calcGain_inside_source m ⟨1, 0.5, 1, 15, 0.1, true⟩ 0 0.005 (by norm_num)⟩

/-- Witness of C2 (amended): floor 0.1, distances 1 to 15, a source 20 away behind. -/
theorem calcGain_beyond_maxDistance_witness :
    ∃ m : Libm ℝ, IsRealLibm m ∧
      calcGain m ⟨1, 0.5, 1, 15, 0.1, true⟩ (-1) 20 = 0.1 * dotRemap (-1) := by
  obtain ⟨m, hm⟩ := exists_isRealLibm
  exact ⟨m, hm, calcGain_beyond_maxDistance m ⟨1, 0.5, 1, 15, 0.1, true⟩ (-1) 20
    (by norm_num) (by norm_num) (by norm_num) (by norm_num)⟩

/-- C2 fails as stated, in three ways.  With the floor at 1 (no distance attenuation),
bloom 0.5, `dot = -1` and distance 20 beyond the maximum 15, `calcGain` is 0.75 while floor
times remap is 0.25.  With the minimum distance 10 above the maximum 5, at distance 5 the
bloom branch gives 1, not 0.5.  With the maximum distance 0.002 and distance 0.005 the
inside-source branch gives 1, not 0.5. -/
theorem calcGain_beyond_maxDistance_counterexample :
    ∃ m : Libm ℝ, IsRealLibm m ∧
      (calcGain m ⟨1, 0.5, 1, 15, 1, true⟩ (-1) 20 = 0.75 ∧ (1 : ℝ) * dotRemap (-1) = 0.25) ∧
      (calcGain m ⟨1, 0.5, 10, 5, 0.5, true⟩ 1 5 = 1 ∧ (0.5 : ℝ) * dotRemap 1 = 0.5) ∧
      (calcGain m ⟨1, 0.5, 0.001, 0.002, 0.5, true⟩ 1 0.005 = 1
        ∧ (0.5 : ℝ) * dotRemap 1 = 0.5) := by
  obtain ⟨m, hm⟩ := exists_isRealLibm
  refine ⟨m, hm, ⟨?_, ?_⟩, ⟨?_, ?_⟩, ⟨?_, ?_⟩⟩ <;> norm_num [calcGain, dotRemap]

/-- The remapped dot product in closed form. -/
theorem dotRemap_eq (x : ℝ) : dotRemap x = (3 * x + 5) / 8 := by
  unfold dotRemap; ring

/-- For a dot product in `[-1, 1]` the remapped value lies in `[0.25, 1]`. -/
theorem dotRemap_bounds {x : ℝ} (h1 : -1 ≤ x) (h2 : x ≤ 1) :
    0.25 ≤ dotRemap x ∧ dotRemap x ≤ 1 := by
  rw [dotRemap_eq]; constructor <;> norm_num <;> linarith

/-- The roll-off factor `datt` between the minimum and the maximum distance lies in `(0, 1]`. -/
theorem rolloff_bounds (mvol drel : ℝ) (h1 : 0 < mvol) (h2 : mvol ≤ 1) (h3 : 0 ≤ drel) :
    0 < (10 : ℝ) ^ (Real.logb 10 mvol * drel) ∧ (10 : ℝ) ^ (Real.logb 10 mvol * drel) ≤ 1 := by
  constructor
  · exact Real.rpow_pos_of_pos (by norm_num) _
  · apply Real.rpow_le_one_of_one_le_of_nonpos (by norm_num)
    exact mul_nonpos_of_nonpos_of_nonneg (Real.logb_nonpos (by norm_num) h1.le h2) h3

/-- Unfolding of `calcGain` with the remapped dot product named. -/
theorem calcGain_eq (m : Libm ℝ) (s : Settings ℝ) (dp d : ℝ) :
    calcGain m s dp d =
      if d < 0.01 then 1
      else if s.fAudioMaxDistVolume > 0.99 then min 1 (dotRemap dp + s.fAudioBloom)
      else if d < s.fAudioMinDistance then
        min 1 (s.fAudioBloom * (1 - d / s.fAudioMinDistance) + dotRemap dp)
      else (if d ≥ s.fAudioMaxDistance then s.fAudioMaxDistVolume
        else m.powf 10 (m.log10f (if s.fAudioMaxDistVolume < 0.005 then 0.005
            else s.fAudioMaxDistVolume)
          * ((d - s.fAudioMinDistance) / (s.fAudioMaxDistance - s.fAudioMinDistance))))
        * dotRemap dp := by
  rfl

/-- The value of `calcGain` at the minimum distance is the remapped dot product. -/
theorem calcGain_at_minDistance (m : Libm ℝ) (hm : IsRealLibm m) (s : Settings ℝ) (dp : ℝ)
    (hfloor : s.fAudioMaxDistVolume ≤ 0.99) (hmin : 0.01 ≤ s.fAudioMinDistance)
    (hlt : s.fAudioMinDistance < s.fAudioMaxDistance) :
    calcGain m s dp s.fAudioMinDistance = dotRemap dp := by
  rw [calcGain_eq, if_neg (not_lt.mpr hmin), if_neg (not_lt.mpr hfloor), if_neg (lt_irrefl _),
    if_neg (not_le.mpr hlt), hm.powf_eq]
  simp

/-- C3 (amended): with distance attenuation enabled (floor at most 0.99) and
`0.01 < minDistance < maxDistance`, for every dot product in `[-1, 1]` the function
`calcGain` is continuous in the distance at `minDistance` (so the limits from the bloom
regime below and from the roll-off regime above agree with the value there), and that value
is the remapped dot product. -/
theorem calcGain_continuousAt_minDistance (m : Libm ℝ) (hm : IsRealLibm m) (s : Settings ℝ)
    (dp : ℝ) (hdot1 : -1 ≤ dp) (hdot2 : dp ≤ 1)
    (hfloor : s.fAudioMaxDistVolume ≤ 0.99) (hmin : 0.01 < s.fAudioMinDistance)
    (hlt : s.fAudioMinDistance < s.fAudioMaxDistance) :
    ContinuousAt (fun d => calcGain m s dp d) s.fAudioMinDistance
      ∧ calcGain m s dp s.fAudioMinDistance = dotRemap dp := by
  refine ⟨?_, calcGain_at_minDistance m hm s dp hfloor hmin.le hlt⟩
  obtain ⟨-, hr1⟩ := dotRemap_bounds hdot1 hdot2
  -- the two regime expressions, glued at `fAudioMinDistance`
  set c : ℝ := m.log10f (if s.fAudioMaxDistVolume < 0.005 then 0.005
    else s.fAudioMaxDistVolume) with hc
  let rolloff : ℝ → ℝ := fun d =>
    (10 : ℝ) ^ (c * ((d - s.fAudioMinDistance) / (s.fAudioMaxDistance - s.fAudioMinDistance)))
      * dotRemap dp
  let bloom : ℝ → ℝ := fun d =>
    min 1 (s.fAudioBloom * (1 - d / s.fAudioMinDistance) + dotRemap dp)
  have hminpos : s.fAudioMinDistance ≠ 0 := by
    have : (0:ℝ) < 0.01 := by norm_num
    exact (this.trans hmin).ne'
  have hroll : Continuous rolloff := by
    have h10 : Continuous fun x : ℝ => (10 : ℝ) ^ x :=
      continuous_iff_continuousAt.mpr fun b => Real.continuousAt_const_rpow (by norm_num)
    exact (h10.comp (by fun_prop)).mul continuous_const
  have hbloom : Continuous bloom := by
    have : Continuous fun d : ℝ =>
        s.fAudioBloom * (1 - d / s.fAudioMinDistance) + dotRemap dp := by
      fun_prop
    exact continuous_const.min this
  have hglue : Continuous fun d : ℝ =>
      if s.fAudioMinDistance ≤ d then rolloff d else bloom d := by
    refine Continuous.if_le hroll hbloom continuous_const continuous_id ?_
    intro x hx
    simp only [id] at hx
    subst hx
    simp only [rolloff, bloom, sub_self, zero_div, mul_zero, Real.rpow_zero, one_mul,
      div_self hminpos, zero_add, min_eq_right hr1]
  refine hglue.continuousAt.congr ?_
  have hnhds : Set.Ioo (0.01:ℝ) s.fAudioMaxDistance ∈ nhds s.fAudioMinDistance :=
    Ioo_mem_nhds hmin hlt
  filter_upwards [hnhds] with d hd
  rw [calcGain_eq, if_neg (not_lt.mpr hd.1.le), if_neg (not_lt.mpr hfloor),
    if_neg (not_le.mpr hd.2), hm.powf_eq]
  by_cases h : d < s.fAudioMinDistance
  · rw [if_pos h, if_neg (not_le.mpr h)]
  · rw [if_neg h, if_pos (not_lt.mp h)]

/-- Witness of C3 (amended): the default distances 1 and 15, floor 0.5, a source sideways. -/
theorem calcGain_continuousAt_minDistance_witness :
    ∃ m : Libm ℝ, IsRealLibm m ∧
      (ContinuousAt (fun d => calcGain m ⟨1, 0.5, 1, 15, 0.5, true⟩ 0 d) 1
        ∧ calcGain m ⟨1, 0.5, 1, 15, 0.5, true⟩ 0 1 = dotRemap 0) := by
  obtain ⟨m, hm⟩ := exists_isRealLibm
  exact ⟨m, hm, calcGain_continuousAt_minDistance m hm ⟨1, 0.5, 1, 15, 0.5, true⟩ 0
    (by norm_num) (by norm_num) (by norm_num) (by norm_num) (by norm_num)⟩

/-- C3 fails as stated at `minDistance = 0.01`: the bloom regime is then empty, every
distance below `0.01` yields gain 1 while the value at `0.01` is the remapped dot product
(0.625 for `dot = 0`), so `calcGain` is not continuous there. -/
theorem calcGain_continuousAt_minDistance_counterexample :
    ∃ m : Libm ℝ, IsRealLibm m ∧
      calcGain m ⟨1, 0.5, 0.01, 15, 0.5, true⟩ 0 0.01 = 0.625 ∧
      (∀ d : ℝ, d < 0.01 → calcGain m ⟨1, 0.5, 0.01, 15, 0.5, true⟩ 0 d = 1) ∧
      ¬ ContinuousAt (fun d => calcGain m ⟨1, 0.5, 0.01, 15, 0.5, true⟩ 0 d) 0.01 := by
  obtain ⟨m, hm⟩ := exists_isRealLibm
  have hval : calcGain m ⟨1, 0.5, 0.01, 15, 0.5, true⟩ 0 0.01 = 0.625 := by
    rw [calcGain_at_minDistance m hm ⟨1, 0.5, 0.01, 15, 0.5, true⟩ 0 (by norm_num) (by norm_num)
      (by norm_num), dotRemap_eq]
    norm_num
  refine ⟨m, hm, hval, fun d hd => calcGain_near m _ _ _ hd, ?_⟩
  intro hcont
  rw [Metric.continuousAt_iff] at hcont
  obtain ⟨δ, hδ, h⟩ := hcont 0.1 (by norm_num)
  have hx : dist (0.01 - δ / 2 : ℝ) 0.01 < δ := by
    rw [Real.dist_eq, show (0.01 - δ / 2 - 0.01 : ℝ) = -(δ / 2) by ring, abs_neg,
      abs_of_pos (by positivity)]
    linarith
  have := h hx
  rw [hval, calcGain_near m _ _ _ (by linarith), Real.dist_eq] at this
  norm_num at this
  rw [abs_of_pos (by norm_num)] at this
  norm_num at this

/-- C4: for every dot product in `[-1, 1]`, every distance and every configuration with
`bloom ≥ 0` and the volume floor in `[0, 1]`, the value of `calcGain` lies in `[0, 1]`. -/
theorem calcGain_range (m : Libm ℝ) (hm : IsRealLibm m) (s : Settings ℝ) (dp d : ℝ)
    (hdot1 : -1 ≤ dp) (hdot2 : dp ≤ 1) (hbloom : 0 ≤ s.fAudioBloom)
    (hfloor0 : 0 ≤ s.fAudioMaxDistVolume) (hfloor1 : s.fAudioMaxDistVolume ≤ 1) :
    0 ≤ calcGain m s dp d ∧ calcGain m s dp d ≤ 1 := by
  obtain ⟨hr0, hr1⟩ := dotRemap_bounds hdot1 hdot2
  have hr0' : 0 ≤ dotRemap dp := le_trans (by norm_num) hr0
  rw [calcGain_eq]
  split_ifs with h1 h2 h3 h4 h5
  · norm_num
  · exact ⟨le_min zero_le_one (by linarith), min_le_left _ _⟩
  · have hminpos : 0 < s.fAudioMinDistance := by
      have : (0:ℝ) < 0.01 := by norm_num
      linarith [not_lt.mp h1]
    have : 0 ≤ 1 - d / s.fAudioMinDistance := by
      rw [sub_nonneg, div_le_one hminpos]; exact h3.le
    exact ⟨le_min zero_le_one (by positivity), min_le_left _ _⟩
  · exact ⟨mul_nonneg hfloor0 hr0', mul_le_one₀ hfloor1 hr0' hr1⟩
  · rw [hm.powf_eq, hm.log10f_eq]
    have hdrel : 0 ≤ (d - s.fAudioMinDistance)
        / (s.fAudioMaxDistance - s.fAudioMinDistance) := by
      apply div_nonneg <;> linarith [not_lt.mp h3, not_le.mp h4]
    obtain ⟨hp0, hp1⟩ := rolloff_bounds 0.005 _ (by norm_num) (by norm_num) hdrel
    exact ⟨mul_nonneg hp0.le hr0', mul_le_one₀ hp1 hr0' hr1⟩
  · rw [hm.powf_eq, hm.log10f_eq]
    have hdrel : 0 ≤ (d - s.fAudioMinDistance)
        / (s.fAudioMaxDistance - s.fAudioMinDistance) := by
      apply div_nonneg <;> linarith [not_lt.mp h3, not_le.mp h4]
    have hmv : (0:ℝ) < s.fAudioMaxDistVolume := by
      have : (0:ℝ) < 0.005 := by norm_num
      linarith [not_lt.mp h5]
    obtain ⟨hp0, hp1⟩ := rolloff_bounds _ _ hmv hfloor1 hdrel
    exact ⟨mul_nonneg hp0.le hr0', mul_le_one₀ hp1 hr0' hr1⟩

/-- Witness of C4: the roll-off regime, distance 8 between 1 and 15, floor 0.5. -/
theorem calcGain_range_witness :
    ∃ m : Libm ℝ, IsRealLibm m ∧
      (0 ≤ calcGain m ⟨1, 0.5, 1, 15, 0.5, true⟩ 0.5 8
        ∧ calcGain m ⟨1, 0.5, 1, 15, 0.5, true⟩ 0.5 8 ≤ 1) := by
  obtain ⟨m, hm⟩ := exists_isRealLibm
  exact ⟨m, hm, calcGain_range m hm ⟨1, 0.5, 1, 15, 0.5, true⟩ 0.5 8
    (by norm_num) (by norm_num) (by norm_num) (by norm_num) (by norm_num)⟩

/-- C5: the far ear keeps at least a quarter of the maximum achievable gain.  For every
distance, every configuration with `bloom ≥ 0` and floor `≥ 0` and every dot product in
`[-1, 1]`, `calcGain dot distance ≥ 0.25 * calcGain 1 distance`, and the remapped dot
product lies in `[0.25, 1]`. -/
theorem calcGain_far_ear_quarter (m : Libm ℝ) (hm : IsRealLibm m) (s : Settings ℝ) (dp d : ℝ)
    (hdot1 : -1 ≤ dp) (hdot2 : dp ≤ 1) (hbloom : 0 ≤ s.fAudioBloom)
    (hfloor0 : 0 ≤ s.fAudioMaxDistVolume) :
    0.25 * calcGain m s 1 d ≤ calcGain m s dp d ∧ 0.25 ≤ dotRemap dp ∧ dotRemap dp ≤ 1 := by
  obtain ⟨hr0, hr1⟩ := dotRemap_bounds hdot1 hdot2
  refine ⟨?_, hr0, hr1⟩
  have hone : dotRemap (1:ℝ) = 1 := by rw [dotRemap_eq]; norm_num
  rw [calcGain_eq, calcGain_eq, hone]
  have key : ∀ b : ℝ, 0 ≤ b → 0.25 * min 1 (b + 1) ≤ min 1 (b + dotRemap dp) := by
    intro b hb
    rw [min_eq_left (by linarith)]
    exact le_min (by norm_num) (by linarith)
  split_ifs with h1 h2 h3 h4 h5
  · norm_num
  · have := key _ hbloom
    rwa [add_comm s.fAudioBloom 1, add_comm s.fAudioBloom (dotRemap dp)] at this
  · have hminpos : 0 < s.fAudioMinDistance := by
      have : (0:ℝ) < 0.01 := by norm_num
      linarith [not_lt.mp h1]
    have : 0 ≤ 1 - d / s.fAudioMinDistance := by
      rw [sub_nonneg, div_le_one hminpos]; exact h3.le
    exact key _ (by positivity)
  · nlinarith
  · rw [hm.powf_eq]
    have hp : 0 < (10:ℝ) ^ (m.log10f 0.005 * ((d - s.fAudioMinDistance)
        / (s.fAudioMaxDistance - s.fAudioMinDistance))) :=
      Real.rpow_pos_of_pos (by norm_num) _
    nlinarith
  · rw [hm.powf_eq]
    have hp : 0 < (10:ℝ) ^ (m.log10f s.fAudioMaxDistVolume * ((d - s.fAudioMinDistance)
        / (s.fAudioMaxDistance - s.fAudioMinDistance))) :=
      Real.rpow_pos_of_pos (by norm_num) _
    nlinarith

/-- Witness of C5: the far ear (`dot = -1`) in the roll-off regime. -/
theorem calcGain_far_ear_quarter_witness :
    ∃ m : Libm ℝ, IsRealLibm m ∧
      (0.25 * calcGain m ⟨1, 0.5, 1, 15, 0.5, true⟩ 1 8
          ≤ calcGain m ⟨1, 0.5, 1, 15, 0.5, true⟩ (-1) 8
        ∧ (0.25 : ℝ) ≤ dotRemap (-1) ∧ dotRemap (-1 : ℝ) ≤ 1) := by
  obtain ⟨m, hm⟩ := exists_isRealLibm
  exact ⟨m, hm, calcGain_far_ear_quarter m hm ⟨1, 0.5, 1, 15, 0.5, true⟩ (-1) 8
    (by norm_num) (by norm_num) (by norm_num) (by norm_num)⟩

/-! ### Quaternion extraction and listener orientation -/

section OrientationAlgebra

variable {F : Type} [LinearOrderedField F]

/-- A quaternion that represents a matrix has unit norm. -/
theorem Quat.Represents.normSq_eq {q : Quat F} {a : Mat3 F} (h : q.Represents a) :
    q.normSq = 1 := by
  unfold Quat.normSq
  linear_combination (1 / 4 : F) * h.ww + (1 / 4 : F) * h.xx + (1 / 4 : F) * h.yy
    + (1 / 4 : F) * h.zz

/-- The rotation matrix rebuilt from a quaternion that represents `a` is `a`. -/
theorem Quat.Represents.toMat3_eq {q : Quat F} {a : Mat3 F} (h : q.Represents a) :
    q.toMat3 = a := by
  obtain ⟨a00, a01, a02, a10, a11, a12, a20, a21, a22⟩ := a
  obtain ⟨ww, xx, yy, zz, wx, wy, wz, xy, xz, yz⟩ := h
  simp only at ww xx yy zz wx wy wz xy xz yz
  simp only [Quat.toMat3, Mat3.mk.injEq]
  refine ⟨?_, ?_, ?_, ?_, ?_, ?_, ?_, ?_, ?_⟩
  · linear_combination (-1 / 2 : F) * yy - (1 / 2 : F) * zz
  · linear_combination (1 / 2 : F) * xy - (1 / 2 : F) * wz
  · linear_combination (1 / 2 : F) * xz + (1 / 2 : F) * wy
  · linear_combination (1 / 2 : F) * xy + (1 / 2 : F) * wz
  · linear_combination (-1 / 2 : F) * xx - (1 / 2 : F) * zz
  · linear_combination (1 / 2 : F) * yz - (1 / 2 : F) * wx
  · linear_combination (1 / 2 : F) * xz - (1 / 2 : F) * wy
  · linear_combination (1 / 2 : F) * yz + (1 / 2 : F) * wx
  · linear_combination (-1 / 2 : F) * xx - (1 / 2 : F) * yy

/-- The product relations hold for every rotation matrix: each entry equals its cofactor, the
rows are orthonormal as well, and the relations are linear in these. -/
theorem Mat3.IsRotation.products {a : Mat3 F} (h : a.IsRotation) : a.Products := by
  obtain ⟨a00, a01, a02, a10, a11, a12, a20, a21, a22⟩ := a
  obtain ⟨col0, col1, col2, col01, col02, col12, det⟩ := h
  simp only [Mat3.det] at col0 col1 col2 col01 col02 col12 det
  have cof00 : a11 * a22 - a12 * a21 = a00 := by
    linear_combination (a00) * det - (a10 * a21) * col02 + (a10 * a22) * col01
      + (a11 * a20) * col02 - (a11 * a22) * col0 - (a12 * a20) * col01 + (a12 * a21) * col0
  have cof01 : a12 * a20 - a10 * a22 = a01 := by
    linear_combination (a01) * det - (a10 * a21) * col12 + (a10 * a22) * col1
      + (a11 * a20) * col12 - (a11 * a22) * col01 - (a12 * a20) * col1 + (a12 * a21) * col01
  have cof02 : a10 * a21 - a11 * a20 = a02 := by
    linear_combination (a02) * det - (a10 * a21) * col2 + (a10 * a22) * col12 + (a11 * a20) * col2
      - (a11 * a22) * col02 - (a12 * a20) * col12 + (a12 * a21) * col02
  have cof10 : a02 * a21 - a01 * a22 = a10 := by
    linear_combination (a10) * det + (a00 * a21) * col02 - (a00 * a22) * col01
      - (a01 * a20) * col02 + (a01 * a22) * col0 + (a02 * a20) * col01 - (a02 * a21) * col0
  have cof11 : a00 * a22 - a02 * a20 = a11 := by
    linear_combination (a11) * det + (a00 * a21) * col12 - (a00 * a22) * col1
      - (a01 * a20) * col12 + (a01 * a22) * col01 + (a02 * a20) * col1 - (a02 * a21) * col01
  have cof12 : a01 * a20 - a00 * a21 = a12 := by
    linear_combination (a12) * det + (a00 * a21) * col2 - (a00 * a22) * col12 - (a01 * a20) * col2
      + (a01 * a22) * col02 + (a02 * a20) * col12 - (a02 * a21) * col02
  have cof20 : a01 * a12 - a02 * a11 = a20 := by
    linear_combination (a20) * det - (a00 * a11) * col02 + (a00 * a12) * col01
      + (a01 * a10) * col02 - (a01 * a12) * col0 - (a02 * a10) * col01 + (a02 * a11) * col0
  have cof21 : a02 * a10 - a00 * a12 = a21 := by
    linear_combination (a21) * det - (a00 * a11) * col12 + (a00 * a12) * col1
      + (a01 * a10) * col12 - (a01 * a12) * col01 - (a02 * a10) * col1 + (a02 * a11) * col01
  have cof22 : a00 * a11 - a01 * a10 = a22 := by
    linear_combination (a22) * det - (a00 * a11) * col2 + (a00 * a12) * col12 + (a01 * a10) * col2
      - (a01 * a12) * col02 - (a02 * a10) * col12 + (a02 * a11) * col02
  have row0 : a00 * a00 + a01 * a01 + a02 * a02 = 1 := by
    linear_combination -(a00) * cof00 - (a01) * cof01 - (a02) * cof02 + det
  have row1 : a10 * a10 + a11 * a11 + a12 * a12 = 1 := by
    linear_combination -(a10) * cof10 - (a11) * cof11 - (a12) * cof12 + det
  have row2 : a20 * a20 + a21 * a21 + a22 * a22 = 1 := by
    linear_combination -(a20) * cof20 - (a21) * cof21 - (a22) * cof22 + det
  have row01 : a00 * a10 + a01 * a11 + a02 * a12 = 0 := by
    linear_combination -(a00) * cof10 - (a01) * cof11 - (a02) * cof12
  have row02 : a00 * a20 + a01 * a21 + a02 * a22 = 0 := by
    linear_combination -(a00) * cof20 - (a01) * cof21 - (a02) * cof22
  have row12 : a10 * a20 + a11 * a21 + a12 * a22 = 0 := by
    linear_combination -(a10) * cof20 - (a11) * cof21 - (a12) * cof22
  refine ⟨?_, ?_, ?_, ?_, ?_, ?_, ?_, ?_, ?_, ?_, ?_, ?_, ?_, ?_, ?_, ?_, ?_, ?_⟩
  · linear_combination col1 + col2 - row0 + 2 * cof00
  · linear_combination col0 + col2 - row1 + 2 * cof11
  · linear_combination -col2 + row0 + row1 + 2 * cof22
  · linear_combination -col2 + row0 + row1 - 2 * cof22
  · linear_combination col0 + col2 - row1 - 2 * cof11
  · linear_combination col1 + col2 - row0 - 2 * cof00
  · linear_combination -col01 - row01 + cof01 + cof10
  · linear_combination -col02 - row02 + cof02 + cof20
  · linear_combination -col12 - row12 + cof12 + cof21
  · linear_combination -col02 + row02 + cof02 - cof20
  · linear_combination col01 - row01 - cof01 + cof10
  · linear_combination col12 + row12 + cof12 + cof21
  · linear_combination col12 - row12 - cof12 + cof21
  · linear_combination -col01 + row01 - cof01 + cof10
  · linear_combination col02 + row02 + cof02 + cof20
  · linear_combination -col12 + row12 - cof12 + cof21
  · linear_combination col02 - row02 + cof02 - cof20
  · linear_combination col01 + row01 + cof01 + cof10

/-- Four times the square of the pivot component `r / 2` is the radicand. -/
theorem pivot_sq (r V : F) (hr : r * r = V) : 4 * (r / 2 * (r / 2)) = V := by
  rw [← hr]; ring

/-- Four times the pivot component times another component gives the numerator back. -/
theorem pivot_mul (r p : F) (hr0 : r ≠ 0) : 4 * (r / 2 * (p / (2 * r))) = p := by
  field_simp; ring

/-- Four times a component times the pivot component gives the numerator back. -/
theorem pivot_mul_right (r p : F) (hr0 : r ≠ 0) : 4 * (p / (2 * r) * (r / 2)) = p := by
  field_simp; ring

/-- Four times the product of two non-pivot components. -/
theorem quot_mul (r V p q c : F) (hr : r * r = V) (hr0 : r ≠ 0) (h : p * q = V * c) :
    4 * (p / (2 * r) * (q / (2 * r))) = c := by
  have hV : V ≠ 0 := by rw [← hr]; exact mul_ne_zero hr0 hr0
  have : p / (2 * r) * (q / (2 * r)) = (p * q) / (4 * (r * r)) := by
    rw [div_mul_div_comm]; congr 1; ring
  rw [this, hr, h]
  field_simp
  ring

/-- The quaternion of the branch `trace > 0` (lines 744-748) represents the matrix. -/
theorem represents_branchW (a : Mat3 F) (P : a.Products) (r : F)
    (hr : r * r = a.a00 + a.a11 + a.a22 + 1) (hr0 : r ≠ 0) :
    Quat.Represents ⟨0.25 / (0.5 / r), (a.a21 - a.a12) * (0.5 / r), (a.a02 - a.a20) * (0.5 / r),
      (a.a10 - a.a01) * (0.5 / r)⟩ a := by
  have hr' : r * r = 1 + a.a00 + a.a11 + a.a22 := by rw [hr]; ring
  have e1 : (0.25 : F) / (0.5 / r) = r / 2 := by
    field_simp; norm_num; ring
  have e2 : ∀ p : F, p * (0.5 / r) = p / (2 * r) := by
    intro p; field_simp; norm_num; ring
  simp only [e1, e2]
  exact ⟨pivot_sq r _ hr', quot_mul r _ _ _ _ hr' hr0 P.wx_sq, quot_mul r _ _ _ _ hr' hr0 P.wy_sq,
    quot_mul r _ _ _ _ hr' hr0 P.wz_sq, pivot_mul r _ hr0, pivot_mul r _ hr0, pivot_mul r _ hr0,
    quot_mul r _ _ _ _ hr' hr0 P.wx_wy, quot_mul r _ _ _ _ hr' hr0 P.wx_wz,
    quot_mul r _ _ _ _ hr' hr0 P.wy_wz⟩


/-- The quaternion of the branch with `a[0][0]` largest (lines 751-755) represents the matrix. -/
theorem represents_branchX (a : Mat3 F) (P : a.Products) (r : F)
    (hr : r * r = 1 + a.a00 - a.a11 - a.a22) (hr0 : r ≠ 0) :
    Quat.Represents ⟨(a.a21 - a.a12) / (2 * r), 0.25 * (2 * r), (a.a01 + a.a10) / (2 * r),
      (a.a02 + a.a20) / (2 * r)⟩ a := by
  have e1 : (0.25 : F) * (2 * r) = r / 2 := by
    norm_num; ring
  simp only [e1]
  exact ⟨quot_mul r _ _ _ _ hr hr0 (P.wx_sq.trans (mul_comm _ _)), pivot_sq r _ hr,
    quot_mul r _ _ _ _ hr hr0 P.xy_sq, quot_mul r _ _ _ _ hr hr0 P.xz_sq,
    pivot_mul_right r _ hr0, quot_mul r _ _ _ _ hr hr0 P.wx_xy, quot_mul r _ _ _ _ hr hr0 P.wx_xz,
    pivot_mul r _ hr0, pivot_mul r _ hr0, quot_mul r _ _ _ _ hr hr0 P.xy_xz⟩

/-- The quaternion of the branch with `a[1][1]` largest (lines 757-761) represents the matrix. -/
theorem represents_branchY (a : Mat3 F) (P : a.Products) (r : F)
    (hr : r * r = 1 + a.a11 - a.a00 - a.a22) (hr0 : r ≠ 0) :
    Quat.Represents ⟨(a.a02 - a.a20) / (2 * r), (a.a01 + a.a10) / (2 * r), 0.25 * (2 * r),
      (a.a12 + a.a21) / (2 * r)⟩ a := by
  have hr' : r * r = 1 - a.a00 + a.a11 - a.a22 := by rw [hr]; ring
  have e1 : (0.25 : F) * (2 * r) = r / 2 := by
    norm_num; ring
  simp only [e1]
  exact ⟨quot_mul r _ _ _ _ hr' hr0 (P.wy_sq.trans (mul_comm _ _)),
    quot_mul r _ _ _ _ hr' hr0 (P.xy_sq.trans (mul_comm _ _)), pivot_sq r _ hr',
    quot_mul r _ _ _ _ hr' hr0 P.yz_sq, quot_mul r _ _ _ _ hr' hr0 P.wy_xy, pivot_mul_right r _ hr0,
    quot_mul r _ _ _ _ hr' hr0 P.wy_yz, pivot_mul_right r _ hr0, quot_mul r _ _ _ _ hr' hr0 P.xy_yz,
    pivot_mul r _ hr0⟩

/-- The quaternion of the last branch (lines 763-767) represents the matrix. -/
theorem represents_branchZ (a : Mat3 F) (P : a.Products) (r : F)
    (hr : r * r = 1 + a.a22 - a.a00 - a.a11) (hr0 : r ≠ 0) :
    Quat.Represents ⟨(a.a10 - a.a01) / (2 * r), (a.a02 + a.a20) / (2 * r),
      (a.a12 + a.a21) / (2 * r), 0.25 * (2 * r)⟩ a := by
  have hr' : r * r = 1 - a.a00 - a.a11 + a.a22 := by rw [hr]; ring
  have e1 : (0.25 : F) * (2 * r) = r / 2 := by
    norm_num; ring
  simp only [e1]
  exact ⟨quot_mul r _ _ _ _ hr' hr0 (P.wz_sq.trans (mul_comm _ _)),
    quot_mul r _ _ _ _ hr' hr0 (P.xz_sq.trans (mul_comm _ _)),
    quot_mul r _ _ _ _ hr' hr0 (P.yz_sq.trans (mul_comm _ _)), pivot_sq r _ hr',
    quot_mul r _ _ _ _ hr' hr0 P.wz_xz, quot_mul r _ _ _ _ hr' hr0 P.wz_yz, pivot_mul_right r _ hr0,
    quot_mul r _ _ _ _ hr' hr0 P.xz_yz, pivot_mul_right r _ hr0, pivot_mul_right r _ hr0⟩

/-- The matrix with columns `up × forward`, `up`, `forward` of an orthonormal pair is a
rotation matrix. -/
theorem basisMatrix_isRotation {d u : Vector3D F}
    (h : OrthonormalPair d u) :
    (basisMatrix (u.crossProduct d) u d).IsRotation := by
  obtain ⟨dx, dy, dz⟩ := d
  obtain ⟨ux, uy, uz⟩ := u
  obtain ⟨hd, hu, hp⟩ := h
  simp only [Vector3D.dotProduct] at hd hu hp
  constructor <;> simp only [basisMatrix, Vector3D.crossProduct, Mat3.det]
  · linear_combination (ux * ux + uy * uy + uz * uz) * hd + hu - (dx * ux + dy * uy + dz * uz) * hp
  · exact hu
  · exact hd
  · ring
  · ring
  · linear_combination hp
  · linear_combination (ux * ux + uy * uy + uz * uz) * hd + hu - (dx * ux + dy * uy + dz * uz) * hp


end OrientationAlgebra

/-- The square root of a positive real squares back to it and is not zero. -/
theorem sqrt_facts (v : ℝ) (hv : 0 < v) :
    Real.sqrt v * Real.sqrt v = v ∧ Real.sqrt v ≠ 0 :=
  ⟨Real.mul_self_sqrt hv.le, (Real.sqrt_pos.mpr hv).ne'⟩

/-- On a rotation matrix the branch taken by `extractQuaternion` divides by non-zero values
only and yields a quaternion that represents the matrix. -/
theorem extractQuaternion_spec (m : Libm ℝ) (hm : IsRealLibm m) (a : Mat3 ℝ)
    (h : a.IsRotation) :
    (∀ d ∈ extractQuaternionDivisors m a, d ≠ 0) ∧ (extractQuaternion m a).Represents a := by
  have P := h.products
  unfold extractQuaternionDivisors extractQuaternion
  simp only [hm.sqrtf_eq]
  split_ifs with h1 h2 h3
  · obtain ⟨hr, hr0⟩ := sqrt_facts (a.a00 + a.a11 + a.a22 + 1) (by linarith)
    refine ⟨?_, represents_branchW a P _ hr hr0⟩
    intro d hd
    simp only [List.mem_cons, List.mem_singleton, List.not_mem_nil, or_false] at hd
    rcases hd with rfl | rfl
    · exact hr0
    · exact div_ne_zero (by norm_num) hr0
  · obtain ⟨hr, hr0⟩ := sqrt_facts (1 + a.a00 - a.a11 - a.a22) (by linarith [h2.1, h2.2])
    refine ⟨?_, represents_branchX a P _ hr hr0⟩
    intro d hd
    simp only [List.mem_singleton] at hd
    subst hd
    exact mul_ne_zero two_ne_zero hr0
  · have hle : a.a00 ≤ a.a11 ∨ a.a00 ≤ a.a22 := by
      by_contra hc
      push_neg at hc
      exact h2 ⟨hc.1, hc.2⟩
    obtain ⟨hr, hr0⟩ := sqrt_facts (1 + a.a11 - a.a00 - a.a22)
      (by rcases hle with hle | hle <;> linarith)
    refine ⟨?_, represents_branchY a P _ hr hr0⟩
    intro d hd
    simp only [List.mem_singleton] at hd
    subst hd
    exact mul_ne_zero two_ne_zero hr0
  · have hle : a.a00 ≤ a.a11 ∨ a.a00 ≤ a.a22 := by
      by_contra hc
      push_neg at hc
      exact h2 ⟨hc.1, hc.2⟩
    obtain ⟨hr, hr0⟩ := sqrt_facts (1 + a.a22 - a.a00 - a.a11)
      (by rcases hle with hle | hle <;> linarith)
    refine ⟨?_, represents_branchZ a P _ hr hr0⟩
    intro d hd
    simp only [List.mem_singleton] at hd
    subst hd
    exact mul_ne_zero two_ne_zero hr0


/-- A real vector fails `isZero` exactly when its squared length is positive. -/
theorem isZero_eq_false_iff (v : Vector3D ℝ) :
    v.isZero = false ↔ 0 < v.x * v.x + v.y * v.y + v.z * v.z := by
  unfold Vector3D.isZero
  constructor
  · intro h
    by_contra hc
    have h0 : v.x * v.x + v.y * v.y + v.z * v.z = 0 :=
      le_antisymm (not_lt.mp hc)
        (by nlinarith [mul_self_nonneg v.x, mul_self_nonneg v.y, mul_self_nonneg v.z])
    have hx : v.x = 0 := by nlinarith [mul_self_nonneg v.x, mul_self_nonneg v.y, mul_self_nonneg v.z]
    have hy : v.y = 0 := by nlinarith [mul_self_nonneg v.x, mul_self_nonneg v.y, mul_self_nonneg v.z]
    have hz : v.z = 0 := by nlinarith [mul_self_nonneg v.x, mul_self_nonneg v.y, mul_self_nonneg v.z]
    simp [hx, hy, hz] at h
  · intro h
    by_contra hc
    simp only [Bool.not_eq_false, Bool.and_eq_true, decide_eq_true_eq] at hc
    obtain ⟨⟨hx, hy⟩, hz⟩ := hc
    simp [hx, hy, hz] at h

/-- Normalising a non-zero vector with the exact square root gives a unit vector. -/
theorem normalize_unit (m : Libm ℝ) (hm : IsRealLibm m) (v : Vector3D ℝ)
    (hv : v.isZero = false) :
    (Vector3D.normalize m v).dotProduct (Vector3D.normalize m v) = 1 := by
  have hpos := (isZero_eq_false_iff v).mp hv
  simp only [Vector3D.normalize, Vector3D.norm, Vector3D.dotProduct, hm.sqrtf_eq]
  have hr := Real.mul_self_sqrt hpos.le
  have hr0 : Real.sqrt (v.x * v.x + v.y * v.y + v.z * v.z) ≠ 0 := (Real.sqrt_pos.mpr hpos).ne'
  field_simp

/-- The analytic reconstruction of lines 701-710 yields a unit vector perpendicular to a
unit `cameraDir`. -/
theorem spherical_up_orthonormal (m : Libm ℝ) (hm : IsRealLibm m) (d : Vector3D ℝ)
    (hd : d.dotProduct d = 1) :
    OrthonormalPair d
      ⟨m.sinf (m.acosf d.y - m.pi / 2)
          * m.cosf (if d.x ≠ 0 ∨ d.z ≠ 0 then m.atan2f d.z d.x else 0),
        m.cosf (m.acosf d.y - m.pi / 2),
        m.sinf (m.acosf d.y - m.pi / 2)
          * m.sinf (if d.x ≠ 0 ∨ d.z ≠ 0 then m.atan2f d.z d.x else 0)⟩ := by
  obtain ⟨dx, dy, dz⟩ := d
  simp only [Vector3D.dotProduct] at hd
  have hy2 : dy * dy ≤ 1 := by nlinarith [mul_self_nonneg dx, mul_self_nonneg dz]
  have hy1 : -1 ≤ dy := by nlinarith
  have hy1' : dy ≤ 1 := by nlinarith
  have hsin : m.sinf (m.acosf dy - m.pi / 2) = -dy := by
    rw [hm.sinf_eq, hm.acosf_eq, hm.pi_eq, Real.sin_sub_pi_div_two, Real.cos_arccos hy1 hy1']
  have hρ : dx * dx + dz * dz = 1 - dy ^ 2 := by linear_combination hd
  have hcos : m.cosf (m.acosf dy - m.pi / 2) = Real.sqrt (dx * dx + dz * dz) := by
    rw [hm.cosf_eq, hm.acosf_eq, hm.pi_eq, Real.cos_sub_pi_div_two, Real.sin_arccos, hρ]
  simp only [hsin, hcos]
  by_cases hxz : dx ≠ 0 ∨ dz ≠ 0
  · have hpos : 0 < dx * dx + dz * dz := by
      rcases hxz with h | h
      · nlinarith [mul_self_pos.mpr h, mul_self_nonneg dz]
      · nlinarith [mul_self_pos.mpr h, mul_self_nonneg dx]
    have hr := Real.mul_self_sqrt hpos.le
    have hr0 : Real.sqrt (dx * dx + dz * dz) ≠ 0 := (Real.sqrt_pos.mpr hpos).ne'
    have hne : (⟨dx, dz⟩ : ℂ) ≠ 0 := by
      intro hc
      have h1 := congrArg Complex.re hc
      have h2 := congrArg Complex.im hc
      simp only [Complex.zero_re, Complex.zero_im] at h1 h2
      rcases hxz with h | h
      · exact h h1
      · exact h h2
    have habs : Complex.abs ⟨dx, dz⟩ = Real.sqrt (dx * dx + dz * dz) := by
      rw [Complex.abs_apply, Complex.normSq_mk]
    rw [if_pos hxz, hm.cosf_eq, hm.sinf_eq, hm.atan2f_eq, Complex.cos_arg hne, Complex.sin_arg,
      habs]
    simp only
    set r := Real.sqrt (dx * dx + dz * dz) with hrdef
    constructor <;> simp only [Vector3D.dotProduct]
    · exact hd
    · field_simp
      nlinarith [hr, hd]
    · field_simp
      nlinarith [hr, hd]
  · push_neg at hxz
    obtain ⟨hx0, hz0⟩ := hxz
    subst hx0 hz0
    rw [if_neg (by simp), hm.cosf_eq, hm.sinf_eq]
    have hyy : dy * dy = 1 := by linear_combination hd
    constructor <;> simp [Vector3D.dotProduct, hyy]

/-- The Gram-Schmidt step of lines 713-718 yields a unit vector perpendicular to
`cameraDir` as soon as the two unit inputs are not parallel. -/
theorem gramSchmidt_orthonormal (m : Libm ℝ) (hm : IsRealLibm m) (d u : Vector3D ℝ)
    (hd : d.dotProduct d = 1) (hu : u.dotProduct u = 1) (hdot : |d.dotProduct u| < 1) :
    OrthonormalPair d (Vector3D.normalize m (u.sub (d.scale (d.dotProduct u)))) := by
  obtain ⟨dx, dy, dz⟩ := d
  obtain ⟨ux, uy, uz⟩ := u
  simp only [Vector3D.dotProduct] at hd hu hdot
  set p := dx * ux + dy * uy + dz * uz with hp
  have hp2 : p * p < 1 := by
    have := abs_lt.mp hdot
    nlinarith
  have hlen : (ux - dx * p) * (ux - dx * p) + (uy - dy * p) * (uy - dy * p)
      + (uz - dz * p) * (uz - dz * p) = 1 - p * p := by
    linear_combination hu + (p * p) * hd + (2 * p) * hp
  have hpos : 0 < (ux - dx * p) * (ux - dx * p) + (uy - dy * p) * (uy - dy * p)
      + (uz - dz * p) * (uz - dz * p) := by rw [hlen]; linarith
  have hr := Real.mul_self_sqrt hpos.le
  have hr0 := (Real.sqrt_pos.mpr hpos).ne'
  simp only [Vector3D.normalize, Vector3D.norm, Vector3D.sub, Vector3D.scale,
    Vector3D.dotProduct, hm.sqrtf_eq, ← hp]
  set r := Real.sqrt ((ux - dx * p) * (ux - dx * p) + (uy - dy * p) * (uy - dy * p)
      + (uz - dz * p) * (uz - dz * p)) with hrdef
  constructor <;> simp only [Vector3D.dotProduct]
  · exact hd
  · field_simp
    linear_combination -hr
  · field_simp
    linear_combination (-p) * hd - hp


/-- The repair of lines 696-719 returns a unit vector perpendicular to `cameraDir` whenever the
error is above `0.01` or exactly zero. -/
theorem repairAxis_orthonormal (m : Libm ℝ) (hm : IsRealLibm m) (d u : Vector3D ℝ)
    (hd : d.dotProduct d = 1) (hu : u.dotProduct u = 1)
    (h : 0.01 < |d.dotProduct u| ∨ |d.dotProduct u| = 0) :
    OrthonormalPair d (repairAxis m d u) := by
  simp only [repairAxis]
  by_cases h1 : |d.dotProduct u| > 0.5
  · rw [if_pos h1]
    exact spherical_up_orthonormal m hm d hd
  · rw [if_neg h1]
    by_cases h2 : |d.dotProduct u| > 0.01
    · rw [if_pos h2]
      refine gramSchmidt_orthonormal m hm d u hd hu ?_
      have : (0.5 : ℝ) < 1 := by norm_num
      exact lt_of_le_of_lt (not_lt.mp h1) this
    · rw [if_neg h2]
      rcases h with h | h
      · exact absurd h h2
      · exact ⟨hd, hu, abs_eq_zero.mp h⟩

/-- Basis reconstruction returns an orthonormal pair whenever forward is zero or the error is
above `0.01` or exactly zero. -/
theorem reconstructBasis_orthonormal (m : Libm ℝ) (hm : IsRealLibm m)
    (cameraDir cameraAxis : Vector3D ℝ)
    (h : cameraDir.isZero = true ∨ 0.01 < orientationError m cameraDir cameraAxis
      ∨ orientationError m cameraDir cameraAxis = 0) :
    OrthonormalPair (reconstructBasis m cameraDir cameraAxis).1
      (reconstructBasis m cameraDir cameraAxis).2 := by
  by_cases hz : cameraDir.isZero = true
  · simp only [reconstructBasis, hz, Bool.not_true, Bool.false_eq_true, if_false]
    constructor <;> norm_num [Vector3D.dotProduct]
  · have hz' : cameraDir.isZero = false := by simpa using hz
    have hd := normalize_unit m hm cameraDir hz'
    have hu : (if (!cameraAxis.isZero) = true then Vector3D.normalize m cameraAxis
        else (⟨0, 1, 0⟩ : Vector3D ℝ)).dotProduct
        (if (!cameraAxis.isZero) = true then Vector3D.normalize m cameraAxis
        else (⟨0, 1, 0⟩ : Vector3D ℝ)) = 1 := by
      by_cases ha : cameraAxis.isZero = true
      · simp [ha, Vector3D.dotProduct]
      · have ha' : cameraAxis.isZero = false := by simpa using ha
        simp only [ha', Bool.not_false, if_true]
        exact normalize_unit m hm cameraAxis ha'
    have h' : 0.01 < orientationError m cameraDir cameraAxis
        ∨ orientationError m cameraDir cameraAxis = 0 := by
      rcases h with h | h
      · exact absurd h hz
      · exact h
    simp only [orientationError] at h'
    simp only [reconstructBasis, hz', Bool.not_false, if_true]
    exact repairAxis_orthonormal m hm _ _ hd hu h'

/-- C9: quaternion extraction round-trips.  For every 3x3 rotation matrix `a` (orthogonal,
determinant `+1`), whichever of the four branches is taken, every divisor met is non-zero,
the extracted `(w, x, y, z)` has unit norm, and the standard rotation matrix rebuilt from it
equals `a`. -/
theorem extractQuaternion_roundtrip (m : Libm ℝ) (hm : IsRealLibm m) (a : Mat3 ℝ)
    (h : a.IsRotation) :
    (∀ d ∈ extractQuaternionDivisors m a, d ≠ 0) ∧ (extractQuaternion m a).normSq = 1
      ∧ (extractQuaternion m a).toMat3 = a :=
  ⟨(extractQuaternion_spec m hm a h).1, (extractQuaternion_spec m hm a h).2.normSq_eq,
    (extractQuaternion_spec m hm a h).2.toMat3_eq⟩

/-- The four rotations used as witnesses are rotation matrices, and each selects another
branch of the extraction: the identity (trace 3) and the half turns about the x, y and z
axes (trace -1, largest diagonal entry first, second, third). -/
theorem isRotation_examples :
    (⟨1, 0, 0, 0, 1, 0, 0, 0, 1⟩ : Mat3 ℝ).IsRotation
      ∧ (⟨1, 0, 0, 0, -1, 0, 0, 0, -1⟩ : Mat3 ℝ).IsRotation
      ∧ (⟨-1, 0, 0, 0, 1, 0, 0, 0, -1⟩ : Mat3 ℝ).IsRotation
      ∧ (⟨-1, 0, 0, 0, -1, 0, 0, 0, 1⟩ : Mat3 ℝ).IsRotation := by
  refine ⟨?_, ?_, ?_, ?_⟩ <;> constructor <;> norm_num [Mat3.det]

/-- Witness of C9: the round trip on one rotation per branch. -/
theorem extractQuaternion_roundtrip_witness :
    ∃ m : Libm ℝ, IsRealLibm m ∧
      (extractQuaternion m ⟨1, 0, 0, 0, 1, 0, 0, 0, 1⟩).toMat3 = ⟨1, 0, 0, 0, 1, 0, 0, 0, 1⟩
      ∧ (extractQuaternion m ⟨1, 0, 0, 0, -1, 0, 0, 0, -1⟩).toMat3
          = ⟨1, 0, 0, 0, -1, 0, 0, 0, -1⟩
      ∧ (extractQuaternion m ⟨-1, 0, 0, 0, 1, 0, 0, 0, -1⟩).toMat3
          = ⟨-1, 0, 0, 0, 1, 0, 0, 0, -1⟩
      ∧ (extractQuaternion m ⟨-1, 0, 0, 0, -1, 0, 0, 0, 1⟩).toMat3
          = ⟨-1, 0, 0, 0, -1, 0, 0, 0, 1⟩ := by
  obtain ⟨m, hm⟩ := exists_isRealLibm
  obtain ⟨h1, h2, h3, h4⟩ := isRotation_examples
  exact ⟨m, hm, (extractQuaternion_roundtrip m hm _ h1).2.2,
    (extractQuaternion_roundtrip m hm _ h2).2.2, (extractQuaternion_roundtrip m hm _ h3).2.2,
    (extractQuaternion_roundtrip m hm _ h4).2.2⟩

/-- C10 (amended): the listener-orientation computation outputs a unit quaternion,
`w^2 + x^2 + y^2 + z^2 = 1`, for every forward and up input whose forward vector is zero, or
whose error `|forward . up|` (after normalisation, a zero up being replaced by `(0, 1, 0)`)
is above `0.01` (the up vector is then repaired) or exactly `0`. -/
theorem listenerOrientation_unit (m : Libm ℝ) (hm : IsRealLibm m)
    (cameraDir cameraAxis : Vector3D ℝ)
    (h : cameraDir.isZero = true ∨ 0.01 < orientationError m cameraDir cameraAxis
      ∨ orientationError m cameraDir cameraAxis = 0) :
    (listenerOrientation m cameraDir cameraAxis).quat.normSq = 1 := by
  have ho := reconstructBasis_orthonormal m hm cameraDir cameraAxis h
  exact (extractQuaternion_spec m hm _ (basisMatrix_isRotation ho)).2.normSq_eq

/-- Witness of C10 (amended): forward and up both `(0, 0, 1)`, parallel, error 1. -/
theorem listenerOrientation_unit_witness :
    ∃ m : Libm ℝ, IsRealLibm m ∧
      (listenerOrientation m ⟨0, 0, 1⟩ ⟨0, 0, 1⟩).quat.normSq = 1 := by
  obtain ⟨m, hm⟩ := exists_isRealLibm
  refine ⟨m, hm, listenerOrientation_unit m hm ⟨0, 0, 1⟩ ⟨0, 0, 1⟩ (Or.inr (Or.inl ?_))⟩
  simp [orientationError, Vector3D.isZero, Vector3D.normalize, Vector3D.norm,
    Vector3D.dotProduct, hm.sqrtf_eq]
  norm_num

/-- C10 fails as stated.  For forward `(0, 0, 1)` and the unit up vector
`(0, 62499/62501, 500/62501)` the error is `500/62501`, below `0.01`, so the up vector is
accepted unchanged although it is not perpendicular to forward, and the quaternion computed
has squared norm `250001/250004`, not 1. -/
theorem listenerOrientation_unit_counterexample :
    ∃ m : Libm ℝ, IsRealLibm m ∧
      orientationError m ⟨0, 0, 1⟩ ⟨0, 62499 / 62501, 500 / 62501⟩ = 500 / 62501 ∧
      (listenerOrientation m ⟨0, 0, 1⟩ ⟨0, 62499 / 62501, 500 / 62501⟩).quat.normSq
        = 250001 / 250004 := by
  obtain ⟨m, hm⟩ := exists_isRealLibm
  have h1 : ((62499 : ℝ) / 62501) * (62499 / 62501) + (500 / 62501) * (500 / 62501) = 1 := by
    norm_num
  refine ⟨m, hm, ?_, ?_⟩
  · simp [orientationError, Vector3D.isZero, Vector3D.normalize, Vector3D.norm,
      Vector3D.dotProduct, hm.sqrtf_eq, h1]
    norm_num [abs_of_pos]
  · have hb : reconstructBasis m ⟨0, 0, 1⟩ ⟨0, 62499 / 62501, 500 / 62501⟩
        = (⟨0, 0, 1⟩, ⟨0, 62499 / 62501, 500 / 62501⟩) := by
      simp [reconstructBasis, repairAxis, Vector3D.isZero, Vector3D.normalize, Vector3D.norm,
        Vector3D.dotProduct, hm.sqrtf_eq, h1]
      norm_num [abs_of_pos]
    simp only [listenerOrientation, hb, Vector3D.crossProduct, basisMatrix, extractQuaternion,
      hm.sqrtf_eq]
    norm_num
    rw [show (√250000 : ℝ) = 500 by
      rw [show (250000 : ℝ) = 500 ^ 2 by norm_num]; exact Real.sqrt_sq (by norm_num)]
    have hs := Real.mul_self_sqrt (show (0 : ℝ) ≤ 62501 by norm_num)
    have hs0 : (√62501 : ℝ) ≠ 0 := (Real.sqrt_pos.mpr (by norm_num)).ne'
    simp only [Quat.normSq]
    field_simp
    nlinarith [hs]

/-! ### The frame mixer -/

section MixerLemmas

variable {F : Type} [LinearOrderedField F] [FloorRing F]

/-- A loop of zero iterations leaves the state as it is. -/
theorem forLoop_zero {σ : Type} (body : Nat → σ → σ) (init : σ) :
    forLoop 0 body init = init := by
  simp [forLoop]

/-- The last iteration of a loop acts on the state left by the earlier ones. -/
theorem forLoop_succ {σ : Type} (n : Nat) (body : Nat → σ → σ) (init : σ) :
    forLoop (n + 1) body init = body n (forLoop n body init) := by
  simp [forLoop, List.range_succ, List.foldl_append]

/-- A loop that rewrites one array cell per iteration leaves the other cells alone. -/
theorem forLoop_update_other {α : Type} (n : Nat) (idx : Nat → Nat) (g : Nat → α → α)
    (o : Nat → α) (k : Nat) (hk : ∀ i, i < n → idx i ≠ k) :
    forLoop n (fun i o => Function.update o (idx i) (g i (o (idx i)))) o k = o k := by
  induction n with
  | zero => rw [forLoop_zero]
  | succ n ih =>
    rw [forLoop_succ, Function.update_noteq (hk n (Nat.lt_succ_self n)).symm]
    exact ih fun i hi => hk i (Nat.lt_succ_of_lt hi)

/-- A loop that rewrites a different array cell in each iteration applies the body once to
the cell of each iteration. -/
theorem forLoop_update_at {α : Type} (n : Nat) (idx : Nat → Nat) (g : Nat → α → α)
    (o : Nat → α) (hinj : ∀ i j, i < n → j < n → idx i = idx j → i = j) (i : Nat) (hi : i < n) :
    forLoop n (fun i o => Function.update o (idx i) (g i (o (idx i)))) o (idx i)
      = g i (o (idx i)) := by
  induction n with
  | zero => exact absurd hi (Nat.not_lt_zero i)
  | succ n ih =>
    rw [forLoop_succ]
    rcases Nat.lt_succ_iff_lt_or_eq.mp hi with h | h
    · have hne : idx i ≠ idx n := fun e =>
        absurd (hinj i n hi (Nat.lt_succ_self n) e) (Nat.ne_of_lt h)
      rw [Function.update_noteq hne]
      exact ih (fun a b ha hb => hinj a b (Nat.lt_succ_of_lt ha) (Nat.lt_succ_of_lt hb)) h
    · subst h
      rw [Function.update_same]
      congr 1
      exact forLoop_update_other i idx g o (idx i) fun j hj e =>
        absurd (hinj j i (Nat.lt_succ_of_lt hj) (Nat.lt_succ_self i) e) (Nat.ne_of_lt hj)

/-- Distinct frames of an interleaved buffer have distinct cells for channel `s`. -/
theorem interleave_inj (nchan s : Nat) (hs : s < nchan) (i j : Nat)
    (h : i * nchan + s = j * nchan + s) : i = j := by
  have hpos : 0 < nchan := Nat.lt_of_le_of_lt (Nat.zero_le s) hs
  exact Nat.eq_of_mul_eq_mul_right hpos (Nat.add_right_cancel h)

end MixerLemmas

section Interpolation

variable {F : Type} [LinearOrderedField F]

/-- The absolute increment is `|new - old| / frameCount`. -/
theorem interpInc_abs (old channelVol : F) (n : Nat) :
    |interpInc old channelVol n| = |channelVol - old| / (n : F) := by
  unfold interpInc
  rw [abs_div, Nat.abs_cast]

/-- Consecutive gains differ by the increment. -/
theorem interpGain_succ_sub (old inc : F) (i : Nat) :
    interpGain old inc (i + 1) - interpGain old inc i = inc := by
  unfold interpGain
  push_cast
  ring

/-- The interpolated gain written with the target and the frame length. -/
theorem interpGain_eq (old channelVol : F) (n i : Nat) :
    interpGain old (interpInc old channelVol n) i
      = old + (i : F) * (channelVol - old) / (n : F) := by
  unfold interpGain interpInc
  ring

/-- The gain of the last sample of a frame is one increment short of the target. -/
theorem interpGain_last (old channelVol : F) (n : Nat) (hn : 0 < n) :
    interpGain old (interpInc old channelVol n) (n - 1)
      = channelVol - interpInc old channelVol n := by
  have hn0 : (n : F) ≠ 0 := Nat.cast_ne_zero.mpr (Nat.pos_iff_ne_zero.mp hn)
  unfold interpGain interpInc
  rw [Nat.cast_sub (Nat.succ_le_of_lt hn), Nat.cast_one]
  field_simp
  ring

/-- A non-negative cached gain is used as it is. -/
theorem interpOld_of_nonneg (cached channelVol : F) (h : 0 ≤ cached) :
    interpOld cached channelVol = cached := by
  unfold interpOld
  rw [if_pos h]

end Interpolation

section ChannelStep

variable {F : Type} [LinearOrderedField F] [FloorRing F]

/-- The channel step stores the target volume in the gain cache of its channel. -/
theorem mixPositionalChannel_pfVolume (env : MixEnv F) (ao : AudioOutput F) (n : Nat)
    (svol : Nat → F) (cv : Vector3D F) (len : F) (aud : Bool) (adj : F) (stereo : Bool)
    (pf : Nat → F) (s : Nat) (st : ChannelState F) :
    (mixPositionalChannel env ao n svol cv len aud adj stereo pf s st).pfVolume
      = Function.update st.pfVolume s
          (positionalChannelVol env.libm env.s aud (svol s) (channelDot ao cv s) len adj) :=
  rfl

/-- In a frame that is mixed, sample `i` of channel `s` receives the PCM sample at the
interpolated offset times the interpolated gain. -/
theorem mixPositionalChannel_output_mixed (env : MixEnv F) (ao : AudioOutput F) (n : Nat)
    (svol : Nat → F) (cv : Vector3D F) (len : F) (aud : Bool) (adj : F)
    (pf : Nat → F) (s : Nat) (st : ChannelState F) (hs : s < ao.iChannels)
    (hguard :
      interpOld (st.pfVolume s)
          (positionalChannelVol env.libm env.s aud (svol s) (channelDot ao cv s) len adj)
          ≥ 0.00000001
        ∨ positionalChannelVol env.libm env.s aud (svol s) (channelDot ao cv s) len adj
          ≥ 0.00000001)
    (i : Nat) (hi : i < n) :
    (mixPositionalChannel env ao n svol cv len aud adj false pf s st).output
        (i * ao.iChannels + s)
      = st.output (i * ao.iChannels + s)
        + pf (i + itdCurrentOffset (st.piOffset s)
              (itdIncOffset (itdOffset env.INTERAURAL_DELAY (channelDot ao cv s))
                (st.piOffset s) n : F) i)
          * interpGain
              (interpOld (st.pfVolume s)
                (positionalChannelVol env.libm env.s aud (svol s) (channelDot ao cv s) len adj))
              (interpInc
                (interpOld (st.pfVolume s)
                  (positionalChannelVol env.libm env.s aud (svol s) (channelDot ao cv s) len
                    adj))
                (positionalChannelVol env.libm env.s aud (svol s) (channelDot ao cv s) len adj)
                n) i := by
  simp only [mixPositionalChannel, if_pos hguard, Bool.false_eq_true, if_false]
  exact forLoop_update_at n (fun i => i * ao.iChannels + s)
    (fun i v => v + pf (i + itdCurrentOffset (st.piOffset s)
      (itdIncOffset (itdOffset env.INTERAURAL_DELAY (channelDot ao cv s)) (st.piOffset s) n : F)
      i)
      * interpGain
          (interpOld (st.pfVolume s)
            (positionalChannelVol env.libm env.s aud (svol s) (channelDot ao cv s) len adj))
          (interpInc
            (interpOld (st.pfVolume s)
              (positionalChannelVol env.libm env.s aud (svol s) (channelDot ao cv s) len adj))
            (positionalChannelVol env.libm env.s aud (svol s) (channelDot ao cv s) len adj)
            n) i)
    st.output (fun a b _ _ e => interleave_inj ao.iChannels s hs a b e) i hi

/-- In a frame whose old and new gains are both below `1e-8` the channel is not touched. -/
theorem mixPositionalChannel_output_skipped (env : MixEnv F) (ao : AudioOutput F) (n : Nat)
    (svol : Nat → F) (cv : Vector3D F) (len : F) (aud : Bool) (adj : F) (stereo : Bool)
    (pf : Nat → F) (s : Nat) (st : ChannelState F)
    (hguard : ¬ (
      interpOld (st.pfVolume s)
          (positionalChannelVol env.libm env.s aud (svol s) (channelDot ao cv s) len adj)
          ≥ 0.00000001
        ∨ positionalChannelVol env.libm env.s aud (svol s) (channelDot ao cv s) len adj
          ≥ 0.00000001)) :
    (mixPositionalChannel env ao n svol cv len aud adj stereo pf s st).output = st.output := by
  simp only [mixPositionalChannel, if_neg hguard]

/-- After the channels below `k` have been processed, the gain cache holds the target volume
of each of them and is unchanged elsewhere. -/
theorem forLoop_mixPositionalChannel_pfVolume (env : MixEnv F) (ao : AudioOutput F) (n : Nat)
    (svol : Nat → F) (cv : Vector3D F) (len : F) (aud : Bool) (adj : F) (stereo : Bool)
    (pf : Nat → F) (st : ChannelState F) (k s : Nat) :
    (forLoop k (mixPositionalChannel env ao n svol cv len aud adj stereo pf) st).pfVolume s
      = if s < k then
          positionalChannelVol env.libm env.s aud (svol s) (channelDot ao cv s) len adj
        else st.pfVolume s := by
  induction k with
  | zero => simp [forLoop_zero]
  | succ k ih =>
    rw [forLoop_succ, mixPositionalChannel_pfVolume]
    by_cases h : s = k
    · subst h
      simp
    · rw [Function.update_noteq h, ih]
      by_cases h2 : s < k
      · rw [if_pos h2, if_pos (Nat.lt_succ_of_lt h2)]
      · rw [if_neg h2, if_neg (fun h3 => h2 (Nat.lt_of_le_of_ne (Nat.le_of_lt_succ h3) h))]

end ChannelStep

section ScenarioB

variable {F : Type} [LinearOrderedField F] [FloorRing F]

/-- The gain cache that `mixPositional` leaves for channel `s` is the target volume of the
channel. -/
theorem mixPositional_pfVolume (env : MixEnv F) (ao : AudioOutput F) (n : Nat)
    (svol : Nat → F) (adj : F) (b : AudioOutputBuffer F) (pf out : Nat → F) (s : Nat)
    (hs : s < ao.iChannels) :
    ∃ v, (mixPositional env ao n svol adj b pf out).2.pfVolume = some v ∧
      v s = positionalChannelVol env.libm env.s
        (decide (env.s.fAudioMaxDistVolume > 0)
          || decide ((b.fPos.sub env.cameraPos).norm env.libm < env.s.fAudioMaxDistance))
        (svol s)
        (channelDot ao
          (if (b.fPos.sub env.cameraPos).norm env.libm > 0 then
            ⟨(b.fPos.sub env.cameraPos).x / (b.fPos.sub env.cameraPos).norm env.libm,
              (b.fPos.sub env.cameraPos).y / (b.fPos.sub env.cameraPos).norm env.libm,
              (b.fPos.sub env.cameraPos).z / (b.fPos.sub env.cameraPos).norm env.libm⟩
          else b.fPos.sub env.cameraPos) s)
        ((b.fPos.sub env.cameraPos).norm env.libm) adj := by
  refine ⟨_, rfl, ?_⟩
  rw [forLoop_mixPositionalChannel_pfVolume, if_pos hs]

end ScenarioB
section Clip

variable {F : Type} [LinearOrderedField F]

/-- Clipping leaves a zero sample at zero. -/
theorem qBound_zero : qBound (-1 : F) 0 1 = 0 := by
  simp [qBound]


/-- The collection pass on a single ready speech buffer: the mix list holds that buffer,
possibly repositioned, and nothing is queued for deletion. -/
theorem collect_single_speech (env : MixEnv F) (ao : AudioOutput F) (n : Nat)
    (b : AudioOutputBuffer F) (p : ClientUser F) (sugg : F) (lis : Bool)
    (hq : ao.qmOutputs = [b]) (hkind : b.kind = BufferKind.speech p sugg lis)
    (hprep : env.prepareSampleBuffer b n = (true, b)) :
    ∃ b1 : AudioOutputBuffer F, (collect env ao n).qlMix = [b1] ∧ b1.kind = b.kind
      ∧ b1.pfBuffer = b.pfBuffer ∧ b1.bStereo = b.bStereo := by
  unfold collect
  rw [hq]
  simp only [List.foldl_cons, List.foldl_nil, collectBuffer, hprep, Bool.not_true,
    Bool.false_eq_true, if_false, hkind, List.nil_append]
  refine ⟨_, rfl, ?_⟩
  split_ifs <;>
    first
    | exact ⟨hkind, rfl, rfl⟩
    | (split <;> first | exact ⟨hkind, rfl, rfl⟩ | exact ⟨rfl, rfl, rfl⟩)

end Clip

section ScenarioA

variable {F : Type} [LinearOrderedField F] [FloorRing F]

/-- A speech buffer never writes to the output: it is skipped (recording user) or handed to
the module graph. -/
theorem mixBuffer_speech_output (env : MixEnv F) (ao : AudioOutput F) (n : Nat)
    (svol : Nat → F) (psa : Bool) (st : MixState F) (b : AudioOutputBuffer F)
    (p : ClientUser F) (sugg : F) (lis : Bool) (hkind : b.kind = BufferKind.speech p sugg lis) :
    (mixBuffer env ao n svol psa st b).output = st.output := by
  unfold mixBuffer
  rw [hkind]
  simp only
  split_ifs <;> rfl

/-- A speech buffer that is not skipped for recording is handed to the module graph with the
PCM the handlers of `audioSourceFetched` left, a stereo stream folded to mono. -/
theorem mixBuffer_speech_handOffs (env : MixEnv F) (ao : AudioOutput F) (n : Nat)
    (svol : Nat → F) (psa : Bool) (st : MixState F) (b : AudioOutputBuffer F)
    (p : ClientUser F) (sugg : F) (lis : Bool) (hkind : b.kind = BufferKind.speech p sugg lis)
    (hrec : env.recorder = false) :
    ((mixBuffer env ao n svol psa st b).handOffs.map fun h => (h.session, h.samples))
      = (st.handOffs.map fun h => (h.session, h.samples))
        ++ [(p.uiSession, userSamples n b.bStereo
              (env.audioSourceFetched b.pfBuffer n (if b.bStereo then 2 else 1) true))] := by
  unfold mixBuffer
  rw [hkind]
  simp [hrec]

/-- With one output channel, one ready speech buffer and no plugin touching the output,
every sample of the frame that `mix` leaves in a float output is zero. -/
theorem mix_single_speech_output (env : MixEnv F) (ao : AudioOutput F)
    (outFloat : Nat → F) (outShort : Nat → Int) (n : Nat)
    (b : AudioOutputBuffer F) (p : ClientUser F) (sugg : F) (lis : Bool)
    (hvol : 0.01 ≤ env.s.fVolume) (hch : ao.iChannels = 1) (hq : ao.qmOutputs = [b])
    (hkind : b.kind = BufferKind.speech p sugg lis)
    (hprep : env.prepareSampleBuffer b n = (true, b))
    (hhook : ∀ o k c, env.audioOutputAboutToPlay o k c = (o, false))
    (hfmt : ao.eSampleFormat = SampleFormat.SampleFloat) (i : Nat) (hi : i < n) :
    (mix env ao outFloat outShort n).ret = true
      ∧ (mix env ao outFloat outShort n).output i = 0 := by
  obtain ⟨b1, hcol, hk1, -, -⟩ := collect_single_speech env ao n b p sugg lis hq hkind hprep
  rw [hkind] at hk1
  unfold mix mixUnclipped
  simp only [if_neg (not_lt.mpr hvol), hcol, hhook, hch, hfmt, List.isEmpty_cons, Bool.not_false,
    Bool.or_true, Bool.true_and, decide_True, if_true, mul_one, List.foldl_cons,
    List.foldl_nil, addBinaural, if_neg (show ¬ ((1 : Nat) ≥ 2) by decide), gt_iff_lt,
    lt_self_iff_false, decide_False, Bool.and_false, Bool.false_and, Bool.false_eq_true,
    if_false]
  refine ⟨trivial, ?_⟩
  have hmix : ∀ (a : AudioOutput F) (sv : Nat → F) (psa : Bool) (st : MixState F),
      (mixBuffer env a n sv psa st b1).output = st.output :=
    fun a sv psa st => mixBuffer_speech_output env a n sv psa st b1 p sugg lis hk1
  have hz : ∀ o : Nat → F, o i = 0 →
      forLoop n (fun i o => Function.update o i (qBound (-1) (o i) 1)) o i = 0 := by
    intro o ho
    rw [forLoop_update_at n (fun i => i) (fun _ v => qBound (-1) v 1) o
      (fun _ _ _ _ e => e) i hi, ho, qBound_zero]
  apply hz
  split_ifs <;> simp [hmix, hi]

end ScenarioA
section ScenarioASample

variable {F : Type} [LinearOrderedField F]

/-- The collection pass on a single ready sample: the mix list holds exactly that buffer. -/
theorem collect_single_sample (env : MixEnv F) (ao : AudioOutput F) (n : Nat)
    (b : AudioOutputBuffer F) (vol : F)
    (hq : ao.qmOutputs = [b]) (hkind : b.kind = BufferKind.sample vol)
    (hprep : env.prepareSampleBuffer b n = (true, b)) :
    (collect env ao n).qlMix = [b] := by
  unfold collect
  rw [hq]
  simp only [List.foldl_cons, List.foldl_nil, collectBuffer, hprep, Bool.not_true,
    Bool.false_eq_true, if_false, hkind, List.nil_append]

end ScenarioASample

section ScenarioAMix

variable {F : Type} [LinearOrderedField F] [FloorRing F]

/-- The hand-off of the single speech buffer: its PCM reaches the module graph unscaled. -/
theorem mix_single_speech_handOffs (env : MixEnv F) (ao : AudioOutput F)
    (outFloat : Nat → F) (outShort : Nat → Int) (n : Nat)
    (b : AudioOutputBuffer F) (p : ClientUser F) (sugg : F) (lis : Bool)
    (hvol : 0.01 ≤ env.s.fVolume) (hq : ao.qmOutputs = [b])
    (hkind : b.kind = BufferKind.speech p sugg lis)
    (hprep : env.prepareSampleBuffer b n = (true, b))
    (hnew : ao.newInstance = false) (hrec : env.recorder = false)
    (hfetch : ∀ pf k c sp, env.audioSourceFetched pf k c sp = pf) :
    ((mix env ao outFloat outShort n).handOffs.map fun h => (h.session, h.samples))
      = [(p.uiSession, userSamples n b.bStereo b.pfBuffer)] := by
  obtain ⟨b1, hcol, hk1, hpf, hst⟩ := collect_single_speech env ao n b p sugg lis hq hkind hprep
  rw [hkind] at hk1
  unfold mix mixUnclipped
  simp only [if_neg (not_lt.mpr hvol), hcol, hnew, List.isEmpty_cons, Bool.not_false,
    Bool.true_and, Bool.and_self, if_true, List.foldl_cons, List.foldl_nil]
  rw [mixBuffer_speech_handOffs env _ n _ _ _ b1 p sugg lis hk1 hrec, hfetch, hpf, hst]
  rfl

/-- A single ready mono sample without position on one output channel: every sample of the
float output is the PCM sample times master, speaker and sample volume, clipped. -/
theorem mix_single_sample_output (env : MixEnv F) (ao : AudioOutput F)
    (outFloat : Nat → F) (outShort : Nat → Int) (n : Nat)
    (b : AudioOutputBuffer F) (vol : F)
    (hvol : 0.01 ≤ env.s.fVolume) (hch : ao.iChannels = 1) (hq : ao.qmOutputs = [b])
    (hkind : b.kind = BufferKind.sample vol) (hzero : b.fPos.isZero = true)
    (hmono : b.bStereo = false)
    (hprep : env.prepareSampleBuffer b n = (true, b))
    (hnew : ao.newInstance = false)
    (hfetch : ∀ pf k c sp, env.audioSourceFetched pf k c sp = pf)
    (hhook : ∀ o k c, env.audioOutputAboutToPlay o k c = (o, false))
    (hfmt : ao.eSampleFormat = SampleFormat.SampleFloat) (i : Nat) (hi : i < n) :
    (mix env ao outFloat outShort n).output i
      = qBound (-1) (b.pfBuffer i * (env.s.fVolume * ao.fSpeakerVolume 0 * (1 * vol))) 1 := by
  have hcol := collect_single_sample env ao n b vol hq hkind hprep
  unfold mix mixUnclipped
  simp only [if_neg (not_lt.mpr hvol), hcol, hhook, hch, hfmt, hnew, List.isEmpty_cons,
    Bool.not_false, Bool.or_true, Bool.true_and, Bool.and_self, decide_True, if_true, mul_one,
    List.foldl_cons, List.foldl_nil, addBinaural, if_neg (show ¬ ((1 : Nat) ≥ 2) by decide),
    gt_iff_lt, lt_self_iff_false, decide_False, Bool.and_false, Bool.false_and,
    Bool.false_eq_true, if_false]
  rw [forLoop_update_at n (fun i => i) (fun _ v => qBound (-1) v 1) _ (fun _ _ _ _ e => e) i hi]
  congr 1
  simp only [mixBuffer, hkind, hzero, Bool.not_true, Bool.false_eq_true, if_false, hfetch,
    mixStatic, hch, hmono, volumeAdjustment, forLoop_succ, forLoop_zero, mul_one, add_zero]
  rw [forLoop_update_at n (fun i => i) (fun i v => v + b.pfBuffer i
    * (env.s.fVolume * ao.fSpeakerVolume 0 * (1 * vol))) _ (fun _ _ _ _ e => e) i hi]
  simp [hi]

/-- Without positional data fetched, `mix` leaves the speaker vectors as they are. -/
theorem mix_speaker_of_not_fetched (env : MixEnv F) (ao : AudioOutput F)
    (outFloat : Nat → F) (outShort : Nat → Int) (n : Nat)
    (hfetch : env.fetchPositionalData = false) :
    (mix env ao outFloat outShort n).ao.speaker = ao.speaker := by
  unfold mix mixUnclipped
  split_ifs <;> simp [hfetch]

/-- A single ready positioned sample: the mix list after the frame holds the buffer as lines
903-992 leave it, computed with the speaker vectors that the call leaves behind. -/
theorem mix_single_sample_positioned (env : MixEnv F) (ao : AudioOutput F)
    (outFloat : Nat → F) (outShort : Nat → Int) (n : Nat)
    (b : AudioOutputBuffer F) (vol : F)
    (hvol : 0.01 ≤ env.s.fVolume) (hq : ao.qmOutputs = [b])
    (hkind : b.kind = BufferKind.sample vol) (hposd : b.fPos.isZero = false)
    (hprep : env.prepareSampleBuffer b n = (true, b)) (hnew : ao.newInstance = false) :
    ∃ (ao1 : AudioOutput F) (pf out : Nat → F) (psa : Bool),
      ao1.iChannels = ao.iChannels ∧ ao1.bSpeakerPositional = ao.bSpeakerPositional ∧
      ao1.fSpeakerVolume = ao.fSpeakerVolume ∧
      ao1.speaker = (mix env ao outFloat outShort n).ao.speaker ∧
      (mix env ao outFloat outShort n).qlMix
        = [(mixPositional env ao1 n (fun i => env.s.fVolume * ao.fSpeakerVolume i)
            (volumeAdjustment env psa b) b pf out).2] := by
  have hcol := collect_single_sample env ao n b vol hq hkind hprep
  unfold mix mixUnclipped
  simp only [if_neg (not_lt.mpr hvol), hcol, hnew, List.isEmpty_cons, Bool.not_false,
    Bool.true_and, Bool.and_self, if_true, List.foldl_cons, List.foldl_nil]
  by_cases hv : (env.s.bPositionalAudio && decide (ao.iChannels > 1)
      && env.fetchPositionalData) = true
  · simp only [hv, if_true]
    refine ⟨{ ao with
        listenerRotationQuat := (listenerOrientation env.libm env.cameraDir env.cameraAxis).quat
        speaker := rotateSpeakers ao (listenerOrientation env.libm env.cameraDir env.cameraAxis) },
      env.audioSourceFetched b.pfBuffer n 1 false,
      (fun k => if k < n * ao.iChannels then 0 else outFloat k),
      ((collect env ao n).prioritySpeakerActive || env.prioritySpeakerActiveOverride),
      rfl, rfl, rfl, rfl, ?_⟩
    simp only [mixBuffer, hkind, hposd, Bool.not_false, if_true, List.nil_append, hnew]
  · simp only [hv, Bool.false_eq_true, if_false]
    refine ⟨ao, env.audioSourceFetched b.pfBuffer n 1 false,
      (fun k => if k < n * ao.iChannels then 0 else outFloat k),
      ((collect env ao n).prioritySpeakerActive || env.prioritySpeakerActiveOverride),
      rfl, rfl, rfl, rfl, ?_⟩
    simp only [mixBuffer, hkind, hposd, Bool.not_false, if_true, List.nil_append]

end ScenarioAMix
section MixerClaims

variable {F : Type} [LinearOrderedField F] [FloorRing F]

/-- C6: scenario B.  For a positioned one-shot sample with `dot = 1` on a positional
channel, at a distance equal to the maximum distance, with floor 0.1, in the roll-off regime
(the distance is neither below `0.01` nor below the minimum distance), `calcGain` returns
exactly the floor 0.1, and the target volume that `mix` computes for the channel and leaves
in the gain cache of the buffer is `masterVolume * speakerVolume * 0.1 * sampleVolume`.  The
value `dot` is the one of line 936: the direction to the source times the speaker vector of
the channel as this call of `mix` uses it. -/
theorem scenarioB_target_volume (env : MixEnv F) (ao : AudioOutput F)
    (outFloat : Nat → F) (outShort : Nat → Int) (n : Nat)
    (b : AudioOutputBuffer F) (vol : F) (s : Nat)
    (hvol : 0.01 ≤ env.s.fVolume) (hq : ao.qmOutputs = [b])
    (hkind : b.kind = BufferKind.sample vol) (hposd : b.fPos.isZero = false)
    (hprep : env.prepareSampleBuffer b n = (true, b)) (hnew : ao.newInstance = false)
    (hs : s < ao.iChannels) (hpos : ao.bSpeakerPositional s = true)
    (hfloor : env.s.fAudioMaxDistVolume = 0.1)
    (hlen : (b.fPos.sub env.cameraPos).norm env.libm = env.s.fAudioMaxDistance)
    (hnear : 0.01 ≤ env.s.fAudioMaxDistance)
    (hmin : env.s.fAudioMinDistance ≤ env.s.fAudioMaxDistance)
    (hdot : (b.fPos.sub env.cameraPos).x / env.s.fAudioMaxDistance
        * (mix env ao outFloat outShort n).ao.speaker (s * 3 + 0)
      + (b.fPos.sub env.cameraPos).y / env.s.fAudioMaxDistance
        * (mix env ao outFloat outShort n).ao.speaker (s * 3 + 1)
      + (b.fPos.sub env.cameraPos).z / env.s.fAudioMaxDistance
        * (mix env ao outFloat outShort n).ao.speaker (s * 3 + 2) = 1) :
    calcGain env.libm env.s 1 env.s.fAudioMaxDistance = 0.1 ∧
    ∃ (b1 : AudioOutputBuffer F) (v : Nat → F),
      (mix env ao outFloat outShort n).qlMix = [b1] ∧ b1.kind = b.kind ∧
      b1.pfVolume = some v ∧
      v s = env.s.fVolume * ao.fSpeakerVolume s * 0.1 * vol := by
  have hfloor99 : env.s.fAudioMaxDistVolume ≤ 0.99 := by rw [hfloor]; norm_num
  have hgain : calcGain env.libm env.s 1 env.s.fAudioMaxDistance = 0.1 := by
    rw [calcGain_far_eq env.libm env.s 1 _ hnear hfloor99 hmin le_rfl, hfloor]
    norm_num [dotRemap]
  refine ⟨hgain, ?_⟩
  obtain ⟨ao1, pf, out, psa, hch, hsp, -, hspk, hmix⟩ :=
    mix_single_sample_positioned env ao outFloat outShort n b vol hvol hq hkind hposd hprep hnew
  obtain ⟨v, hv, hvs⟩ := mixPositional_pfVolume env ao1 n
    (fun i => env.s.fVolume * ao.fSpeakerVolume i) (volumeAdjustment env psa b) b pf out s
    (hch ▸ hs)
  refine ⟨_, v, hmix, rfl, hv, ?_⟩
  have hpos0 : env.s.fAudioMaxDistance > 0 := lt_of_lt_of_le (by norm_num) hnear
  have haud : (0 : F) < 0.1 := by norm_num
  rw [hvs, hlen, if_pos hpos0]
  simp only [positionalChannelVol, channelDot, hsp, hspk, hpos, if_true, hdot, hgain, hfloor,
    gt_iff_lt, haud, decide_True, Bool.true_or, volumeAdjustment, hkind]
  ring

/-- C8 (amended): gain interpolation of a positioned, directly mixed source on channel `s`.
In a frame that is mixed (old or new gain at least `1e-8`) sample `i` receives the PCM
sample times `old + i * (new - old) / frameCount`, where `old` is the cached gain, or `new`
while the cache is negative; in a frame with both gains below `1e-8` the channel is left
untouched.  The gains of two consecutive samples of a frame differ by at most
`|new - old| / frameCount`, and so do the last sample of a frame and the first of the next
one, provided the target `new` of the earlier frame is not negative. -/
theorem gain_interpolation (env : MixEnv F) (ao : AudioOutput F) (n : Nat)
    (svol : Nat → F) (cv : Vector3D F) (len : F) (aud : Bool) (adj : F)
    (pf : Nat → F) (s : Nat) (st : ChannelState F) (hs : s < ao.iChannels) (hn : 0 < n) :
    let new := positionalChannelVol env.libm env.s aud (svol s) (channelDot ao cv s) len adj
    let old := interpOld (st.pfVolume s) new
    let inc := interpInc old new n
    let st1 := mixPositionalChannel env ao n svol cv len aud adj false pf s st
    (old ≥ 0.00000001 ∨ new ≥ 0.00000001 →
      ∀ i, i < n → st1.output (i * ao.iChannels + s)
        = st.output (i * ao.iChannels + s)
          + pf (i + itdCurrentOffset (st.piOffset s)
              (itdIncOffset (itdOffset env.INTERAURAL_DELAY (channelDot ao cv s))
                (st.piOffset s) n : F) i)
            * (old + (i : F) * (new - old) / (n : F)))
    ∧ (¬ (old ≥ 0.00000001 ∨ new ≥ 0.00000001) → st1.output = st.output)
    ∧ (∀ i : Nat, |interpGain old inc (i + 1) - interpGain old inc i| ≤ |new - old| / (n : F))
    ∧ (0 ≤ new → ∀ new2 : F,
        |interpGain (interpOld (st1.pfVolume s) new2)
            (interpInc (interpOld (st1.pfVolume s) new2) new2 n) 0
          - interpGain old inc (n - 1)| ≤ |new - old| / (n : F)) := by
  intro new old inc st1
  refine ⟨?_, ?_, ?_, ?_⟩
  · intro hguard i hi
    rw [← interpGain_eq]
    exact mixPositionalChannel_output_mixed env ao n svol cv len aud adj pf s st hs hguard i hi
  · intro hguard
    exact mixPositionalChannel_output_skipped env ao n svol cv len aud adj false pf s st hguard
  · intro i
    rw [interpGain_succ_sub, interpInc_abs]
  · intro hnew new2
    have hcache : st1.pfVolume s = new := by
      show (mixPositionalChannel env ao n svol cv len aud adj false pf s st).pfVolume s = new
      rw [mixPositionalChannel_pfVolume, Function.update_same]
    rw [hcache, interpOld_of_nonneg new new2 hnew, interpGain_last old new n hn]
    have h0 : interpGain new (interpInc new new2 n) 0 = new := by
      simp [interpGain]
    rw [h0, ← interpInc_abs]
    have : new - (new - interpInc old new n) = interpInc old new n := by ring
    rw [this]

end MixerClaims

/-- The length of the vector from the origin to `(0, 0, 15)` computed with the exact square
root. -/
theorem norm_example (m : Libm ℝ) (hm : IsRealLibm m) :
    ((⟨0, 0, 15⟩ : Vector3D ℝ).sub ⟨0, 0, 0⟩).norm m = 15 := by
  simp only [Vector3D.sub, Vector3D.norm, hm.sqrtf_eq, sub_zero, mul_zero, zero_add]
  rw [show (15 : ℝ) * 15 = 15 ^ 2 by norm_num]
  exact Real.sqrt_sq (by norm_num)

/-- Witness of C6: two channels, the listener at the origin, a sample of volume 1 straight
ahead at distance 15, the maximum distance of the example settings, in a frame of 480. -/
theorem scenarioB_target_volume_witness :
    ∃ m : Libm ℝ, IsRealLibm m ∧
      (calcGain m exampleSettings 1 15 = 0.1 ∧
        ∃ (b1 : AudioOutputBuffer ℝ) (v : Nat → ℝ),
          (mix (exampleEnv m exampleSettings ⟨0, 0, 0⟩)
              (exampleOutput 2 [exampleSample 1 ⟨0, 0, 15⟩ 0.5 none])
              (fun _ => 0) (fun _ => 0) 480).qlMix = [b1] ∧
          b1.kind = (exampleSample 1 ⟨0, 0, 15⟩ 0.5 none : AudioOutputBuffer ℝ).kind ∧
          b1.pfVolume = some v ∧ v 0 = 1 * 1 * 0.1 * 1) := by
  obtain ⟨m, hm⟩ := exists_isRealLibm
  refine ⟨m, hm, scenarioB_target_volume (exampleEnv m exampleSettings ⟨0, 0, 0⟩)
    (exampleOutput 2 [exampleSample 1 ⟨0, 0, 15⟩ 0.5 none]) (fun _ => 0) (fun _ => 0) 480
    (exampleSample 1 ⟨0, 0, 15⟩ 0.5 none) 1 0
    (by norm_num [exampleEnv, exampleSettings]) rfl rfl
    (by simp [exampleSample, Vector3D.isZero]) rfl rfl (by decide) rfl rfl
    (norm_example m hm)
    (by norm_num [exampleEnv, exampleSettings]) (by norm_num [exampleEnv, exampleSettings]) ?_⟩
  rw [mix_speaker_of_not_fetched _ _ _ _ _ rfl]
  norm_num [exampleEnv, exampleSettings, exampleSample, exampleOutput, Vector3D.sub]

/-- A one-shot sample in the place of the speech source of scenario A is mixed into the
output: on the example data with a mono sample of volume 1 and PCM 0.5, every sample of the
output frame is `0.5 * masterVolume`. -/
theorem scenarioA_sample :
    ∃ m : Libm ℝ, IsRealLibm m ∧
      ∀ i, i < 480 →
        (mix (exampleEnv m exampleSettings ⟨0, 0, 0⟩)
            (exampleOutput 1 [exampleSample 1 ⟨0, 0, 0⟩ 0.5 none])
            (fun _ => 0) (fun _ => 0) 480).output i
          = 0.5 * (exampleSettings : Settings ℝ).fVolume := by
  obtain ⟨m, hm⟩ := exists_isRealLibm
  refine ⟨m, hm, fun i hi => ?_⟩
  rw [mix_single_sample_output (exampleEnv m exampleSettings ⟨0, 0, 0⟩)
    (exampleOutput 1 [exampleSample 1 ⟨0, 0, 0⟩ 0.5 none]) (fun _ => 0) (fun _ => 0) 480
    (exampleSample 1 ⟨0, 0, 0⟩ 0.5 none) 1 (by norm_num [exampleEnv, exampleSettings]) rfl rfl
    rfl (by simp [exampleSample, Vector3D.isZero]) rfl rfl rfl (fun _ _ _ _ => rfl)
    (fun _ _ _ => rfl) rfl i hi]
  norm_num [exampleEnv, exampleSettings, exampleSample, exampleOutput, qBound]

/-- C7: evaluation of `mix` in scenario A on the example data: master volume 1, one output
channel, float output, a frame of 480 samples, and one active mono speech source at full
volume, without position, whose PCM samples all equal 0.5.  The scenario requires every
sample of the output frame to be `0.5 * masterVolume = 0.5`.  `mix` reports a written frame,
but every sample of it is 0: the 480 samples are handed as they are to the source node of
session 1, nothing of the speech source is added to the output, and the output of the module
graph (0.25 on both ears in the example) is not added to a frame of one channel either. -/
theorem scenarioA_speech_silent :
    ∃ m : Libm ℝ, IsRealLibm m ∧
      (mix (exampleEnv m exampleSettings ⟨0, 0, 0⟩) (exampleOutput 1 [exampleSpeech 0.5])
          (fun _ => 0) (fun _ => 0) 480).ret = true
      ∧ (∀ i, i < 480 →
          (mix (exampleEnv m exampleSettings ⟨0, 0, 0⟩) (exampleOutput 1 [exampleSpeech 0.5])
            (fun _ => 0) (fun _ => 0) 480).output i = 0
          ∧ (mix (exampleEnv m exampleSettings ⟨0, 0, 0⟩) (exampleOutput 1 [exampleSpeech 0.5])
            (fun _ => 0) (fun _ => 0) 480).output i
              ≠ 0.5 * (exampleSettings : Settings ℝ).fVolume)
      ∧ ((mix (exampleEnv m exampleSettings ⟨0, 0, 0⟩) (exampleOutput 1 [exampleSpeech 0.5])
            (fun _ => 0) (fun _ => 0) 480).handOffs.map fun h => (h.session, h.samples))
          = [(1, List.replicate 480 0.5)] := by
  obtain ⟨m, hm⟩ := exists_isRealLibm
  have hout := mix_single_speech_output (exampleEnv m exampleSettings ⟨0, 0, 0⟩)
    (exampleOutput 1 [exampleSpeech 0.5]) (fun _ => 0) (fun _ => 0) 480 (exampleSpeech 0.5)
    exampleUser 1 false (by norm_num [exampleEnv, exampleSettings]) rfl rfl rfl rfl
    (fun _ _ _ => rfl) rfl
  refine ⟨m, hm, (hout 0 (by decide)).1, fun i hi => ⟨(hout i hi).2, ?_⟩, ?_⟩
  · rw [(hout i hi).2]
    norm_num [exampleSettings]
  · rw [mix_single_speech_handOffs (exampleEnv m exampleSettings ⟨0, 0, 0⟩)
      (exampleOutput 1 [exampleSpeech 0.5]) (fun _ => 0) (fun _ => 0) 480 (exampleSpeech 0.5)
      exampleUser 1 false (by norm_num [exampleEnv, exampleSettings]) rfl rfl rfl rfl rfl
      (fun _ _ _ _ => rfl)]
    show [((1 : Nat), userSamples 480 false (fun _ => (0.5 : ℝ)))] = _
    simp only [userSamples, Bool.false_eq_true, if_false]
    rw [List.map_const', List.length_range]

/-- Witness of C8 (amended): the step bound inside a frame of four samples, for a source
straight ahead at distance 15 whose cache still holds the sentinel. -/
theorem gain_interpolation_witness :
    ∃ m : Libm ℝ, IsRealLibm m ∧
      ∀ i : Nat,
        |interpGain
            (interpOld (-1)
              (positionalChannelVol m exampleSettings true 1
                (channelDot (exampleOutput 2 []) ⟨0, 0, 1⟩ 0) 15 1))
            (interpInc
              (interpOld (-1)
                (positionalChannelVol m exampleSettings true 1
                  (channelDot (exampleOutput 2 []) ⟨0, 0, 1⟩ 0) 15 1))
              (positionalChannelVol m exampleSettings true 1
                (channelDot (exampleOutput 2 []) ⟨0, 0, 1⟩ 0) 15 1) 4) (i + 1)
          - interpGain
            (interpOld (-1)
              (positionalChannelVol m exampleSettings true 1
                (channelDot (exampleOutput 2 []) ⟨0, 0, 1⟩ 0) 15 1))
            (interpInc
              (interpOld (-1)
                (positionalChannelVol m exampleSettings true 1
                  (channelDot (exampleOutput 2 []) ⟨0, 0, 1⟩ 0) 15 1))
              (positionalChannelVol m exampleSettings true 1
                (channelDot (exampleOutput 2 []) ⟨0, 0, 1⟩ 0) 15 1) 4) i|
        ≤ |positionalChannelVol m exampleSettings true 1
              (channelDot (exampleOutput 2 []) ⟨0, 0, 1⟩ 0) 15 1
            - interpOld (-1)
              (positionalChannelVol m exampleSettings true 1
                (channelDot (exampleOutput 2 []) ⟨0, 0, 1⟩ 0) 15 1)| / ((4 : Nat) : ℝ) := by
  obtain ⟨m, hm⟩ := exists_isRealLibm
  exact ⟨m, hm, (gain_interpolation (exampleEnv m exampleSettings ⟨0, 0, 0⟩)
    (exampleOutput 2 []) 4 (fun _ => 1) ⟨0, 0, 1⟩ 15 true 1 (fun _ => 0.5) 0
    ⟨fun _ => 0, fun _ => -1, fun _ => 0⟩ (by decide) (by decide)).2.2.1⟩

/-- C8 fails as stated, in two ways.  First, a negative target gain is read back as the
sentinel: with cached gain 1 and a sample of volume -1 inside the listener, the target is
-1, the last of four samples has gain -1/2, the cache then holds -1, and with target 1 in
the next frame the first sample has gain 1, a jump of 3/2 where `|new - old| / frameCount`
is 1/2.  Second, a frame whose old and new gains are both below `1e-8` is not mixed: with
cached gain 0 and target `5e-9` the output cell of sample 1 stays 0, although the PCM sample
0.5 times `old + 1 * (new - old) / 4` is not 0. -/
theorem gain_interpolation_counterexample :
    ∃ m : Libm ℝ, IsRealLibm m ∧
      (positionalChannelVol m exampleSettings true 1 1 0 (-1) = -1
        ∧ interpGain (interpOld (1 : ℝ) (-1)) (interpInc (interpOld (1 : ℝ) (-1)) (-1) 4) 3
            = -1 / 2
        ∧ interpGain (interpOld (-1 : ℝ) 1) (interpInc (interpOld (-1 : ℝ) 1) 1 4) 0 = 1
        ∧ |(1 : ℝ) - -1 / 2| > |(-1 : ℝ) - interpOld 1 (-1)| / 4)
      ∧ ((mixPositionalChannel (exampleEnv m exampleSettings ⟨0, 0, 0⟩) (exampleOutput 2 []) 4
            (fun _ => 1) ⟨0, 0, 1⟩ 0 true 0.000000005 false (fun _ => 0.5) 0
            ⟨fun _ => 0, fun _ => 0, fun _ => 0⟩).output (1 * 2 + 0) = 0
        ∧ (0.5 : ℝ) * (0 + 1 * (0.000000005 - 0) / 4) ≠ 0) := by
  obtain ⟨m, hm⟩ := exists_isRealLibm
  have hg : ∀ d : ℝ, calcGain m exampleSettings d 0 = 1 :=
    fun d => calcGain_near m _ d 0 (by norm_num)
  refine ⟨m, hm, ⟨?_, ?_, ?_, ?_⟩, ?_, by norm_num⟩
  · simp only [positionalChannelVol, if_true, hg]
    norm_num
  · norm_num [interpGain, interpOld, interpInc]
  · norm_num [interpGain, interpOld, interpInc]
  · norm_num [interpOld, abs_of_pos, abs_of_neg]
  · rw [mixPositionalChannel_output_skipped]
    simp only [positionalChannelVol, if_true, hg, interpOld, exampleEnv]
    norm_num


/-! ### Repair of the up vector -/

/-- A forward vector along `+z` with the same up vector: the spherical repair gives the
up vector `(0, 1, 0)`. -/
theorem reconstructBasis_parallel_z (m : Libm ℝ) (hm : IsRealLibm m) :
    reconstructBasis m ⟨0, 0, 1⟩ ⟨0, 0, 1⟩ = (⟨0, 0, 1⟩, ⟨0, 1, 0⟩) := by
  have h5 : ¬ ((1 : ℝ) ≤ 0.5) := by norm_num
  simp [reconstructBasis, repairAxis, Vector3D.isZero, Vector3D.normalize, Vector3D.norm,
    Vector3D.dotProduct, hm.sqrtf_eq, hm.acosf_eq, hm.sinf_eq, hm.cosf_eq, hm.pi_eq, h5]

/-- The length of a vector whose scalar product with itself is one. -/
theorem norm_of_unit (m : Libm ℝ) (hm : IsRealLibm m) (v : Vector3D ℝ)
    (h : v.dotProduct v = 1) : v.norm m = 1 := by
  simp only [Vector3D.dotProduct] at h
  simp only [Vector3D.norm, hm.sqrtf_eq, h, Real.sqrt_one]

/-- C11: whenever the up vector is repaired or defaulted, that is, when forward is zero
(forward becomes `(0, 0, 1)` and up `(0, 1, 0)`) or when the normalised inputs have
`|forward . up| > 0.01`, the resulting up vector has length 1 and its scalar product with the
resulting forward vector is exactly 0; and for forward `(0, 0, 1)`, up `(0, 0, 1)` the result
is up `(0, 1, 0)`. -/
theorem reconstructBasis_repaired (m : Libm ℝ) (hm : IsRealLibm m)
    (cameraDir cameraAxis : Vector3D ℝ)
    (h : cameraDir.isZero = true ∨ 0.01 < orientationError m cameraDir cameraAxis) :
    ((reconstructBasis m cameraDir cameraAxis).2.norm m = 1 ∧
      (reconstructBasis m cameraDir cameraAxis).1.dotProduct
        (reconstructBasis m cameraDir cameraAxis).2 = 0) ∧
    (cameraDir.isZero = true →
      reconstructBasis m cameraDir cameraAxis = (⟨0, 0, 1⟩, ⟨0, 1, 0⟩)) ∧
    (reconstructBasis m ⟨0, 0, 1⟩ ⟨0, 0, 1⟩).2 = ⟨0, 1, 0⟩ := by
  have ho := reconstructBasis_orthonormal m hm cameraDir cameraAxis
    (h.elim Or.inl (fun h => Or.inr (Or.inl h)))
  refine ⟨⟨norm_of_unit m hm _ ho.axis_unit, ho.perp⟩, fun hz => ?_, ?_⟩
  · simp [reconstructBasis, hz]
  · rw [reconstructBasis_parallel_z m hm]

/-- Witness of C11: forward and up both `(0, 0, 1)`, whose error is 1. -/
theorem reconstructBasis_repaired_witness :
    ∃ m : Libm ℝ, IsRealLibm m ∧
      (0.01 < orientationError m ⟨0, 0, 1⟩ ⟨0, 0, 1⟩) ∧
      (((reconstructBasis m ⟨0, 0, 1⟩ ⟨0, 0, 1⟩).2.norm m = 1 ∧
        (reconstructBasis m ⟨0, 0, 1⟩ ⟨0, 0, 1⟩).1.dotProduct
          (reconstructBasis m ⟨0, 0, 1⟩ ⟨0, 0, 1⟩).2 = 0) ∧
      ((⟨0, 0, 1⟩ : Vector3D ℝ).isZero = true →
        reconstructBasis m ⟨0, 0, 1⟩ ⟨0, 0, 1⟩ = (⟨0, 0, 1⟩, ⟨0, 1, 0⟩)) ∧
      (reconstructBasis m ⟨0, 0, 1⟩ ⟨0, 0, 1⟩).2 = ⟨0, 1, 0⟩) := by
  obtain ⟨m, hm⟩ := exists_isRealLibm
  have he : (0.01 : ℝ) < orientationError m ⟨0, 0, 1⟩ ⟨0, 0, 1⟩ := by
    simp [orientationError, Vector3D.isZero, Vector3D.normalize, Vector3D.norm,
      Vector3D.dotProduct, hm.sqrtf_eq]
    norm_num
  exact ⟨m, hm, he, reconstructBasis_repaired m hm ⟨0, 0, 1⟩ ⟨0, 0, 1⟩ (Or.inr he)⟩

/-! ### The module registry -/

namespace CBRTManager

/-- The search finds nothing exactly when no stored module has the identifier. -/
theorem findIf_eq_none_iff (list : List Module) (id : String) :
    findIf list id = none ↔ ∀ n ∈ list, n.id ≠ id := by
  simp [findIf, List.find?_eq_none]

/-- A module found by the search is stored and has the identifier. -/
theorem findIf_some {list : List Module} {id : String} {n : Module}
    (h : findIf list id = some n) : n ∈ list ∧ n.id = id := by
  simp only [findIf] at h
  exact ⟨List.mem_of_find?_eq_some h, by simpa using List.find?_some h⟩

/-- After a module with the identifier has been appended, the search finds a module. -/
theorem findIf_append_new (list : List Module) (id : String) (serial : Nat) :
    (findIf (list ++ [⟨serial, id⟩]) id).isSome = true := by
  simp [findIf, List.find?_isSome]

/-- Erasing the module found keeps every module with another identifier. -/
theorem mem_eraseFound_of_ne {list : List Module} {id : String} {n : Module}
    (hne : n.id ≠ id) : n ∈ eraseFound list id ↔ n ∈ list := by
  simp only [eraseFound]
  exact List.mem_eraseP_of_neg (by simpa using hne)

/-- Erasing keeps the relative order of the modules that remain. -/
theorem eraseFound_sublist (list : List Module) (id : String) :
    (eraseFound list id).Sublist list :=
  List.eraseP_sublist list

/-- When identifiers are distinct, no module with the erased identifier remains. -/
theorem not_mem_eraseFound {list : List Module} {id : String}
    (hids : list.Pairwise (fun a b => a.id ≠ b.id)) :
    ∀ n ∈ eraseFound list id, n.id ≠ id := by
  induction list with
  | nil => simp [eraseFound]
  | cons a l ih =>
    simp only [List.pairwise_cons] at hids
    by_cases ha : a.id = id
    · have : eraseFound (a :: l) id = l := by simp [eraseFound, List.eraseP_cons, ha]
      rw [this]
      intro n hn
      exact ha ▸ (hids.1 n hn).symm
    · have : eraseFound (a :: l) id = a :: eraseFound l id := by
        simp [eraseFound, List.eraseP_cons, ha]
      rw [this]
      intro n hn
      rcases List.mem_cons.mp hn with rfl | hn
      · exact ha
      · exact ih hids.2 n hn

end CBRTManager

/-- A stored list stays one when more modules have been allocated. -/
theorem StoredList.mono {b b' : Nat} {list : List Module} (h : StoredList b list)
    (hb : b ≤ b') : StoredList b' list :=
  ⟨h.order, h.ids, fun n hn => lt_of_lt_of_le (h.below n hn) hb⟩

/-- Appending a newly allocated module with an unused identifier. -/
theorem StoredList.append_new {b : Nat} {list : List Module} (h : StoredList b list)
    {id : String} (hid : CBRTManager.findIf list id = none) :
    StoredList (b + 1) (list ++ [⟨b, id⟩]) := by
  rw [CBRTManager.findIf_eq_none_iff] at hid
  refine ⟨?_, ?_, ?_⟩
  · rw [List.pairwise_append]
    exact ⟨h.order, List.pairwise_singleton _ _, fun a ha c hc => by
      rw [List.mem_singleton] at hc; subst hc; exact h.below a ha⟩
  · rw [List.pairwise_append]
    exact ⟨h.ids, List.pairwise_singleton _ _, fun a ha c hc => by
      rw [List.mem_singleton] at hc; subst hc; exact hid a ha⟩
  · intro n hn
    rcases List.mem_append.mp hn with hn | hn
    · exact Nat.lt_succ_of_lt (h.below n hn)
    · rw [List.mem_singleton] at hn; subst hn; exact Nat.lt_succ_self _

/-- Erasing a module from a stored list. -/
theorem StoredList.eraseFound {b : Nat} {list : List Module} (h : StoredList b list)
    (id : String) : StoredList b (CBRTManager.eraseFound list id) :=
  ⟨h.order.sublist (CBRTManager.eraseFound_sublist list id),
   h.ids.sublist (CBRTManager.eraseFound_sublist list id),
   fun n hn => h.below n ((CBRTManager.eraseFound_sublist list id).subset hn)⟩

namespace CBRTManager

/-- The freshly constructed registry is consistent. -/
theorem ctor_consistent : ctor.Consistent := by
  constructor <;> exact ⟨List.Pairwise.nil, List.Pairwise.nil, by simp [ctor]⟩

/-- The loop of `ProcessAllThread` appends one `SetDataReady` per source, in list order, and
changes nothing else. -/
theorem foldl_SetDataReady (list : List Module) (s : CBRTManager) :
    list.foldl (fun s it => { s with calls := s.calls ++ [ModuleCall.SetDataReady it] }) s
      = { s with calls := s.calls ++ list.map ModuleCall.SetDataReady } := by
  induction list generalizing s with
  | nil => simp
  | cons a l ih => simp [List.foldl_cons, ih]

/-- What `ProcessAllThread` leaves behind. -/
theorem ProcessAllThread_eq (st : CBRTManager) :
    ProcessAllThread st
      = { st with calls := st.calls ++ st.audioSources.map ModuleCall.SetDataReady } := by
  simp only [ProcessAllThread, foldl_SetDataReady]

/-- In setup mode a sound source with an unused identifier is created and appended; creating
it a second time returns null and changes nothing. -/
theorem CreateSoundSource_new (st : CBRTManager) (id : String)
    (hs : st.setupModeActivated = true) (hnew : ∀ n ∈ st.audioSources, n.id ≠ id) :
    CreatesOnce CreateSoundSource (fun s => s.audioSources) st id := by
  have hf := (findIf_eq_none_iff _ _).mpr hnew
  refine ⟨⟨st.allocated, id⟩, rfl, ?_, ?_, ?_⟩
  · simp [CreateSoundSource, hs, hf]
  · simp [CreateSoundSource, hs, hf, ConnectModulesCommand]
  · have h2 : (CreateSoundSource st id).2 =
        { st with allocated := st.allocated + 1,
                  calls := st.calls ++ [ModuleCall.connectCommandEntryTo ⟨st.allocated, id⟩],
                  audioSources := st.audioSources ++ [⟨st.allocated, id⟩] } := by
      simp [CreateSoundSource, hs, hf, ConnectModulesCommand]
    rw [h2]
    simp [CreateSoundSource, hs, findIf_append_new]

/-- The same for listeners. -/
theorem CreateListener_new (st : CBRTManager) (id : String)
    (hs : st.setupModeActivated = true) (hnew : ∀ n ∈ st.listeners, n.id ≠ id) :
    CreatesOnce CreateListener (fun s => s.listeners) st id := by
  have hf := (findIf_eq_none_iff _ _).mpr hnew
  refine ⟨⟨st.allocated, id⟩, rfl, ?_, ?_, ?_⟩
  · simp [CreateListener, hs, hf]
  · simp [CreateListener, hs, hf, ConnectModulesCommand]
  · have h2 : (CreateListener st id).2 =
        { st with allocated := st.allocated + 1,
                  calls := st.calls ++ [ModuleCall.connectCommandEntryTo ⟨st.allocated, id⟩],
                  listeners := st.listeners ++ [⟨st.allocated, id⟩] } := by
      simp [CreateListener, hs, hf, ConnectModulesCommand]
    rw [h2]
    simp [CreateListener, hs, findIf_append_new]

/-- The same for listener models. -/
theorem CreateListenerModel_new (st : CBRTManager) (id : String)
    (hs : st.setupModeActivated = true) (hnew : ∀ n ∈ st.listenerModels, n.id ≠ id) :
    CreatesOnce CreateListenerModel (fun s => s.listenerModels) st id := by
  have hf := (findIf_eq_none_iff _ _).mpr hnew
  refine ⟨⟨st.allocated, id⟩, rfl, ?_, ?_, ?_⟩
  · simp [CreateListenerModel, hs, hf]
  · simp [CreateListenerModel, hs, hf, ConnectModulesCommand]
  · have h2 : (CreateListenerModel st id).2 =
        { st with allocated := st.allocated + 1,
                  calls := st.calls ++ [ModuleCall.connectCommandEntryTo ⟨st.allocated, id⟩],
                  listenerModels := st.listenerModels ++ [⟨st.allocated, id⟩] } := by
      simp [CreateListenerModel, hs, hf, ConnectModulesCommand]
    rw [h2]
    simp [CreateListenerModel, hs, findIf_append_new]

/-- The same for environments. -/
theorem CreateEnvironment_new (st : CBRTManager) (id : String)
    (hs : st.setupModeActivated = true) (hnew : ∀ n ∈ st.environmentModels, n.id ≠ id) :
    CreatesOnce CreateEnvironment (fun s => s.environmentModels) st id := by
  have hf := (findIf_eq_none_iff _ _).mpr hnew
  refine ⟨⟨st.allocated, id⟩, rfl, ?_, ?_, ?_⟩
  · simp [CreateEnvironment, hs, hf]
  · simp [CreateEnvironment, hs, hf, ConnectModulesCommand]
  · have h2 : (CreateEnvironment st id).2 =
        { st with allocated := st.allocated + 1,
                  calls := st.calls ++ [ModuleCall.connectCommandEntryTo ⟨st.allocated, id⟩],
                  environmentModels := st.environmentModels ++ [⟨st.allocated, id⟩] } := by
      simp [CreateEnvironment, hs, hf, ConnectModulesCommand]
    rw [h2]
    simp [CreateEnvironment, hs, findIf_append_new]

/-- The same for binaural filters. -/
theorem CreateBinauralFilter_new (st : CBRTManager) (id : String)
    (hs : st.setupModeActivated = true) (hnew : ∀ n ∈ st.binauralFilters, n.id ≠ id) :
    CreatesOnce CreateBinauralFilter (fun s => s.binauralFilters) st id := by
  have hf := (findIf_eq_none_iff _ _).mpr hnew
  refine ⟨⟨st.allocated, id⟩, rfl, ?_, ?_, ?_⟩
  · simp [CreateBinauralFilter, hs, hf]
  · simp [CreateBinauralFilter, hs, hf, ConnectModulesCommand]
  · have h2 : (CreateBinauralFilter st id).2 =
        { st with allocated := st.allocated + 1,
                  calls := st.calls ++ [ModuleCall.connectCommandEntryTo ⟨st.allocated, id⟩],
                  binauralFilters := st.binauralFilters ++ [⟨st.allocated, id⟩] } := by
      simp [CreateBinauralFilter, hs, hf, ConnectModulesCommand]
    rw [h2]
    simp [CreateBinauralFilter, hs, findIf_append_new]

end CBRTManager

namespace CBRTManager

/-- `BeginSetup` keeps the registry consistent. -/
theorem BeginSetup_consistent {st : CBRTManager} (h : st.Consistent) :
    (BeginSetup st).Consistent :=
  ⟨h.audioSources, h.listeners, h.listenerModels, h.environmentModels, h.binauralFilters⟩

/-- `EndSetup` keeps the registry consistent. -/
theorem EndSetup_consistent {st : CBRTManager} (h : st.Consistent) :
    (EndSetup st).2.Consistent := by
  unfold EndSetup
  split_ifs
  · exact ⟨h.audioSources, h.listeners, h.listenerModels, h.environmentModels,
      h.binauralFilters⟩
  · exact h

/-- `CreateSoundSource` keeps the registry consistent. -/
theorem CreateSoundSource_consistent {st : CBRTManager} (h : st.Consistent) (id : String) :
    (CreateSoundSource st id).2.Consistent := by
  unfold CreateSoundSource
  split_ifs with h1 h2
  · exact h
  · exact h
  · have hf : findIf st.audioSources id = none := by simpa using h2
    exact ⟨h.audioSources.append_new hf, h.listeners.mono (Nat.le_succ _),
      h.listenerModels.mono (Nat.le_succ _), h.environmentModels.mono (Nat.le_succ _),
      h.binauralFilters.mono (Nat.le_succ _)⟩

/-- `CreateListener` keeps the registry consistent. -/
theorem CreateListener_consistent {st : CBRTManager} (h : st.Consistent) (id : String) :
    (CreateListener st id).2.Consistent := by
  unfold CreateListener
  split_ifs with h1 h2
  · exact h
  · exact h
  · have hf : findIf st.listeners id = none := by simpa using h2
    exact ⟨h.audioSources.mono (Nat.le_succ _), h.listeners.append_new hf,
      h.listenerModels.mono (Nat.le_succ _), h.environmentModels.mono (Nat.le_succ _),
      h.binauralFilters.mono (Nat.le_succ _)⟩

/-- `CreateListenerModel` keeps the registry consistent. -/
theorem CreateListenerModel_consistent {st : CBRTManager} (h : st.Consistent) (id : String) :
    (CreateListenerModel st id).2.Consistent := by
  unfold CreateListenerModel
  split_ifs with h1 h2
  · exact h
  · exact h
  · have hf : findIf st.listenerModels id = none := by simpa using h2
    exact ⟨h.audioSources.mono (Nat.le_succ _), h.listeners.mono (Nat.le_succ _),
      h.listenerModels.append_new hf, h.environmentModels.mono (Nat.le_succ _),
      h.binauralFilters.mono (Nat.le_succ _)⟩

/-- `CreateEnvironment` keeps the registry consistent. -/
theorem CreateEnvironment_consistent {st : CBRTManager} (h : st.Consistent) (id : String) :
    (CreateEnvironment st id).2.Consistent := by
  unfold CreateEnvironment
  split_ifs with h1 h2
  · exact h
  · exact h
  · have hf : findIf st.environmentModels id = none := by simpa using h2
    exact ⟨h.audioSources.mono (Nat.le_succ _), h.listeners.mono (Nat.le_succ _),
      h.listenerModels.mono (Nat.le_succ _), h.environmentModels.append_new hf,
      h.binauralFilters.mono (Nat.le_succ _)⟩

/-- `CreateBinauralFilter` keeps the registry consistent. -/
theorem CreateBinauralFilter_consistent {st : CBRTManager} (h : st.Consistent) (id : String) :
    (CreateBinauralFilter st id).2.Consistent := by
  unfold CreateBinauralFilter
  split_ifs with h1 h2
  · exact h
  · exact h
  · have hf : findIf st.binauralFilters id = none := by simpa using h2
    exact ⟨h.audioSources.mono (Nat.le_succ _), h.listeners.mono (Nat.le_succ _),
      h.listenerModels.mono (Nat.le_succ _), h.environmentModels.mono (Nat.le_succ _),
      h.binauralFilters.append_new hf⟩

/-- `CreateProcessor` keeps the registry consistent. -/
theorem CreateProcessor_consistent {st : CBRTManager} (h : st.Consistent) :
    (CreateProcessor st).2.Consistent := by
  unfold CreateProcessor
  split_ifs with h1
  · exact h
  · exact ⟨h.audioSources.mono (Nat.le_succ _), h.listeners.mono (Nat.le_succ _),
      h.listenerModels.mono (Nat.le_succ _), h.environmentModels.mono (Nat.le_succ _),
      h.binauralFilters.mono (Nat.le_succ _)⟩

/-- `RemoveSoundSource` keeps the registry consistent. -/
theorem RemoveSoundSource_consistent {st : CBRTManager} (h : st.Consistent) (id : String) :
    (RemoveSoundSource st id).2.Consistent := by
  unfold RemoveSoundSource
  split_ifs with h1
  · exact h
  · split
    · exact ⟨h.audioSources.eraseFound id, h.listeners, h.listenerModels,
        h.environmentModels, h.binauralFilters⟩
    · exact h

/-- `RemoveListener`, where its behaviour is defined, returns false and changes nothing. -/
theorem RemoveListener_eq_some {st : CBRTManager} {id : String} {r : Bool × CBRTManager}
    (h : RemoveListener st id = some r) : r = (false, st) := by
  unfold RemoveListener at h
  split_ifs at h with h1
  · exact (Option.some.inj h).symm
  · split at h
    · exact absurd h (by simp)
    · exact (Option.some.inj h).symm

/-- `RemoveProcessor` keeps the registry consistent. -/
theorem RemoveProcessor_consistent {st : CBRTManager} (h : st.Consistent) (p : Module) :
    (RemoveProcessor st p).2.Consistent := by
  unfold RemoveProcessor
  split_ifs with h1
  · exact h
  · exact ⟨h.audioSources, h.listeners, h.listenerModels, h.environmentModels,
      h.binauralFilters⟩

/-- `ProcessAll` keeps the registry consistent. -/
theorem ProcessAll_consistent {st : CBRTManager} (h : st.Consistent) :
    (ProcessAll st).Consistent := by
  unfold ProcessAll
  split_ifs with h1
  · exact h
  · rw [ProcessAllThread_eq]
    exact ⟨h.audioSources, h.listeners, h.listenerModels, h.environmentModels,
      h.binauralFilters⟩

/-- Every call whose behaviour is defined keeps the registry consistent. -/
theorem step_consistent {st st' : CBRTManager} (h : st.Consistent) (c : ManagerCall)
    (hstep : step st c = some st') : st'.Consistent := by
  cases c <;> simp only [step, Option.some.injEq, Option.map_eq_some'] at hstep
  case BeginSetup => exact hstep ▸ BeginSetup_consistent h
  case EndSetup => exact hstep ▸ EndSetup_consistent h
  case CreateSoundSource id => exact hstep ▸ CreateSoundSource_consistent h id
  case CreateListener id => exact hstep ▸ CreateListener_consistent h id
  case CreateListenerModel id => exact hstep ▸ CreateListenerModel_consistent h id
  case CreateEnvironment id => exact hstep ▸ CreateEnvironment_consistent h id
  case CreateBinauralFilter id => exact hstep ▸ CreateBinauralFilter_consistent h id
  case CreateProcessor => exact hstep ▸ CreateProcessor_consistent h
  case RemoveSoundSource id => exact hstep ▸ RemoveSoundSource_consistent h id
  case RemoveListener id =>
    obtain ⟨r, hr, rfl⟩ := hstep
    rw [RemoveListener_eq_some hr]
    exact h
  case RemoveProcessor p => exact hstep ▸ RemoveProcessor_consistent h p
  case ProcessAll => exact hstep ▸ ProcessAll_consistent h

/-- Every sequence of calls whose behaviour is defined keeps the registry consistent. -/
theorem run_consistent (calls : List ManagerCall) {st st' : CBRTManager} (h : st.Consistent)
    (hrun : run calls st = some st') : st'.Consistent := by
  induction calls generalizing st with
  | nil =>
    simp only [run, Option.some.injEq] at hrun
    exact hrun ▸ h
  | cons c cs ih =>
    simp only [run, Option.bind_eq_some] at hrun
    obtain ⟨s1, hs1, hrest⟩ := hrun
    exact ih (step_consistent h c hs1) hrest

end CBRTManager

/-! ### The registry as compiled -/

namespace CBRTManager

/-- No call makes the allocation count smaller. -/
theorem step_allocated_le {st st' : CBRTManager} (c : ManagerCall)
    (hstep : step st c = some st') : st.allocated ≤ st'.allocated := by
  cases c <;> simp only [step, Option.some.injEq, Option.map_eq_some'] at hstep
  case BeginSetup => subst hstep; exact le_refl _
  case EndSetup => subst hstep; unfold EndSetup; split_ifs <;> exact le_refl _
  case CreateSoundSource id =>
    subst hstep; unfold CreateSoundSource ConnectModulesCommand
    split_ifs <;> simp
  case CreateListener id =>
    subst hstep; unfold CreateListener ConnectModulesCommand
    split_ifs <;> simp
  case CreateListenerModel id =>
    subst hstep; unfold CreateListenerModel ConnectModulesCommand
    split_ifs <;> simp
  case CreateEnvironment id =>
    subst hstep; unfold CreateEnvironment ConnectModulesCommand
    split_ifs <;> simp
  case CreateBinauralFilter id =>
    subst hstep; unfold CreateBinauralFilter ConnectModulesCommand
    split_ifs <;> simp
  case CreateProcessor =>
    subst hstep; unfold CreateProcessor ConnectModulesCommand
    split_ifs <;> simp
  case RemoveSoundSource id =>
    subst hstep; unfold RemoveSoundSource DisconnectModulesCommand
    split_ifs
    · exact le_refl _
    · split <;> exact le_refl _
  case RemoveListener id =>
    obtain ⟨r, hr, rfl⟩ := hstep
    rw [RemoveListener_eq_some hr]
  case RemoveProcessor p =>
    subst hstep; unfold RemoveProcessor DisconnectModulesCommand
    split_ifs <;> exact le_refl _
  case ProcessAll =>
    subst hstep; unfold ProcessAll
    split_ifs
    · exact le_refl _
    · rw [ProcessAllThread_eq]

end CBRTManager

/-- A sublist of a stored list is a stored list. -/
theorem StoredList.sublist {b : Nat} {list list' : List Module} (h : StoredList b list)
    (hs : list'.Sublist list) : StoredList b list' :=
  ⟨h.order.sublist hs, h.ids.sublist hs, fun n hn => h.below n (hs.subset hn)⟩

namespace CompiledManager

/-- Making a stored pointer null takes at most one module out of the stored ones. -/
theorem filterMap_set_none_sublist (slots : List (Option Module)) (k : Nat) :
    ((slots.set k none).filterMap id).Sublist (slots.filterMap id) := by
  induction slots generalizing k with
  | nil => simp
  | cons a l ih =>
    cases k with
    | zero =>
      cases a with
      | none => simp
      | some n => simp [List.filterMap_cons]
    | succ k =>
      cases a with
      | none => simpa [List.filterMap_cons] using ih k
      | some n => simpa [List.filterMap_cons] using ih k

/-- A search that reaches the end has visited only pointers that are not null, to modules
with another identifier. -/
theorem findIf_end {slots : List (Option Module)} {ident : String}
    (h : findIf slots ident = some none) :
    CBRTManager.findIf (slots.filterMap id) ident = none := by
  induction slots with
  | nil => rfl
  | cons a l ih =>
    cases a with
    | none => simp [findIf] at h
    | some n =>
      by_cases hn : (n.id == ident) = true
      · simp [findIf, hn] at h
      · simp only [findIf, hn, Bool.false_eq_true, if_false] at h
        have hl : findIf l ident = some none := by
          cases hf : findIf l ident with
          | none => simp [hf] at h
          | some r =>
            cases r with
            | none => rfl
            | some found => simp [hf] at h
        have := ih hl
        simp only [CBRTManager.findIf] at this ⊢
        simp only [List.filterMap_cons, id, List.find?_cons, hn]
        exact this

/-- The constructor leaves a consistent registry. -/
theorem ctor_stored : ctor.Consistent :=
  ⟨CBRTManager.ctor_consistent,
    ⟨List.Pairwise.nil, List.Pairwise.nil, by simp [ctor, storedListenerModels]⟩⟩

/-- `CreateListenerModel` keeps the compiled registry consistent. -/
theorem CreateListenerModel_stored {st : CompiledManager} (h : st.Consistent) (id : String)
    {r : Option Module × CompiledManager} (hr : CreateListenerModel st id = some r) :
    r.2.Consistent := by
  unfold CreateListenerModel at hr
  split_ifs at hr with h1
  · rw [← Option.some.inj hr]; exact h
  · split at hr
    · exact absurd hr (by simp)
    · rw [← Option.some.inj hr]; exact h
    · rename_i hf
      rw [← Option.some.inj hr]
      refine ⟨⟨h.members.audioSources.mono (Nat.le_succ _),
        h.members.listeners.mono (Nat.le_succ _), h.members.listenerModels.mono (Nat.le_succ _),
        h.members.environmentModels.mono (Nat.le_succ _),
        h.members.binauralFilters.mono (Nat.le_succ _)⟩, ?_⟩
      have := h.listenerModels.append_new (findIf_end hf)
      simpa [storedListenerModels, List.filterMap_append, CBRTManager.ConnectModulesCommand]
        using this

/-- `RemoveListener` keeps the compiled registry consistent. -/
theorem RemoveListener_stored {st : CompiledManager} (h : st.Consistent) (id : String)
    {r : Bool × CompiledManager} (hr : RemoveListener st id = some r) :
    r.2.Consistent := by
  unfold RemoveListener at hr
  split_ifs at hr with h1
  · rw [← Option.some.inj hr]; exact h
  · split at hr
    · exact absurd hr (by simp)
    · rw [← Option.some.inj hr]; exact h
    · rename_i k it hf
      rw [← Option.some.inj hr]
      refine ⟨⟨h.members.audioSources, h.members.listeners, h.members.listenerModels,
        h.members.environmentModels, h.members.binauralFilters⟩, ?_⟩
      exact h.listenerModels.sublist
        ((filterMap_set_none_sublist _ k).trans
          ((List.eraseIdx_sublist st.listenerModels k).filterMap _))

/-- Every call that does not end the process keeps the compiled registry consistent. -/
theorem step_stored {st st' : CompiledManager} (h : st.Consistent) (c : ManagerCall)
    (hstep : step st c = some st') : st'.Consistent := by
  have hother : ∀ members1, CBRTManager.step st.members c = some members1 →
      ({ st with members := members1 } : CompiledManager).Consistent := fun members1 hm =>
    ⟨CBRTManager.step_consistent h.members c hm,
      h.listenerModels.mono (CBRTManager.step_allocated_le c hm)⟩
  cases c <;> simp only [step, Option.map_eq_some'] at hstep
  case CreateListenerModel id =>
    obtain ⟨r, hr, rfl⟩ := hstep
    exact CreateListenerModel_stored h id hr
  case RemoveListener id =>
    obtain ⟨r, hr, rfl⟩ := hstep
    exact RemoveListener_stored h id hr
  all_goals
    obtain ⟨members1, hm, rfl⟩ := hstep
    exact hother members1 hm

/-- Wherever execution stops, the compiled registry is consistent. -/
theorem run_stored (calls : List ManagerCall) {st : CompiledManager} (h : st.Consistent) :
    (run calls st).1.Consistent := by
  induction calls generalizing st with
  | nil => exact h
  | cons c cs ih =>
    simp only [run]
    cases hs : step st c with
    | none => exact h
    | some st1 => exact ih (step_stored h c hs)

/-- In a list without null pointers the search is the search of `CBRTManager`. -/
theorem findIf_map_some (list : List Module) (id : String) :
    (CBRTManager.findIf list id = none → findIf (list.map some) id = some none) ∧
    (∀ it, CBRTManager.findIf list id = some it →
      ∃ k, findIf (list.map some) id = some (some (k, it))) := by
  induction list with
  | nil => exact ⟨fun _ => rfl, fun it h => by simp [CBRTManager.findIf] at h⟩
  | cons a l ih =>
    by_cases ha : (a.id == id) = true
    · refine ⟨fun h => by simp [CBRTManager.findIf, List.find?_cons, ha] at h, fun it h => ?_⟩
      simp only [CBRTManager.findIf, List.find?_cons, ha, Option.some.injEq] at h
      subst h
      exact ⟨0, by simp [findIf, ha]⟩
    · refine ⟨fun h => ?_, fun it h => ?_⟩
      · simp only [CBRTManager.findIf, List.find?_cons, ha] at h
        simp [findIf, ha, ih.1 h]
      · simp only [CBRTManager.findIf, List.find?_cons, ha] at h
        obtain ⟨k, hk⟩ := ih.2 it h
        exact ⟨k + 1, by simp [findIf, ha, hk]⟩

/-- A call whose behaviour is defined does to the compiled registry what it does to the
registry. -/
theorem step_ofManager {st st' : CBRTManager} (c : ManagerCall)
    (hstep : CBRTManager.step st c = some st') :
    step (ofManager st) c = some (ofManager st') := by
  cases c <;>
    simp only [CBRTManager.step, Option.some.injEq, Option.map_eq_some'] at hstep
  case CreateListenerModel id =>
    subst hstep
    simp only [step, CreateListenerModel, CBRTManager.CreateListenerModel, ofManager]
    cases hs : st.setupModeActivated
    · simp [hs]
    · cases hf : CBRTManager.findIf st.listenerModels id with
      | none =>
        simp [hs, (findIf_map_some st.listenerModels id).1 hf,
          CBRTManager.ConnectModulesCommand]
      | some it =>
        obtain ⟨k, hk⟩ := (findIf_map_some st.listenerModels id).2 it hf
        simp [hs, hk]
  case RemoveListener id =>
    obtain ⟨r, hr, rfl⟩ := hstep
    have hr2 := CBRTManager.RemoveListener_eq_some hr
    subst hr2
    simp only [step, RemoveListener, ofManager]
    unfold CBRTManager.RemoveListener at hr
    cases hs : st.setupModeActivated
    · simp [hs]
    · cases hf : CBRTManager.findIf st.listenerModels id with
      | none => simp [hs, (findIf_map_some st.listenerModels id).1 hf]
      | some it => simp [hs, hf] at hr
  case BeginSetup => subst hstep; rfl
  case EndSetup =>
    subst hstep
    simp only [step, CBRTManager.step, ofManager, CBRTManager.EndSetup]
    split_ifs <;> rfl
  case CreateSoundSource id =>
    subst hstep
    simp only [step, CBRTManager.step, ofManager, CBRTManager.CreateSoundSource,
      CBRTManager.ConnectModulesCommand]
    split_ifs <;> rfl
  case CreateListener id =>
    subst hstep
    simp only [step, CBRTManager.step, ofManager, CBRTManager.CreateListener,
      CBRTManager.ConnectModulesCommand]
    split_ifs <;> rfl
  case CreateEnvironment id =>
    subst hstep
    simp only [step, CBRTManager.step, ofManager, CBRTManager.CreateEnvironment,
      CBRTManager.ConnectModulesCommand]
    split_ifs <;> rfl
  case CreateBinauralFilter id =>
    subst hstep
    simp only [step, CBRTManager.step, ofManager, CBRTManager.CreateBinauralFilter,
      CBRTManager.ConnectModulesCommand]
    split_ifs <;> rfl
  case CreateProcessor =>
    subst hstep
    simp only [step, CBRTManager.step, ofManager, CBRTManager.CreateProcessor,
      CBRTManager.ConnectModulesCommand]
    split_ifs <;> rfl
  case RemoveSoundSource id =>
    subst hstep
    simp only [step, CBRTManager.step, ofManager, CBRTManager.RemoveSoundSource,
      CBRTManager.DisconnectModulesCommand]
    split_ifs
    · rfl
    · cases CBRTManager.findIf st.audioSources id <;> rfl
  case RemoveProcessor p =>
    subst hstep
    simp only [step, CBRTManager.step, ofManager, CBRTManager.RemoveProcessor,
      CBRTManager.DisconnectModulesCommand]
    split_ifs <;> rfl
  case ProcessAll =>
    subst hstep
    simp only [step, CBRTManager.step, ofManager, CBRTManager.ProcessAll,
      CBRTManager.ProcessAllThread_eq]
    split_ifs <;> rfl

/-- On a call sequence whose behaviour is defined, the compiled registry ends as the registry
does, with every call completed. -/
theorem run_ofManager (calls : List ManagerCall) {st st' : CBRTManager}
    (hrun : CBRTManager.run calls st = some st') :
    run calls (ofManager st) = (ofManager st', []) := by
  induction calls generalizing st with
  | nil =>
    simp only [CBRTManager.run, Option.some.injEq] at hrun
    subst hrun
    rfl
  | cons c cs ih =>
    simp only [CBRTManager.run, Option.bind_eq_some] at hrun
    obtain ⟨s1, hs1, hrest⟩ := hrun
    simp only [run, step_ofManager c hs1]
    exact ih hrest

end CompiledManager

namespace CBRTManager

/-- In setup mode `RemoveSoundSource` returns true exactly when a source with the identifier
is stored; afterwards the list is the old one without its first module of that identifier,
every module with another identifier is still stored, and in a consistent registry no module
with the identifier is left. -/
theorem RemoveSoundSource_removes (st : CBRTManager) (id : String)
    (hs : st.setupModeActivated = true) :
    ((RemoveSoundSource st id).1 = true ↔ ∃ n ∈ st.audioSources, n.id = id) ∧
    (RemoveSoundSource st id).2.audioSources = eraseFound st.audioSources id ∧
    (RemoveSoundSource st id).2.audioSources.Sublist st.audioSources ∧
    (∀ n, n.id ≠ id → (n ∈ (RemoveSoundSource st id).2.audioSources ↔ n ∈ st.audioSources)) ∧
    (st.Consistent → ∀ n ∈ (RemoveSoundSource st id).2.audioSources, n.id ≠ id) := by
  have herase : (RemoveSoundSource st id).2.audioSources = eraseFound st.audioSources id := by
    unfold RemoveSoundSource
    rw [hs]
    cases hf : findIf st.audioSources id with
    | some it => simp [DisconnectModulesCommand]
    | none =>
      simp only [Bool.not_true, Bool.false_eq_true, if_false]
      rw [findIf_eq_none_iff] at hf
      simp only [eraseFound]
      exact (List.eraseP_of_forall_not (by simpa using hf)).symm
  refine ⟨?_, herase, ?_, ?_, ?_⟩
  · unfold RemoveSoundSource
    rw [hs]
    cases hf : findIf st.audioSources id with
    | some it =>
      simp only [Bool.not_true, Bool.false_eq_true, if_false, true_iff]
      exact ⟨it, (findIf_some hf).1, (findIf_some hf).2⟩
    | none =>
      simp only [Bool.not_true, Bool.false_eq_true, if_false, false_iff, not_exists, not_and]
      exact (findIf_eq_none_iff _ _).mp hf
  · rw [herase]; exact eraseFound_sublist _ _
  · intro n hn; rw [herase]; exact mem_eraseFound_of_ne hn
  · intro hc; rw [herase]; exact not_mem_eraseFound hc.audioSources.ids

/-- In setup mode the behaviour of `RemoveListener` is undefined whenever a listener model with
the identifier is stored. -/
theorem RemoveListener_undefined (st : CBRTManager) (id : String)
    (hs : st.setupModeActivated = true) (n : Module) (hn : n ∈ st.listenerModels)
    (hid : n.id = id) : RemoveListener st id = none := by
  unfold RemoveListener
  rw [hs]
  cases hf : findIf st.listenerModels id with
  | some it => simp
  | none => exact absurd hid ((findIf_eq_none_iff _ _).mp hf n hn)

/-- The list of listeners is not touched by `RemoveListener`: whatever it returns, the listener
created before is still found and its identifier is still listed. -/
theorem RemoveListener_listeners (st : CBRTManager) (id : String) (r : Bool × CBRTManager)
    (h : RemoveListener st id = some r) :
    r.1 = false ∧ GetListener r.2 id = GetListener st id ∧
      GetListenerIDs r.2 = GetListenerIDs st := by
  rw [RemoveListener_eq_some h]
  exact ⟨rfl, rfl, rfl⟩

end CBRTManager

namespace CBRTManager

/-- C12: for every node category (sound source, listener, listener model, environment,
binaural filter) and every id, in setup mode a Create call with an id not yet present in the
category returns a node with that id and appends it to the list of the category, and a second
Create call with the same id returns null and leaves the list (indeed the whole registry)
unchanged. -/
theorem Create_appends_once (st : CBRTManager) (id : String)
    (hs : st.setupModeActivated = true) :
    ((∀ n ∈ st.audioSources, n.id ≠ id) →
      CreatesOnce CreateSoundSource (fun s => s.audioSources) st id) ∧
    ((∀ n ∈ st.listeners, n.id ≠ id) →
      CreatesOnce CreateListener (fun s => s.listeners) st id) ∧
    ((∀ n ∈ st.listenerModels, n.id ≠ id) →
      CreatesOnce CreateListenerModel (fun s => s.listenerModels) st id) ∧
    ((∀ n ∈ st.environmentModels, n.id ≠ id) →
      CreatesOnce CreateEnvironment (fun s => s.environmentModels) st id) ∧
    ((∀ n ∈ st.binauralFilters, n.id ≠ id) →
      CreatesOnce CreateBinauralFilter (fun s => s.binauralFilters) st id) :=
  ⟨CreateSoundSource_new st id hs, CreateListener_new st id hs,
    CreateListenerModel_new st id hs, CreateEnvironment_new st id hs,
    CreateBinauralFilter_new st id hs⟩

/-- Witness of C12: the identifier `"a"` in the empty registry put in setup mode. -/
theorem Create_appends_once_witness :
    (BeginSetup ctor).setupModeActivated = true ∧
    CreatesOnce CreateSoundSource (fun s => s.audioSources) (BeginSetup ctor) "a" ∧
    CreatesOnce CreateListener (fun s => s.listeners) (BeginSetup ctor) "a" ∧
    CreatesOnce CreateListenerModel (fun s => s.listenerModels) (BeginSetup ctor) "a" ∧
    CreatesOnce CreateEnvironment (fun s => s.environmentModels) (BeginSetup ctor) "a" ∧
    CreatesOnce CreateBinauralFilter (fun s => s.binauralFilters) (BeginSetup ctor) "a" :=
  have h := Create_appends_once (BeginSetup ctor) "a" rfl
  have e : ∀ n ∈ ([] : List Module), n.id ≠ "a" := fun _ hn => absurd hn (List.not_mem_nil _)
  ⟨rfl, h.1 e, h.2.1 e, h.2.2.1 e, h.2.2.2.1 e, h.2.2.2.2 e⟩

/-- C13: starting from a freshly constructed registry, after any sequence of `BeginSetup`,
`EndSetup`, `Create...`, `Remove...` and `ProcessAll` calls, no two nodes stored in the same
category list have the same identifier.  First, for every sequence with defined behaviour.
Second, in the compiled program, for every sequence whatsoever: wherever execution stops
(after the last call, or at the call that ends the process), the nodes stored in each list
have pairwise distinct identifiers, also after a `RemoveListener` call that has removed a
listener model and has made the next stored pointer null.  Third, the two agree where the
behaviour is defined. -/
theorem identifiers_unique (calls : List ManagerCall) :
    (∀ st : CBRTManager, run calls ctor = some st →
      (st.audioSources.map (fun n => n.id)).Nodup ∧
      (st.listeners.map (fun n => n.id)).Nodup ∧
      (st.listenerModels.map (fun n => n.id)).Nodup ∧
      (st.environmentModels.map (fun n => n.id)).Nodup ∧
      (st.binauralFilters.map (fun n => n.id)).Nodup) ∧
    (((CompiledManager.run calls CompiledManager.ctor).1.members.audioSources.map
        (fun n => n.id)).Nodup ∧
      ((CompiledManager.run calls CompiledManager.ctor).1.members.listeners.map
        (fun n => n.id)).Nodup ∧
      ((CompiledManager.run calls CompiledManager.ctor).1.storedListenerModels.map
        (fun n => n.id)).Nodup ∧
      ((CompiledManager.run calls CompiledManager.ctor).1.members.environmentModels.map
        (fun n => n.id)).Nodup ∧
      ((CompiledManager.run calls CompiledManager.ctor).1.members.binauralFilters.map
        (fun n => n.id)).Nodup) ∧
    (∀ st : CBRTManager, run calls ctor = some st →
      CompiledManager.run calls CompiledManager.ctor = (CompiledManager.ofManager st, [])) := by
  refine ⟨fun st h => ?_, ?_, fun st h => CompiledManager.run_ofManager calls h⟩
  · have hc := run_consistent calls ctor_consistent h
    simp only [List.Nodup, List.pairwise_map]
    exact ⟨hc.audioSources.ids, hc.listeners.ids, hc.listenerModels.ids,
      hc.environmentModels.ids, hc.binauralFilters.ids⟩
  · have hc := CompiledManager.run_stored calls CompiledManager.ctor_stored
    simp only [List.Nodup, List.pairwise_map]
    exact ⟨hc.members.audioSources.ids, hc.members.listeners.ids, hc.listenerModels.ids,
      hc.members.environmentModels.ids, hc.members.binauralFilters.ids⟩

/-- Witness of C13: a sequence with a repeated creation, a removal, a creation with the removed
identifier and a frame; and a sequence in which `RemoveListener` removes the first of two
listener models, after which `listenerModels` holds one null pointer, a sound source is still
created, and the next search over `listenerModels` ends the process. -/
theorem identifiers_unique_witness :
    (∃ st : CBRTManager,
      run exampleCallsRepeated ctor = some st ∧
      st.audioSources = [⟨1, "b"⟩, ⟨3, "a"⟩] ∧
      ((st.audioSources.map (fun n => n.id)).Nodup ∧
        (st.listeners.map (fun n => n.id)).Nodup ∧
        (st.listenerModels.map (fun n => n.id)).Nodup ∧
        (st.environmentModels.map (fun n => n.id)).Nodup ∧
        (st.binauralFilters.map (fun n => n.id)).Nodup)) ∧
    (run exampleCallsRemoveListener ctor = none ∧
      (CompiledManager.run exampleCallsRemoveListener CompiledManager.ctor).1.listenerModels
        = [none] ∧
      (CompiledManager.run exampleCallsRemoveListener
        CompiledManager.ctor).1.members.audioSources = [⟨2, "s"⟩] ∧
      (CompiledManager.run exampleCallsRemoveListener CompiledManager.ctor).2
        = [ManagerCall.CreateListenerModel "C"] ∧
      (((CompiledManager.run exampleCallsRemoveListener
          CompiledManager.ctor).1.members.audioSources.map (fun n => n.id)).Nodup ∧
        ((CompiledManager.run exampleCallsRemoveListener
          CompiledManager.ctor).1.members.listeners.map (fun n => n.id)).Nodup ∧
        ((CompiledManager.run exampleCallsRemoveListener
          CompiledManager.ctor).1.storedListenerModels.map (fun n => n.id)).Nodup ∧
        ((CompiledManager.run exampleCallsRemoveListener
          CompiledManager.ctor).1.members.environmentModels.map (fun n => n.id)).Nodup ∧
        ((CompiledManager.run exampleCallsRemoveListener
          CompiledManager.ctor).1.members.binauralFilters.map (fun n => n.id)).Nodup)) ∧
    (run exampleCallsRemoveLast ctor = none ∧
      (CompiledManager.run exampleCallsRemoveLast CompiledManager.ctor).1.listenerModels
        = [some ⟨1, "A"⟩] ∧
      (CompiledManager.run exampleCallsRemoveLast CompiledManager.ctor).2 = []) :=
  ⟨⟨_, rfl, by decide, (identifiers_unique exampleCallsRepeated).1 _ rfl⟩,
    ⟨by decide, by decide, by decide, by decide,
      (identifiers_unique exampleCallsRemoveListener).2.1⟩,
    ⟨by decide, by decide, by decide⟩⟩

/-- C14: outside setup mode every graph-mutation operation fails closed: each `Create...`
returns null, each `Remove...` returns false, and each `Connect...` / `Disconnect...` for
Transform, ID, Samples and multi-Samples-vector points returns false; in every case the
registry afterwards is the registry before, so no call was made on a module and the node
lists and the mode are unchanged. -/
theorem outside_setup_fails_closed (st : CBRTManager) (hs : st.setupModeActivated = false)
    (id : String) (module1 module2 : Module) (exitPointID entryPointID : String) :
    (CreateSoundSource st id = (none, st) ∧ CreateListener st id = (none, st) ∧
      CreateListenerModel st id = (none, st) ∧ CreateEnvironment st id = (none, st) ∧
      CreateBinauralFilter st id = (none, st) ∧ CreateProcessor st = (none, st)) ∧
    (RemoveSoundSource st id = (false, st) ∧ RemoveListener st id = some (false, st) ∧
      RemoveProcessor st module1 = (false, st)) ∧
    (ConnectModuleTransform st module1 module2 entryPointID = (false, st) ∧
      DisconnectModuleTransform st module1 module2 entryPointID = (false, st) ∧
      ConnectModuleID st module1 module2 entryPointID = (false, st) ∧
      DisconnectModuleID st module1 module2 entryPointID = (false, st) ∧
      ConnectModulesSamples st module1 exitPointID module2 entryPointID = (false, st) ∧
      DisconnectModulesSamples st module1 exitPointID module2 entryPointID = (false, st) ∧
      ConnectModulesMultipleSamplesVectors st module1 exitPointID module2 entryPointID
        = (false, st) ∧
      DisconnectModulesMultipleSamplesVectors st module1 exitPointID module2 entryPointID
        = (false, st)) := by
  simp [CreateSoundSource, CreateListener, CreateListenerModel, CreateEnvironment,
    CreateBinauralFilter, CreateProcessor, RemoveSoundSource, RemoveListener, RemoveProcessor,
    ConnectModuleTransform, DisconnectModuleTransform, ConnectModuleID, DisconnectModuleID,
    ConnectModulesSamples, DisconnectModulesSamples, ConnectModulesMultipleSamplesVectors,
    DisconnectModulesMultipleSamplesVectors, guardedCall, hs]

/-- Witness of C14: a registry that holds a source and a listener model and has left setup
mode. -/
theorem outside_setup_fails_closed_witness :
    ∃ st : CBRTManager,
      run exampleCallsRunning ctor = some st ∧
      st.setupModeActivated = false ∧
      ((CreateSoundSource st "b" = (none, st) ∧ CreateListener st "b" = (none, st) ∧
        CreateListenerModel st "b" = (none, st) ∧ CreateEnvironment st "b" = (none, st) ∧
        CreateBinauralFilter st "b" = (none, st) ∧ CreateProcessor st = (none, st)) ∧
      (RemoveSoundSource st "b" = (false, st) ∧ RemoveListener st "b" = some (false, st) ∧
        RemoveProcessor st ⟨0, "a"⟩ = (false, st)) ∧
      (ConnectModuleTransform st ⟨0, "a"⟩ ⟨1, "m"⟩ "in" = (false, st) ∧
        DisconnectModuleTransform st ⟨0, "a"⟩ ⟨1, "m"⟩ "in" = (false, st) ∧
        ConnectModuleID st ⟨0, "a"⟩ ⟨1, "m"⟩ "in" = (false, st) ∧
        DisconnectModuleID st ⟨0, "a"⟩ ⟨1, "m"⟩ "in" = (false, st) ∧
        ConnectModulesSamples st ⟨0, "a"⟩ "out" ⟨1, "m"⟩ "in" = (false, st) ∧
        DisconnectModulesSamples st ⟨0, "a"⟩ "out" ⟨1, "m"⟩ "in" = (false, st) ∧
        ConnectModulesMultipleSamplesVectors st ⟨0, "a"⟩ "out" ⟨1, "m"⟩ "in" = (false, st) ∧
        DisconnectModulesMultipleSamplesVectors st ⟨0, "a"⟩ "out" ⟨1, "m"⟩ "in"
          = (false, st))) :=
  ⟨_, rfl, rfl, outside_setup_fails_closed _ rfl "b" ⟨0, "a"⟩ ⟨1, "m"⟩ "out" "in"⟩

/-- C15: `BeginSetup` always puts the registry in setup mode (and changes nothing else);
`EndSetup` returns true exactly when setup mode was active, in which case it leaves setup
mode and marks the registry initialised, and otherwise it changes nothing; so the second of
two `EndSetup` calls in a row returns false. -/
theorem setup_mode_machine (st : CBRTManager) :
    BeginSetup st = { st with setupModeActivated := true } ∧
    (EndSetup st).1 = st.setupModeActivated ∧
    (st.setupModeActivated = true →
      (EndSetup st).2 = { st with initialized := true, setupModeActivated := false }) ∧
    (st.setupModeActivated = false → (EndSetup st).2 = st) ∧
    (EndSetup (EndSetup st).2).1 = false := by
  refine ⟨rfl, ?_, ?_, ?_, ?_⟩
  · cases h : st.setupModeActivated <;> simp [EndSetup, h]
  · intro h; simp [EndSetup, h]
  · intro h; simp [EndSetup, h]
  · cases h : st.setupModeActivated <;> simp [EndSetup, h]

/-- Witness of C15: the fresh registry after `BeginSetup`, which is in setup mode. -/
theorem setup_mode_machine_witness :
    (BeginSetup ctor).setupModeActivated = true ∧
    (EndSetup (BeginSetup ctor)).1 = true ∧
    (EndSetup (BeginSetup ctor)).2
      = { BeginSetup ctor with initialized := true, setupModeActivated := false } ∧
    (EndSetup (EndSetup (BeginSetup ctor)).2).1 = false :=
  have h := setup_mode_machine (BeginSetup ctor)
  ⟨rfl, h.2.1, h.2.2.1 rfl, h.2.2.2.2⟩

/-- C16: in setup mode `ProcessAll` leaves the registry as it is (no source is signalled);
otherwise the calls it makes are `SetDataReady` on the stored sound sources, one call per
element of `audioSources` in list order, and nothing else changes.  In a registry reached
from a fresh one the stored sources are pairwise different and in creation order, so each
is signalled exactly once, in creation order. -/
theorem ProcessAll_signals_sources (calls : List ManagerCall) (st : CBRTManager)
    (h : run calls ctor = some st) :
    (st.setupModeActivated = true → ProcessAll st = st) ∧
    (st.setupModeActivated = false →
      ProcessAll st
        = { st with calls := st.calls ++ st.audioSources.map ModuleCall.SetDataReady }) ∧
    st.audioSources.Nodup ∧
    st.audioSources.Pairwise (fun a b => a.serial < b.serial) := by
  have hc := run_consistent calls ctor_consistent h
  refine ⟨fun hs => by simp [ProcessAll, hs],
    fun hs => by simp [ProcessAll, hs, ProcessAllThread_eq], ?_, hc.audioSources.order⟩
  exact hc.audioSources.order.imp (fun hab heq => absurd (congrArg Module.serial heq) hab.ne)

/-- Witness of C16: three sources created, the first removed, then a frame outside setup mode
signals the two that remain, in the order of their creation. -/
theorem ProcessAll_signals_sources_witness :
    ∃ st : CBRTManager,
      run exampleCallsThreeSources ctor = some st ∧
      st.setupModeActivated = false ∧
      (ProcessAll st).calls = st.calls
        ++ [ModuleCall.SetDataReady ⟨1, "b"⟩, ModuleCall.SetDataReady ⟨2, "c"⟩] ∧
      ((st.setupModeActivated = true → ProcessAll st = st) ∧
      (st.setupModeActivated = false →
        ProcessAll st
          = { st with calls := st.calls ++ st.audioSources.map ModuleCall.SetDataReady }) ∧
      st.audioSources.Nodup ∧
      st.audioSources.Pairwise (fun a b => a.serial < b.serial)) :=
  ⟨_, rfl, rfl, by decide, ProcessAll_signals_sources exampleCallsThreeSources _ rfl⟩

/-- C17: evaluation of both `Remove` operations on a list of two nodes `A`, `B`, in setup
mode, for the identifier `A`.  `RemoveSoundSource` returns true and leaves `B` alone in the
list; `RemoveListener`, on the same list of listener models, has no defined result (after the
erasure it resets a pointer through the invalidated iterator). -/
theorem Remove_first_of_two :
    (CreateSoundSource (CreateSoundSource (BeginSetup ctor) "A").2 "B").2.audioSources
      = [⟨0, "A"⟩, ⟨1, "B"⟩] ∧
    (RemoveSoundSource (CreateSoundSource (CreateSoundSource (BeginSetup ctor) "A").2 "B").2
      "A").1 = true ∧
    (RemoveSoundSource (CreateSoundSource (CreateSoundSource (BeginSetup ctor) "A").2 "B").2
      "A").2.audioSources = [⟨1, "B"⟩] ∧
    (CreateListenerModel (CreateListenerModel (BeginSetup ctor) "A").2 "B").2.listenerModels
      = [⟨0, "A"⟩, ⟨1, "B"⟩] ∧
    RemoveListener (CreateListenerModel (CreateListenerModel (BeginSetup ctor) "A").2 "B").2
      "A" = none := by
  decide

/-- C18: after `CreateListener("listener")` has succeeded in setup mode,
`RemoveListener("listener")` returns false (it searched the listener models), and afterwards
`GetListener("listener")` still returns the listener and `GetListenerIDs()` still contains
the identifier. -/
theorem RemoveListener_keeps_listener :
    (CreateListener (BeginSetup ctor) "listener").1 = some ⟨0, "listener"⟩ ∧
    (CreateListener (BeginSetup ctor) "listener").2.setupModeActivated = true ∧
    RemoveListener (CreateListener (BeginSetup ctor) "listener").2 "listener"
      = some (false, (CreateListener (BeginSetup ctor) "listener").2) ∧
    GetListener (CreateListener (BeginSetup ctor) "listener").2 "listener"
      = some ⟨0, "listener"⟩ ∧
    "listener" ∈ GetListenerIDs (CreateListener (BeginSetup ctor) "listener").2 := by
  decide

end CBRTManager

/-! ### Priority speaker and clipping -/

section PrioritySpeaker

variable {F : Type} [LinearOrderedField F] [FloorRing F]

/-- What `mixBuffer` leaves for a speech buffer does not depend on whether a priority speaker
is active: the multiplier `volumeAdjustment` is computed and then used neither for the output
nor for the samples handed to the module graph. -/
theorem mixBuffer_speech_priority (env : MixEnv F) (ao : AudioOutput F) (n : Nat)
    (svol : Nat → F) (st : MixState F) (b : AudioOutputBuffer F)
    (p : ClientUser F) (sugg : F) (lis : Bool) (hkind : b.kind = BufferKind.speech p sugg lis) :
    mixBuffer env ao n svol true st b = mixBuffer env ao n svol false st b := by
  unfold mixBuffer
  rw [hkind]

end PrioritySpeaker

section PriorityVolume

variable {F : Type} [LinearOrderedField F]

/-- The multiplier computed for a speech source that neither whispers nor is a priority
speaker carries the factor `adjustFactor` when a priority speaker is active. -/
theorem volumeAdjustment_priority (env : MixEnv F) (b : AudioOutputBuffer F)
    (p : ClientUser F) (sugg : F) (lis : Bool) (hkind : b.kind = BufferKind.speech p sugg lis)
    (hw : p.tsState ≠ TalkState.Whispering) (hp : p.bPrioritySpeaker = false) :
    volumeAdjustment env true b = volumeAdjustment env false b * adjustFactor env.libm := by
  unfold volumeAdjustment
  rw [hkind]
  simp [hw, hp]

/-- The samples handed over for a mono buffer whose PCM samples all equal `c`. -/
theorem userSamples_const (n : Nat) (c : F) :
    userSamples n false (fun _ => c) = List.replicate n c := by
  simp only [userSamples, Bool.false_eq_true, if_false]
  rw [List.map_const', List.length_range]

end PriorityVolume

/-- The factor `10^(-18/20)` is below 1. -/
theorem adjustFactor_lt_one (m : Libm ℝ) (hm : IsRealLibm m) : adjustFactor m < 1 := by
  simp only [adjustFactor, hm.powf_eq]
  exact Real.rpow_lt_one_of_one_lt_of_neg (by norm_num) (by norm_num)

/-- C19: evaluation of `mix` on two mono speech sources, user 1 (talking, no priority, PCM
0.5) and user 2 (priority speaker, PCM 0.25).  A priority speaker is active and the multiplier
computed for user 1 is `adjustFactor = 10^(-18/20) < 1`, yet the samples handed to the module
graph for user 1 are the same 0.5 as when user 1 speaks alone, not `0.5 * 10^(-18/20)`. -/
theorem priority_speaker_handOff :
    ∃ m : Libm ℝ, IsRealLibm m ∧
      (collect (exampleEnv m exampleSettings ⟨0, 0, 0⟩)
        (exampleOutput 1 [exampleSpeech 0.5, examplePrioritySpeech 0.25]) 480
        ).prioritySpeakerActive = true ∧
      volumeAdjustment (exampleEnv m exampleSettings ⟨0, 0, 0⟩) true (exampleSpeech 0.5)
        = adjustFactor m ∧
      adjustFactor m < 1 ∧
      ((mix (exampleEnv m exampleSettings ⟨0, 0, 0⟩) (exampleOutput 1 [exampleSpeech 0.5])
          (fun _ => 0) (fun _ => 0) 480).handOffs.map fun h => (h.session, h.samples))
        = [(1, List.replicate 480 0.5)] ∧
      ((mix (exampleEnv m exampleSettings ⟨0, 0, 0⟩)
          (exampleOutput 1 [exampleSpeech 0.5, examplePrioritySpeech 0.25])
          (fun _ => 0) (fun _ => 0) 480).handOffs.map fun h => (h.session, h.samples))
        = [(1, List.replicate 480 0.5), (2, List.replicate 480 0.25)] := by
  obtain ⟨m, hm⟩ := exists_isRealLibm
  have hv : ¬ ((1 : ℝ) < 0.01) := by norm_num
  refine ⟨m, hm, ?_, ?_, adjustFactor_lt_one m hm, ?_, ?_⟩
  · simp [collect, collectBuffer, exampleEnv, exampleOutput, exampleSpeech,
      examplePrioritySpeech, exampleUser, examplePriorityUser]
  · simp [volumeAdjustment, exampleEnv, exampleSpeech, exampleUser]
  · rw [mix_single_speech_handOffs (exampleEnv m exampleSettings ⟨0, 0, 0⟩)
      (exampleOutput 1 [exampleSpeech 0.5]) (fun _ => 0) (fun _ => 0) 480 (exampleSpeech 0.5)
      exampleUser 1 false (by norm_num [exampleEnv, exampleSettings]) rfl rfl rfl rfl rfl
      (fun _ _ _ _ => rfl)]
    exact congrArg (fun l => [((1 : Nat), l)]) (userSamples_const 480 (0.5 : ℝ))
  · rw [← userSamples_const 480 (0.5 : ℝ), ← userSamples_const 480 (0.25 : ℝ)]
    simp [mix, mixUnclipped, collect, collectBuffer, mixBuffer, exampleEnv, exampleOutput,
      exampleSpeech, examplePrioritySpeech, exampleUser, examplePriorityUser, exampleSettings,
      Vector3D.isZero, hv]

section ClipBounds

variable {F : Type} [LinearOrderedField F]

/-- The value of `qBound` lies between the bounds, when these are in order. -/
theorem qBound_mem (lo val hi : F) (h : lo ≤ hi) :
    lo ≤ qBound lo val hi ∧ qBound lo val hi ≤ hi :=
  ⟨le_max_left _ _, max_le h (min_le_left _ _)⟩

end ClipBounds

section Clipping

variable {F : Type} [LinearOrderedField F] [FloorRing F]

/-- Truncation towards zero keeps a value between two integer bounds. -/
theorem truncToInt_mem (x : F) (lo hi : Int) (hlo : (lo : F) ≤ x) (hhi : x ≤ (hi : F)) :
    lo ≤ truncToInt x ∧ truncToInt x ≤ hi := by
  unfold truncToInt
  split_ifs with h
  · exact ⟨Int.le_floor.mpr hlo, Int.cast_le.mp ((Int.floor_le x).trans hhi)⟩
  · exact ⟨Int.cast_le.mp (hlo.trans (Int.le_ceil x)), Int.ceil_le.mpr hhi⟩

/-- When `mix` returns true, the master volume was not below the threshold and the frame was
written. -/
theorem mix_ret_true (env : MixEnv F) (ao : AudioOutput F) (outFloat : Nat → F)
    (outShort : Nat → Int) (n : Nat) (hret : (mix env ao outFloat outShort n).ret = true) :
    ¬ env.s.fVolume < 0.01 ∧ (mixUnclipped env ao outFloat outShort n).ret = true := by
  unfold mix at hret
  split_ifs at hret with hv
  exact ⟨hv, hret⟩

/-- The float output of a frame that `mix` reports as written: each sample is the mixed value
clamped to `[-1, 1]`. -/
theorem mix_output_float (env : MixEnv F) (ao : AudioOutput F) (outFloat : Nat → F)
    (outShort : Nat → Int) (n : Nat) (hret : (mix env ao outFloat outShort n).ret = true)
    (hfmt : ao.eSampleFormat = SampleFormat.SampleFloat) (i : Nat) (hi : i < n * ao.iChannels) :
    (mix env ao outFloat outShort n).output i
      = qBound (-1) ((mixUnclipped env ao outFloat outShort n).output i) 1 := by
  obtain ⟨hv, hr⟩ := mix_ret_true env ao outFloat outShort n hret
  unfold mix
  simp only [if_neg hv, hr, hfmt, decide_True, Bool.and_self, if_true]
  exact forLoop_update_at (n * ao.iChannels) (fun i => i) (fun _ x => qBound (-1) x 1) _
    (fun _ _ _ _ h => h) i hi

/-- The 16-bit output of a frame that `mix` reports as written: each sample is the mixed value
times 32768, clamped to `[-32768, 32767]` and truncated. -/
theorem mix_output_short (env : MixEnv F) (ao : AudioOutput F) (outFloat : Nat → F)
    (outShort : Nat → Int) (n : Nat) (hret : (mix env ao outFloat outShort n).ret = true)
    (hfmt : ao.eSampleFormat = SampleFormat.SampleShort) (i : Nat) (hi : i < n * ao.iChannels) :
    (mix env ao outFloat outShort n).outShort i
      = truncToInt
          (qBound (-32768) ((mixUnclipped env ao outFloat outShort n).output i * 32768) 32767) := by
  obtain ⟨hv, hr⟩ := mix_ret_true env ao outFloat outShort n hret
  unfold mix
  simp only [if_neg hv, hr, hfmt, ne_eq, reduceCtorEq, not_false_eq_true, decide_True,
    Bool.and_self, if_true]
  exact forLoop_update_at (n * ao.iChannels) (fun i => i)
    (fun i _ => truncToInt
      (qBound (-32768) ((mixUnclipped env ao outFloat outShort n).output i * 32768) 32767)) _
    (fun _ _ _ _ h => h) i hi

/-- C20: whenever `mix` returns true, every sample it leaves in the output (index below
`frameCount * iChannels`) lies in the valid range: for float output the sample is the mixed
value clamped to `[-1, 1]`; for 16-bit output it is the mixed value times 32768, clamped to
`[-32768, 32767]` and then truncated to an integer. -/
theorem mix_output_in_range (env : MixEnv F) (ao : AudioOutput F) (outFloat : Nat → F)
    (outShort : Nat → Int) (frameCount : Nat)
    (hret : (mix env ao outFloat outShort frameCount).ret = true)
    (i : Nat) (hi : i < frameCount * ao.iChannels) :
    (ao.eSampleFormat = SampleFormat.SampleFloat →
      (mix env ao outFloat outShort frameCount).output i
          = qBound (-1) ((mixUnclipped env ao outFloat outShort frameCount).output i) 1 ∧
        -1 ≤ (mix env ao outFloat outShort frameCount).output i ∧
        (mix env ao outFloat outShort frameCount).output i ≤ 1) ∧
    (ao.eSampleFormat = SampleFormat.SampleShort →
      (mix env ao outFloat outShort frameCount).outShort i
          = truncToInt (qBound (-32768)
              ((mixUnclipped env ao outFloat outShort frameCount).output i * 32768) 32767) ∧
        -32768 ≤ (mix env ao outFloat outShort frameCount).outShort i ∧
        (mix env ao outFloat outShort frameCount).outShort i ≤ 32767) := by
  constructor
  · intro hfmt
    have h := mix_output_float env ao outFloat outShort frameCount hret hfmt i hi
    have hb := qBound_mem (-1 : F)
      ((mixUnclipped env ao outFloat outShort frameCount).output i) 1 (by norm_num)
    exact ⟨h, h ▸ hb.1, h ▸ hb.2⟩
  · intro hfmt
    have h := mix_output_short env ao outFloat outShort frameCount hret hfmt i hi
    have hb := qBound_mem (-32768 : F)
      ((mixUnclipped env ao outFloat outShort frameCount).output i * 32768) 32767
      (by norm_num)
    have ht := truncToInt_mem
      (qBound (-32768 : F)
        ((mixUnclipped env ao outFloat outShort frameCount).output i * 32768) 32767)
      (-32768) 32767 (by push_cast; exact hb.1) (by push_cast; exact hb.2)
    exact ⟨h, h ▸ ht.1, h ▸ ht.2⟩

end Clipping

/-- Witness of C20: scenario A on the example data (float output, one channel, one speech
source), first sample of the frame. -/
theorem mix_output_in_range_witness :
    ∃ m : Libm ℝ, IsRealLibm m ∧
      (mix (exampleEnv m exampleSettings ⟨0, 0, 0⟩) (exampleOutput 1 [exampleSpeech 0.5])
        (fun _ => 0) (fun _ => 0) 480).ret = true ∧
      (exampleOutput 1 [exampleSpeech (0.5 : ℝ)]).eSampleFormat = SampleFormat.SampleFloat ∧
      ((mix (exampleEnv m exampleSettings ⟨0, 0, 0⟩) (exampleOutput 1 [exampleSpeech 0.5])
            (fun _ => 0) (fun _ => 0) 480).output 0
          = qBound (-1) ((mixUnclipped (exampleEnv m exampleSettings ⟨0, 0, 0⟩)
              (exampleOutput 1 [exampleSpeech 0.5]) (fun _ => 0) (fun _ => 0) 480).output 0) 1 ∧
        -1 ≤ (mix (exampleEnv m exampleSettings ⟨0, 0, 0⟩) (exampleOutput 1 [exampleSpeech 0.5])
            (fun _ => 0) (fun _ => 0) 480).output 0 ∧
        (mix (exampleEnv m exampleSettings ⟨0, 0, 0⟩) (exampleOutput 1 [exampleSpeech 0.5])
            (fun _ => 0) (fun _ => 0) 480).output 0 ≤ 1) := by
  obtain ⟨m, hm⟩ := exists_isRealLibm
  have hret := (mix_single_speech_output (exampleEnv m exampleSettings ⟨0, 0, 0⟩)
    (exampleOutput 1 [exampleSpeech 0.5]) (fun _ => 0) (fun _ => 0) 480 (exampleSpeech 0.5)
    exampleUser 1 false (by norm_num [exampleEnv, exampleSettings]) rfl rfl rfl rfl
    (fun _ _ _ => rfl) rfl 0 (by decide)).1
  exact ⟨m, hm, hret, rfl, (mix_output_in_range (exampleEnv m exampleSettings ⟨0, 0, 0⟩)
    (exampleOutput 1 [exampleSpeech 0.5]) (fun _ => 0) (fun _ => 0) 480 hret 0
    (by decide)).1 rfl⟩

/-! ### Early return and collection pass -/

section Collection

variable {F : Type} [LinearOrderedField F]

end Collection

section CollectionMix

variable {F : Type} [LinearOrderedField F] [FloorRing F]

/-- Below the volume threshold `mix` returns at once: false, nothing written, nothing
collected, nothing handed over. -/
theorem mix_low_volume (env : MixEnv F) (ao : AudioOutput F) (outFloat : Nat → F)
    (outShort : Nat → Int) (n : Nat) (h : env.s.fVolume < 0.01) :
    mix env ao outFloat outShort n = ⟨false, outFloat, outShort, [], [], [], none, ao⟩ := by
  unfold mix
  rw [if_pos h]

end CollectionMix

section CollectionClaims

variable {F : Type} [LinearOrderedField F] [FloorRing F]

/-- C21: if the master volume is below 0.01, `mix` returns false and does nothing else: the
output buffer is as on entry, the mix list and the deletion list are empty, nothing is handed
to the module graph, no listener transform is set and the mixer state is unchanged; the result
is the same whatever `prepareSampleBuffer`, the plugin handlers and the module graph would
do (none of them is called). -/
theorem mix_below_threshold (env : MixEnv F) (ao : AudioOutput F) (outFloat : Nat → F)
    (outShort : Nat → Int) (frameCount : Nat) (h : env.s.fVolume < 0.01) :
    mix env ao outFloat outShort frameCount
      = ⟨false, outFloat, outShort, [], [], [], none, ao⟩ ∧
    ∀ env' : MixEnv F, env'.s.fVolume < 0.01 →
      mix env' ao outFloat outShort frameCount = mix env ao outFloat outShort frameCount :=
  ⟨mix_low_volume env ao outFloat outShort frameCount h, fun env' h' => by
    rw [mix_low_volume env ao outFloat outShort frameCount h,
      mix_low_volume env' ao outFloat outShort frameCount h']⟩

end CollectionClaims

/-- Witness of C21: the example mixer with the master volume at 0.005. -/
theorem mix_below_threshold_witness :
    ∃ m : Libm ℝ, IsRealLibm m ∧
      (exampleEnv m exampleSettingsQuiet ⟨0, 0, 0⟩).s.fVolume < 0.01 ∧
      (mix (exampleEnv m exampleSettingsQuiet ⟨0, 0, 0⟩) (exampleOutput 1 [exampleSpeech 0.5])
          (fun _ => 0) (fun _ => 0) 480
        = ⟨false, fun _ => 0, fun _ => 0, [], [], [], none,
            exampleOutput 1 [exampleSpeech 0.5]⟩ ∧
      ∀ env' : MixEnv ℝ, env'.s.fVolume < 0.01 →
        mix env' (exampleOutput 1 [exampleSpeech 0.5]) (fun _ => 0) (fun _ => 0) 480
          = mix (exampleEnv m exampleSettingsQuiet ⟨0, 0, 0⟩)
              (exampleOutput 1 [exampleSpeech 0.5]) (fun _ => 0) (fun _ => 0) 480) := by
  obtain ⟨m, hm⟩ := exists_isRealLibm
  have hq : (exampleEnv m exampleSettingsQuiet ⟨0, 0, 0⟩).s.fVolume < (0.01 : ℝ) := by
    norm_num [exampleEnv, exampleSettingsQuiet]
  exact ⟨m, hm, hq, mix_below_threshold (exampleEnv m exampleSettingsQuiet ⟨0, 0, 0⟩)
    (exampleOutput 1 [exampleSpeech 0.5]) (fun _ => 0) (fun _ => 0) 480 hq⟩

section ITDInterpolant

variable {F : Type} [LinearOrderedField F]

/-- The value interpolated for sample `i` of the frame lies between the old and the new
offset. -/
theorem itd_interpolant_mem (oldOffset offset : Int) (frameCount i : Nat)
    (hi : i < frameCount) :
    ((min oldOffset offset : Int) : F)
        ≤ (oldOffset : F) + itdIncOffset offset oldOffset frameCount * (i : F) ∧
      (oldOffset : F) + itdIncOffset offset oldOffset frameCount * (i : F)
        ≤ ((max oldOffset offset : Int) : F) := by
  have hn : (0 : F) < (frameCount : F) := by
    exact_mod_cast Nat.lt_of_le_of_lt (Nat.zero_le i) hi
  have ht0 : (0 : F) ≤ (i : F) / (frameCount : F) := div_nonneg (Nat.cast_nonneg i) hn.le
  have ht1 : (i : F) / (frameCount : F) ≤ 1 := by
    rw [div_le_one hn]
    exact_mod_cast hi.le
  have hv : (oldOffset : F) + itdIncOffset offset oldOffset frameCount * (i : F)
      = (oldOffset : F) + ((offset : F) - (oldOffset : F)) * ((i : F) / (frameCount : F)) := by
    simp only [itdIncOffset, Int.cast_sub]
    field_simp
  rw [hv]
  rcases le_total oldOffset offset with h | h
  · have hc : (oldOffset : F) ≤ (offset : F) := by exact_mod_cast h
    rw [min_eq_left h, max_eq_right h]
    constructor <;> nlinarith
  · have hc : (offset : F) ≤ (oldOffset : F) := by exact_mod_cast h
    rw [min_eq_right h, max_eq_left h]
    constructor <;> nlinarith

end ITDInterpolant

section ITD

variable {F : Type} [LinearOrderedField F] [FloorRing F]

/-- The target offset lies between 0 and `INTERAURAL_DELAY` for a dot product in `[-1, 1]`. -/
theorem itdOffset_mem (D dot : F) (hD : 0 ≤ D) (hdot1 : -1 ≤ dot) (hdot2 : dot ≤ 1) :
    0 ≤ itdOffset D dot ∧ ((itdOffset D dot : Int) : F) ≤ D := by
  have hx0 : 0 ≤ D * (1 + dot) / 2 :=
    div_nonneg (mul_nonneg hD (by linarith)) (by norm_num)
  have hx1 : D * (1 + dot) / 2 ≤ D := by
    rw [div_le_iff₀ (by norm_num : (0 : F) < 2)]
    nlinarith
  simp only [itdOffset, truncToInt, if_pos hx0]
  exact ⟨Int.floor_nonneg.mpr hx0, (Int.floor_le _).trans hx1⟩

/-- The offset used for sample `i` of the frame lies between the old and the new offset, when
these are not negative. -/
theorem itdCurrentOffset_mem (oldOffset offset : Int) (frameCount i : Nat)
    (hold : 0 ≤ oldOffset) (hoff : 0 ≤ offset) (hi : i < frameCount) :
    min oldOffset offset
        ≤ (itdCurrentOffset oldOffset (itdIncOffset offset oldOffset frameCount : F) i : Int) ∧
      (itdCurrentOffset oldOffset (itdIncOffset offset oldOffset frameCount : F) i : Int)
        ≤ max oldOffset offset := by
  obtain ⟨h1, h2⟩ := itd_interpolant_mem (F := F) oldOffset offset frameCount i hi
  obtain ⟨t1, t2⟩ := truncToInt_mem _ _ _ h1 h2
  have hnn : 0 ≤ truncToInt
      ((oldOffset : F) + itdIncOffset offset oldOffset frameCount * (i : F)) :=
    le_trans (le_min hold hoff) t1
  simp only [itdCurrentOffset, Int.toNat_of_nonneg hnn]
  exact ⟨t1, t2⟩

/-- C26: for every dot in `[-1, 1]` and every cached previous offset in
`[0, INTERAURAL_DELAY]`, the target offset `trunc(INTERAURAL_DELAY * (1 + dot) / 2)` lies in
`[0, INTERAURAL_DELAY]`, the offset interpolated for every sample `i` of the frame lies between
the previous and the target offset, and the mono read index `i + currentOffset` is below
`frameCount + INTERAURAL_DELAY`. -/
theorem itd_offsets_in_range (INTERAURAL_DELAY dot : F) (oldOffset : Int)
    (frameCount i : Nat) (hdot1 : -1 ≤ dot) (hdot2 : dot ≤ 1) (hold0 : 0 ≤ oldOffset)
    (hold1 : (oldOffset : F) ≤ INTERAURAL_DELAY) (hi : i < frameCount) :
    (0 ≤ itdOffset INTERAURAL_DELAY dot ∧
      ((itdOffset INTERAURAL_DELAY dot : Int) : F) ≤ INTERAURAL_DELAY) ∧
    (min oldOffset (itdOffset INTERAURAL_DELAY dot)
        ≤ (itdCurrentOffset oldOffset
            (itdIncOffset (itdOffset INTERAURAL_DELAY dot) oldOffset frameCount : F) i : Int) ∧
      (itdCurrentOffset oldOffset
          (itdIncOffset (itdOffset INTERAURAL_DELAY dot) oldOffset frameCount : F) i : Int)
        ≤ max oldOffset (itdOffset INTERAURAL_DELAY dot)) ∧
    ((i + itdCurrentOffset oldOffset
        (itdIncOffset (itdOffset INTERAURAL_DELAY dot) oldOffset frameCount : F) i : Nat) : F)
      < (frameCount : F) + INTERAURAL_DELAY := by
  have hD : 0 ≤ INTERAURAL_DELAY := le_trans (by exact_mod_cast hold0) hold1
  obtain ⟨ho0, ho1⟩ := itdOffset_mem INTERAURAL_DELAY dot hD hdot1 hdot2
  obtain ⟨hc1, hc2⟩ := itdCurrentOffset_mem (F := F) oldOffset
    (itdOffset INTERAURAL_DELAY dot) frameCount i hold0 ho0 hi
  refine ⟨⟨ho0, ho1⟩, ⟨hc1, hc2⟩, ?_⟩
  have hmax : ((max oldOffset (itdOffset INTERAURAL_DELAY dot) : Int) : F)
      ≤ INTERAURAL_DELAY := by
    rcases le_total oldOffset (itdOffset INTERAURAL_DELAY dot) with h | h
    · rw [max_eq_right h]; exact ho1
    · rw [max_eq_left h]; exact hold1
  have hcur : ((itdCurrentOffset oldOffset
      (itdIncOffset (itdOffset INTERAURAL_DELAY dot) oldOffset frameCount : F) i : Nat) : F)
      ≤ INTERAURAL_DELAY := by
    refine le_trans ?_ hmax
    have : (((itdCurrentOffset oldOffset
        (itdIncOffset (itdOffset INTERAURAL_DELAY dot) oldOffset frameCount : F) i : Nat)
        : Int) : F) ≤ ((max oldOffset (itdOffset INTERAURAL_DELAY dot) : Int) : F) :=
      Int.cast_le.mpr hc2
    simpa using this
  have hif : (i : F) < (frameCount : F) := by exact_mod_cast hi
  rw [Nat.cast_add]
  exact add_lt_add_of_lt_of_le hif hcur

end ITD

/-- Witness of C26: a delay of 20 samples, a source at `dot = 0.5`, a cached offset of 3 and
sample 100 of a frame of 480. -/
theorem itd_offsets_in_range_witness :
    (0 ≤ itdOffset (20 : ℚ) 0.5 ∧ ((itdOffset (20 : ℚ) 0.5 : Int) : ℚ) ≤ 20) ∧
    (min 3 (itdOffset (20 : ℚ) 0.5)
        ≤ (itdCurrentOffset 3 (itdIncOffset (itdOffset (20 : ℚ) 0.5) 3 480 : ℚ) 100 : Int) ∧
      (itdCurrentOffset 3 (itdIncOffset (itdOffset (20 : ℚ) 0.5) 3 480 : ℚ) 100 : Int)
        ≤ max 3 (itdOffset (20 : ℚ) 0.5)) ∧
    ((100 + itdCurrentOffset 3 (itdIncOffset (itdOffset (20 : ℚ) 0.5) 3 480 : ℚ) 100 : Nat) : ℚ)
      < ((480 : Nat) : ℚ) + 20 :=
  itd_offsets_in_range (20 : ℚ) 0.5 3 480 100 (by norm_num) (by norm_num) (by norm_num)
    (by norm_num) (by norm_num)

/-! ### Monotonicity and totality of `calcGain` -/

/-- The clamped floor `mvol` of `calcGain` is positive, at most 1 when the floor is, and at
least the floor. -/
theorem mvol_bounds (floor : ℝ) (hfloor1 : floor ≤ 1) :
    0 < (if floor < 0.005 then 0.005 else floor) ∧
    (if floor < 0.005 then 0.005 else floor) ≤ 1 ∧
    floor ≤ (if floor < 0.005 then 0.005 else floor) := by
  split_ifs with h
  · exact ⟨by norm_num, by norm_num, h.le⟩
  · exact ⟨lt_of_lt_of_le (by norm_num) (not_lt.mp h), hfloor1, le_rfl⟩

/-- The roll-off factor decreases when the relative distance grows. -/
theorem rolloff_antitone (mvol x y : ℝ) (h1 : 0 < mvol) (h2 : mvol ≤ 1) (hxy : x ≤ y) :
    (10 : ℝ) ^ (Real.logb 10 mvol * y) ≤ (10 : ℝ) ^ (Real.logb 10 mvol * x) := by
  apply Real.rpow_le_rpow_of_exponent_le (by norm_num)
  exact mul_le_mul_of_nonpos_left hxy (Real.logb_nonpos (by norm_num) h1.le h2)

/-- The roll-off factor at relative distance 1 is `mvol`. -/
theorem rolloff_at_one (mvol : ℝ) (h1 : 0 < mvol) :
    (10 : ℝ) ^ (Real.logb 10 mvol * 1) = mvol := by
  rw [mul_one]
  exact Real.rpow_logb (by norm_num) (by norm_num) h1

/-- The distance attenuation `datt` of the roll-off regime is at most 1. -/
theorem datt_le_one (m : Libm ℝ) (hm : IsRealLibm m) (floor mvol dmin dmax d : ℝ)
    (hfloor1 : floor ≤ 1) (hv0 : 0 < mvol) (hv1 : mvol ≤ 1)
    (hlt : dmin < dmax) (hd : dmin ≤ d) :
    (if d ≥ dmax then floor
      else m.powf 10 (m.log10f mvol * ((d - dmin) / (dmax - dmin)))) ≤ 1 := by
  by_cases h : d ≥ dmax
  · rw [if_pos h]; exact hfloor1
  · rw [if_neg h, hm.powf_eq, hm.log10f_eq]
    exact (rolloff_bounds _ _ hv0 hv1 (div_nonneg (by linarith) (by linarith))).2

/-- The distance attenuation `datt` of the roll-off regime does not increase with distance. -/
theorem datt_antitone (m : Libm ℝ) (hm : IsRealLibm m) (floor mvol dmin dmax d1 d2 : ℝ)
    (hv0 : 0 < mvol) (hv1 : mvol ≤ 1) (hv2 : floor ≤ mvol)
    (hlt : dmin < dmax) (h : d1 ≤ d2) :
    (if d2 ≥ dmax then floor
      else m.powf 10 (m.log10f mvol * ((d2 - dmin) / (dmax - dmin))))
    ≤ (if d1 ≥ dmax then floor
      else m.powf 10 (m.log10f mvol * ((d1 - dmin) / (dmax - dmin)))) := by
  have hpos : 0 < dmax - dmin := by linarith
  simp only [hm.powf_eq, hm.log10f_eq]
  by_cases h1 : d1 ≥ dmax
  · rw [if_pos h1, if_pos (le_trans h1 h)]
  · rw [if_neg h1]
    by_cases h2 : d2 ≥ dmax
    · rw [if_pos h2]
      refine le_trans hv2 (le_of_eq_of_le (rolloff_at_one mvol hv0).symm ?_)
      apply rolloff_antitone _ _ _ hv0 hv1
      rw [div_le_one hpos]
      linarith [not_le.mp h1]
    · rw [if_neg h2]
      apply rolloff_antitone _ _ _ hv0 hv1
      exact div_le_div_of_nonneg_right (by linarith) hpos.le

/-- For a dot product in `[-1, 1]`, a bloom that is not negative, a floor of at most 1 and
`minDistance < maxDistance`, the gain is at most 1. -/
theorem calcGain_le_one (m : Libm ℝ) (hm : IsRealLibm m) (s : Settings ℝ) (dp d : ℝ)
    (hdot1 : -1 ≤ dp) (hdot2 : dp ≤ 1) (hfloor1 : s.fAudioMaxDistVolume ≤ 1)
    (hlt : s.fAudioMinDistance < s.fAudioMaxDistance) :
    calcGain m s dp d ≤ 1 := by
  obtain ⟨hr0, hr1⟩ := dotRemap_bounds hdot1 hdot2
  have hr0' : 0 ≤ dotRemap dp := le_trans (by norm_num) hr0
  obtain ⟨hv0, hv1, -⟩ := mvol_bounds s.fAudioMaxDistVolume hfloor1
  rw [calcGain_eq]
  by_cases h1 : d < 0.01
  · rw [if_pos h1]
  rw [if_neg h1]
  by_cases h2 : s.fAudioMaxDistVolume > 0.99
  · rw [if_pos h2]; exact min_le_left _ _
  rw [if_neg h2]
  by_cases h3 : d < s.fAudioMinDistance
  · rw [if_pos h3]; exact min_le_left _ _
  rw [if_neg h3]
  exact mul_le_one₀ (datt_le_one m hm _ _ _ _ d hfloor1 hv0 hv1 hlt (not_lt.mp h3)) hr0' hr1

/-- The gain does not increase with distance. -/
theorem calcGain_antitone (m : Libm ℝ) (hm : IsRealLibm m) (s : Settings ℝ) (dp d1 d2 : ℝ)
    (hdot1 : -1 ≤ dp) (hdot2 : dp ≤ 1) (hbloom : 0 ≤ s.fAudioBloom)
    (hfloor1 : s.fAudioMaxDistVolume ≤ 1)
    (hmin : 0 < s.fAudioMinDistance) (hlt : s.fAudioMinDistance < s.fAudioMaxDistance)
    (h : d1 ≤ d2) :
    calcGain m s dp d2 ≤ calcGain m s dp d1 := by
  obtain ⟨hr0, hr1⟩ := dotRemap_bounds hdot1 hdot2
  have hr0' : 0 ≤ dotRemap dp := le_trans (by norm_num) hr0
  obtain ⟨hv0, hv1, hv2⟩ := mvol_bounds s.fAudioMaxDistVolume hfloor1
  by_cases h1 : d1 < 0.01
  · rw [calcGain_near m s dp d1 h1]
    exact calcGain_le_one m hm s dp d2 hdot1 hdot2 hfloor1 hlt
  have h2 : ¬ d2 < 0.01 := fun h2 => h1 (lt_of_le_of_lt h h2)
  rw [calcGain_eq m s dp d1, calcGain_eq m s dp d2, if_neg h1, if_neg h2]
  by_cases hf : s.fAudioMaxDistVolume > 0.99
  · rw [if_pos hf, if_pos hf]
  rw [if_neg hf, if_neg hf]
  by_cases hb1 : d1 < s.fAudioMinDistance
  · rw [if_pos hb1]
    have hbf : 0 ≤ s.fAudioBloom * (1 - d1 / s.fAudioMinDistance) := by
      apply mul_nonneg hbloom
      rw [sub_nonneg, div_le_one hmin]
      exact hb1.le
    by_cases hb2 : d2 < s.fAudioMinDistance
    · rw [if_pos hb2]
      apply min_le_min le_rfl
      have : d1 / s.fAudioMinDistance ≤ d2 / s.fAudioMinDistance :=
        div_le_div_of_nonneg_right h hmin.le
      nlinarith
    · rw [if_neg hb2]
      have hd := datt_le_one m hm _ _ _ _ d2 hfloor1 hv0 hv1 hlt (not_lt.mp hb2)
      refine le_min (mul_le_one₀ hd hr0' hr1) ?_
      calc _ ≤ 1 * dotRemap dp := mul_le_mul_of_nonneg_right hd hr0'
        _ ≤ s.fAudioBloom * (1 - d1 / s.fAudioMinDistance) + dotRemap dp := by linarith
  · have hb2 : ¬ d2 < s.fAudioMinDistance := fun hb2 => hb1 (lt_of_le_of_lt h hb2)
    rw [if_neg hb1, if_neg hb2]
    exact mul_le_mul_of_nonneg_right
      (datt_antitone m hm _ _ _ _ d1 d2 hv0 hv1 hv2 hlt h) hr0'

/-- C28: `calcGain` never increases with distance: for every dot in `[-1, 1]` and every
configuration with `bloom >= 0`, floor in `[0, 1]` and `0 < minDistance < maxDistance`, if
`0 <= d1 <= d2` then `calcGain(dot, d1) >= calcGain(dot, d2)`; this covers all regime
boundaries and floors below the clamp 0.005. -/
theorem calcGain_nonincreasing (m : Libm ℝ) (hm : IsRealLibm m) (s : Settings ℝ)
    (dot d1 d2 : ℝ) (hdot1 : -1 ≤ dot) (hdot2 : dot ≤ 1) (hbloom : 0 ≤ s.fAudioBloom)
    (_hfloor0 : 0 ≤ s.fAudioMaxDistVolume) (hfloor1 : s.fAudioMaxDistVolume ≤ 1)
    (hmin : 0 < s.fAudioMinDistance) (hlt : s.fAudioMinDistance < s.fAudioMaxDistance)
    (_hd1 : 0 ≤ d1) (h : d1 ≤ d2) :
    calcGain m s dot d1 ≥ calcGain m s dot d2 :=
  calcGain_antitone m hm s dot d1 d2 hdot1 hdot2 hbloom hfloor1 hmin hlt h

/-- Witness of C28: across the maximum distance with a floor below the clamp (floor 0.001,
distances 1 to 15, the source seen sideways, at 14 and at 16). -/
theorem calcGain_nonincreasing_witness :
    ∃ m : Libm ℝ, IsRealLibm m ∧
      calcGain m ⟨1, 0.5, 1, 15, 0.001, true⟩ 0 14
        ≥ calcGain m ⟨1, 0.5, 1, 15, 0.001, true⟩ 0 16 := by
  obtain ⟨m, hm⟩ := exists_isRealLibm
  exact ⟨m, hm, calcGain_nonincreasing m hm ⟨1, 0.5, 1, 15, 0.001, true⟩ 0 14 16
    (by norm_num) (by norm_num) (by norm_num) (by norm_num) (by norm_num) (by norm_num)
    (by norm_num) (by norm_num) (by norm_num)⟩

section GainTotal

variable {F : Type} [LinearOrderedField F]

/-- The checked version of `calcGain` never fails and returns the value of `calcGain`. -/
theorem calcGainChecked_eq (m : Libm F) (s : Settings F) (dotproduct distance : F) :
    calcGainChecked m s dotproduct distance = some (calcGain m s dotproduct distance) := by
  unfold calcGainChecked calcGain
  by_cases h1 : distance < 0.01
  · simp only [if_pos h1]
  simp only [if_neg h1]
  by_cases h2 : s.fAudioMaxDistVolume > 0.99
  · simp only [if_pos h2]
  simp only [if_neg h2]
  by_cases h3 : distance < s.fAudioMinDistance
  · have hne : s.fAudioMinDistance ≠ 0 := by
      have h01 : (0 : F) < 0.01 := by norm_num
      exact (lt_of_lt_of_le h01 (le_trans (not_lt.mp h1) h3.le)).ne'
    simp only [if_pos h3, divChecked, if_neg hne, Option.some_bind]
  simp only [if_neg h3]
  by_cases h4 : distance ≥ s.fAudioMaxDistance
  · simp only [if_pos h4, Option.map_some']
  · have hne : s.fAudioMaxDistance - s.fAudioMinDistance ≠ 0 :=
      (sub_pos.mpr (lt_of_le_of_lt (not_lt.mp h3) (not_le.mp h4))).ne'
    have hlog : ¬ (if s.fAudioMaxDistVolume < 0.005 then (0.005 : F)
        else s.fAudioMaxDistVolume) ≤ 0 := by
      have h5 : (0 : F) < 0.005 := by norm_num
      split_ifs with h
      · exact not_le.mpr h5
      · exact not_le.mpr (lt_of_lt_of_le h5 (not_lt.mp h))
    simp only [if_neg h4, divChecked, if_neg hne, log10fChecked, if_neg hlog,
      Option.some_bind, Option.map_some']

/-- The operands of the divisions and logarithms that `calcGain` executes. -/
theorem calcGainOperations_safe (s : Settings F) (distance : F) :
    (∀ x, GainOperation.divideByMinDistance x ∈ calcGainOperations s distance →
      x = s.fAudioMinDistance ∧ x > 0.01) ∧
    (∀ x, GainOperation.divideByRange x ∈ calcGainOperations s distance →
      x = s.fAudioMaxDistance - s.fAudioMinDistance ∧
        s.fAudioMaxDistance > s.fAudioMinDistance) ∧
    (∀ x, GainOperation.log10f x ∈ calcGainOperations s distance → x ≥ 0.005) := by
  unfold calcGainOperations
  by_cases h1 : distance < 0.01
  · simp [if_pos h1]
  by_cases h2 : s.fAudioMaxDistVolume > 0.99
  · simp [if_neg h1, if_pos h2]
  by_cases h3 : distance < s.fAudioMinDistance
  · simp only [if_neg h1, if_neg h2, if_pos h3, List.mem_singleton, GainOperation.divideByMinDistance.injEq,
      reduceCtorEq, false_imp_iff, implies_true, and_true]
    rintro x rfl
    exact ⟨rfl, lt_of_le_of_lt (not_lt.mp h1) h3⟩
  by_cases h4 : distance ≥ s.fAudioMaxDistance
  · simp [if_neg h1, if_neg h2, if_neg h3, if_pos h4]
  · simp only [if_neg h1, if_neg h2, if_neg h3, if_neg h4, List.mem_cons, List.mem_singleton,
      reduceCtorEq, GainOperation.divideByRange.injEq, GainOperation.log10f.injEq,
      false_or, or_false, false_imp_iff, implies_true, true_and, List.not_mem_nil]
    refine ⟨?_, ?_⟩
    · rintro x rfl
      exact ⟨rfl, lt_of_le_of_lt (not_lt.mp h3) (not_le.mp h4)⟩
    · rintro x rfl
      split_ifs with h
      · exact le_rfl
      · exact not_lt.mp h

/-- C29: `calcGain` is total for every configuration: whenever the division by `minDistance`
is reached, `minDistance > 0.01`; whenever the division by `maxDistance - minDistance` is
reached, `maxDistance > minDistance`; the logarithm is only taken of a value `>= 0.005`; and
so the version of `calcGain` in which a division by zero or a logarithm of a number that is
not positive fails never fails and returns the value of `calcGain`. -/
theorem calcGain_total (m : Libm F) (s : Settings F) (dot distance : F) :
    ((∀ x, GainOperation.divideByMinDistance x ∈ calcGainOperations s distance →
        x = s.fAudioMinDistance ∧ x > 0.01) ∧
      (∀ x, GainOperation.divideByRange x ∈ calcGainOperations s distance →
        x = s.fAudioMaxDistance - s.fAudioMinDistance ∧
          s.fAudioMaxDistance > s.fAudioMinDistance) ∧
      (∀ x, GainOperation.log10f x ∈ calcGainOperations s distance → x ≥ 0.005)) ∧
    calcGainChecked m s dot distance = some (calcGain m s dot distance) :=
  ⟨calcGainOperations_safe s distance, calcGainChecked_eq m s dot distance⟩

end GainTotal

/-- Witness of C29: configurations with `minDistance = 0` and with
`minDistance >= maxDistance`, evaluated on the rationals with stub routines. -/
theorem calcGain_total_witness :
    calcGainOperations (⟨1, 0.5, 0, 15, 0.1, true⟩ : Settings ℚ) 8
      = [GainOperation.divideByRange 15, GainOperation.log10f 0.1] ∧
    calcGainOperations (⟨1, 0.5, 10, 5, 0.1, true⟩ : Settings ℚ) 8
      = [GainOperation.divideByMinDistance 10] ∧
    calcGainOperations (⟨1, 0.5, 10, 5, 0.1, true⟩ : Settings ℚ) 12 = [] ∧
    ((10 : ℚ) = (⟨1, 0.5, 10, 5, 0.1, true⟩ : Settings ℚ).fAudioMinDistance ∧
      (10 : ℚ) > 0.01) := by
  refine ⟨?_, ?_, ?_, ?_⟩
  · norm_num [calcGainOperations]
  · norm_num [calcGainOperations]
  · norm_num [calcGainOperations]
  · exact (calcGain_total ⟨fun x => x, fun x _ => x, fun x => x, fun x => x, fun x => x,
      fun x => x, fun x _ => x, 3⟩ (⟨1, 0.5, 10, 5, 0.1, true⟩ : Settings ℚ) 0 8).1.1 10
      (by norm_num [calcGainOperations])

/-! ### Orientation written by the manual plugin -/

/-- Normalising a unit vector with the exact square root leaves it as it is. -/
theorem normalize_of_unit (m : Libm ℝ) (hm : IsRealLibm m) (v : Vector3D ℝ)
    (h : v.dotProduct v = 1) : Vector3D.normalize m v = v := by
  simp only [Vector3D.normalize, norm_of_unit m hm v h, div_one]

/-- A unit vector is not the zero vector. -/
theorem isZero_of_unit (v : Vector3D ℝ) (h : v.dotProduct v = 1) : v.isZero = false := by
  rw [isZero_eq_false_iff]
  simp only [Vector3D.dotProduct] at h
  rw [h]
  exact one_pos

/-- An orthonormal pair has error 0 and goes through the basis reconstruction unchanged. -/
theorem reconstructBasis_of_orthonormal (m : Libm ℝ) (hm : IsRealLibm m) (d u : Vector3D ℝ)
    (h : OrthonormalPair d u) :
    orientationError m d u = 0 ∧ reconstructBasis m d u = (d, u) := by
  have hd := isZero_of_unit d h.dir_unit
  have hu := isZero_of_unit u h.axis_unit
  have hnd := normalize_of_unit m hm d h.dir_unit
  have hnu := normalize_of_unit m hm u h.axis_unit
  constructor
  · simp only [orientationError, hu, Bool.not_false, if_true, hnd, hnu, h.perp, abs_zero]
  · simp only [reconstructBasis, hd, hu, Bool.not_false, if_true, hnd, hnu, repairAxis, h.perp,
      abs_zero]
    norm_num

/-- The front and top vectors of the plugin form an orthonormal pair. -/
theorem updateTopAndFront_orthonormal (m : Libm ℝ) (hm : IsRealLibm m)
    (azimuth elevation : Int) :
    OrthonormalPair (updateTopAndFront m azimuth elevation).1
      (updateTopAndFront m azimuth elevation).2 := by
  simp only [updateTopAndFront, hm.sinf_eq, hm.cosf_eq, hm.pi_eq]
  have ha := Real.sin_sq_add_cos_sq ((azimuth : ℝ) * Real.pi / 180)
  have he := Real.sin_sq_add_cos_sq ((elevation : ℝ) * Real.pi / 180)
  constructor <;> simp only [Vector3D.dotProduct]
  · linear_combination (Real.cos ((elevation : ℝ) * Real.pi / 180)) ^ 2 * ha + he
  · linear_combination (Real.sin ((elevation : ℝ) * Real.pi / 180)) ^ 2 * ha + he
  · linear_combination
      (-(Real.cos ((elevation : ℝ) * Real.pi / 180))
        * Real.sin ((elevation : ℝ) * Real.pi / 180)) * ha

/-- C30: for every integer azimuth and elevation (in degrees), the front vector
`(cos e * sin a, sin e, cos e * cos a)` and the top vector
`(-sin e * sin a, cos e, -sin e * cos a)` written by `Manual::updateTopAndFront` are both of
unit length and mutually perpendicular, so the orientation step of the mixer computes the
error 0 for them and accepts the up vector unchanged. -/
theorem updateTopAndFront_accepted (m : Libm ℝ) (hm : IsRealLibm m)
    (azimuth elevation : Int) :
    ((updateTopAndFront m azimuth elevation).1
        = ⟨Real.cos ((elevation : ℝ) * Real.pi / 180) * Real.sin ((azimuth : ℝ) * Real.pi / 180),
            Real.sin ((elevation : ℝ) * Real.pi / 180),
            Real.cos ((elevation : ℝ) * Real.pi / 180)
              * Real.cos ((azimuth : ℝ) * Real.pi / 180)⟩ ∧
      (updateTopAndFront m azimuth elevation).2
        = ⟨-Real.sin ((elevation : ℝ) * Real.pi / 180)
              * Real.sin ((azimuth : ℝ) * Real.pi / 180),
            Real.cos ((elevation : ℝ) * Real.pi / 180),
            -Real.sin ((elevation : ℝ) * Real.pi / 180)
              * Real.cos ((azimuth : ℝ) * Real.pi / 180)⟩) ∧
    ((updateTopAndFront m azimuth elevation).1.norm m = 1 ∧
      (updateTopAndFront m azimuth elevation).2.norm m = 1 ∧
      (updateTopAndFront m azimuth elevation).1.dotProduct
        (updateTopAndFront m azimuth elevation).2 = 0) ∧
    orientationError m (updateTopAndFront m azimuth elevation).1
      (updateTopAndFront m azimuth elevation).2 = 0 ∧
    reconstructBasis m (updateTopAndFront m azimuth elevation).1
        (updateTopAndFront m azimuth elevation).2
      = updateTopAndFront m azimuth elevation := by
  have h := updateTopAndFront_orthonormal m hm azimuth elevation
  have hr := reconstructBasis_of_orthonormal m hm _ _ h
  refine ⟨?_, ⟨norm_of_unit m hm _ h.dir_unit, norm_of_unit m hm _ h.axis_unit, h.perp⟩,
    hr.1, hr.2⟩
  simp only [updateTopAndFront, hm.sinf_eq, hm.cosf_eq, hm.pi_eq, and_self]

/-- Witness of C30: azimuth 30 degrees, elevation 45 degrees. -/
theorem updateTopAndFront_accepted_witness :
    ∃ m : Libm ℝ, IsRealLibm m ∧
      orientationError m (updateTopAndFront m 30 45).1 (updateTopAndFront m 30 45).2 = 0 ∧
      reconstructBasis m (updateTopAndFront m 30 45).1 (updateTopAndFront m 30 45).2
        = updateTopAndFront m 30 45 := by
  obtain ⟨m, hm⟩ := exists_isRealLibm
  exact ⟨m, hm, (updateTopAndFront_accepted m hm 30 45).2.2⟩

/-! ### Speaker set-up -/

section InitializeMixerTheorems

variable {F : Type} [LinearOrderedField F]

/-- The `switch` takes its `default` branch for a mask that is not recognised. -/
theorem speakerSwitch_unrecognised (mask : Nat) (h : mask ∉ recognisedSpeakerMasks) :
    (speakerSwitch mask : SpeakerSetup F) = ⟨⟨0, 0, 0⟩, false, 0⟩ := by
  simp only [recognisedSpeakerMasks, List.mem_cons, List.mem_singleton, List.not_mem_nil,
    or_false, not_or] at h
  obtain ⟨h1, h2, h3, h4, h5, h6, h7, h8, h9, h10, h11, h12, h13, h14, h15, h16, h17, h18⟩ := h
  simp only [speakerSwitch, if_neg h1, if_neg h2, if_neg h3, if_neg h4, if_neg h5, if_neg h6,
    if_neg h7, if_neg h8, if_neg h9, if_neg h10, if_neg h11, if_neg h12, if_neg h13,
    if_neg h14, if_neg h15, if_neg h16, if_neg h17, if_neg h18]

/-- The `switch` keeps a recognised channel positional. -/
theorem speakerSwitch_recognised (mask : Nat) (h : mask ∈ recognisedSpeakerMasks) :
    (speakerSwitch mask : SpeakerSetup F).bSpeakerPositional = true := by
  simp only [recognisedSpeakerMasks, List.mem_cons, List.mem_singleton, List.not_mem_nil,
    or_false] at h
  rcases h with h | h | h | h | h | h | h | h | h | h | h | h | h | h | h | h | h | h <;>
    subst h <;>
    simp [speakerSwitch, SPEAKER_FRONT_LEFT, SPEAKER_FRONT_RIGHT, SPEAKER_FRONT_CENTER,
      SPEAKER_LOW_FREQUENCY, SPEAKER_BACK_LEFT, SPEAKER_BACK_RIGHT,
      SPEAKER_FRONT_LEFT_OF_CENTER, SPEAKER_FRONT_RIGHT_OF_CENTER, SPEAKER_BACK_CENTER,
      SPEAKER_SIDE_LEFT, SPEAKER_SIDE_RIGHT, SPEAKER_TOP_CENTER, SPEAKER_TOP_FRONT_LEFT,
      SPEAKER_TOP_FRONT_CENTER, SPEAKER_TOP_FRONT_RIGHT, SPEAKER_TOP_BACK_LEFT,
      SPEAKER_TOP_BACK_CENTER, SPEAKER_TOP_BACK_RIGHT]

/-- The headphone adjustment does not change `bSpeakerPositional`. -/
theorem speakerSetup_positional (hp fh : Bool) (mask : Nat) :
    (speakerSetup hp fh mask : SpeakerSetup F).bSpeakerPositional
      = (speakerSwitch mask : SpeakerSetup F).bSpeakerPositional := by
  unfold speakerSetup
  split_ifs <;> rfl

/-- A channel with a mask that is not recognised: not positional, volume 0, direction zero,
with or without the headphone adjustment. -/
theorem speakerSetup_unrecognised (hp fh : Bool) (mask : Nat)
    (h : mask ∉ recognisedSpeakerMasks) :
    (speakerSetup hp fh mask : SpeakerSetup F) = ⟨⟨0, 0, 0⟩, false, 0⟩ := by
  unfold speakerSetup
  rw [speakerSwitch_unrecognised mask h]
  split_ifs <;> simp

/-- Normalisation leaves the zero direction at zero, whatever `sqrtf` returns. -/
theorem speakerNormalised_zero (m : Libm F) :
    speakerNormalised m (⟨0, 0, 0⟩ : Vector3D F) = ⟨0, 0, 0⟩ := by
  simp [speakerNormalised]

/-- C23: for every channel layout with more than one channel, `initializeMixer` leaves a
channel whose mask is not one of the recognised speaker masks non-positional
(`bSpeakerPositional` false), with speaker volume 0 and a zero direction vector, while every
channel with a recognised mask is positional; the function returns this result for every
array of masks (there is no failing branch). -/
theorem initializeMixer_unknown_mask (m : Libm F) (iChannels : Nat)
    (bPositionalHeadphone : Bool) (chanmasks : Nat → Nat) (forceheadphone : Bool)
    (hch : iChannels > 1) (i : Nat) (hi : i < iChannels) :
    (chanmasks i ∉ recognisedSpeakerMasks →
      (initializeMixer m iChannels bPositionalHeadphone chanmasks forceheadphone
        ).bSpeakerPositional i = false ∧
      (initializeMixer m iChannels bPositionalHeadphone chanmasks forceheadphone
        ).fSpeakerVolume i = 0 ∧
      (initializeMixer m iChannels bPositionalHeadphone chanmasks forceheadphone
        ).fSpeakers (3 * i + 0) = 0 ∧
      (initializeMixer m iChannels bPositionalHeadphone chanmasks forceheadphone
        ).fSpeakers (3 * i + 1) = 0 ∧
      (initializeMixer m iChannels bPositionalHeadphone chanmasks forceheadphone
        ).fSpeakers (3 * i + 2) = 0) ∧
    (chanmasks i ∈ recognisedSpeakerMasks →
      (initializeMixer m iChannels bPositionalHeadphone chanmasks forceheadphone
        ).bSpeakerPositional i = true) := by
  have d0 : (3 * i + 0) / 3 = i := by omega
  have d1 : (3 * i + 1) / 3 = i := by omega
  have d2 : (3 * i + 2) / 3 = i := by omega
  have m0 : (3 * i + 0) % 3 = 0 := by omega
  have m1 : (3 * i + 1) % 3 = 1 := by omega
  have m2 : (3 * i + 2) % 3 = 2 := by omega
  constructor
  · intro h
    simp only [initializeMixer, if_pos hch, if_pos hi, d0, d1, d2, m0, m1, m2,
      speakerSetup_unrecognised _ _ _ h, speakerNormalised_zero, if_true, one_ne_zero,
      if_false, OfNat.ofNat_ne_zero, OfNat.ofNat_ne_one, and_self]
  · intro h
    simp only [initializeMixer, if_pos hch, if_pos hi, speakerSetup_positional,
      speakerSwitch_recognised _ h]

end InitializeMixerTheorems

/-- Witness of C23: two channels, front left and a mask with bit 18 (not a speaker mask). -/
theorem initializeMixer_unknown_mask_witness :
    ((2 : Nat) > 1 ∧ (1 : Nat) < 2 ∧ (0x40000 : Nat) ∉ recognisedSpeakerMasks) ∧
    (initializeMixer (⟨fun x => x, fun x _ => x, fun x => x, fun x => x, fun x => x,
        fun x => x, fun x _ => x, 3⟩ : Libm ℚ) 2 false
        (fun i => if i = 0 then SPEAKER_FRONT_LEFT else 0x40000) false
      ).bSpeakerPositional 1 = false ∧
    (initializeMixer (⟨fun x => x, fun x _ => x, fun x => x, fun x => x, fun x => x,
        fun x => x, fun x _ => x, 3⟩ : Libm ℚ) 2 false
        (fun i => if i = 0 then SPEAKER_FRONT_LEFT else 0x40000) false
      ).fSpeakerVolume 1 = 0 :=
  have hn : (0x40000 : Nat) ∉ recognisedSpeakerMasks := by decide
  have h := (initializeMixer_unknown_mask (⟨fun x => x, fun x _ => x, fun x => x,
    fun x => x, fun x => x, fun x => x, fun x _ => x, 3⟩ : Libm ℚ) 2 false
    (fun i => if i = 0 then SPEAKER_FRONT_LEFT else 0x40000) false (by decide) 1
    (by decide)).1 hn
  ⟨⟨by decide, by decide, hn⟩, h.1, h.2.1⟩

/-! ### Output buffers of the listener model -/

section ListenerTheorems

variable {F : Type} [LinearOrderedField F]

namespace CListenerModelBase

/-- The buffer that `GetBuffers` would return for the left ear. -/
theorem GetBuffers_left (st : CListenerModelBase F) :
    (GetBuffers st).1.1 = if st.leftDataReady then st.leftBuffer else CMonoBuffer st.bufferSize :=
  rfl

/-- The buffer that `GetBuffers` would return for the right ear. -/
theorem GetBuffers_right (st : CListenerModelBase F) :
    (GetBuffers st).1.2
      = if st.rightDataReady then st.rightBuffer else CMonoBuffer st.bufferSize := by
  cases hl : st.leftDataReady <;> cases hr : st.rightDataReady <;> simp [GetBuffers, hl, hr]

/-- After `GetBuffers` no data is ready and the buffer size is the same. -/
theorem GetBuffers_state (st : CListenerModelBase F) :
    (GetBuffers st).2.leftDataReady = false ∧ (GetBuffers st).2.rightDataReady = false ∧
      (GetBuffers st).2.bufferSize = st.bufferSize := by
  unfold GetBuffers
  cases hl : st.leftDataReady <;> cases hr : st.rightDataReady <;> simp [hl, hr]

/-- One update keeps the buffer size and adds the buffer received, if it is not empty, to
the ear it came in on. -/
theorem updateFromEntryPoint_effect (st : CListenerModelBase F) (id : String)
    (buffer : List F) :
    (updateFromEntryPoint st id buffer).bufferSize = st.bufferSize ∧
    (GetBuffers (updateFromEntryPoint st id buffer)).1.1
      = (if id = "leftEar" ∧ buffer.length ≠ 0 then
          CMonoBuffer.add (GetBuffers st).1.1 buffer else (GetBuffers st).1.1) ∧
    (GetBuffers (updateFromEntryPoint st id buffer)).1.2
      = (if id = "rightEar" ∧ buffer.length ≠ 0 then
          CMonoBuffer.add (GetBuffers st).1.2 buffer else (GetBuffers st).1.2) := by
  simp only [GetBuffers_left, GetBuffers_right]
  by_cases hl : id = "leftEar"
  · subst hl
    have hr : ¬ ("leftEar" : String) = "rightEar" := by decide
    cases h1 : st.leftDataReady <;> by_cases h2 : buffer.length ≠ 0 <;>
      simp [updateFromEntryPoint, UpdateLeftBuffer, h1, h2, hr]
  · by_cases hr : id = "rightEar"
    · subst hr
      cases h1 : st.rightDataReady <;> by_cases h2 : buffer.length ≠ 0 <;>
        simp [updateFromEntryPoint, UpdateRightBuffer, h1, h2, hl]
    · simp [updateFromEntryPoint, hl, hr]

/-- What `GetBuffers` returns after a sequence of updates, in terms of what it would have
returned before them. -/
theorem GetBuffers_updates (received : List (String × List F)) (st : CListenerModelBase F) :
    (updates st received).bufferSize = st.bufferSize ∧
    (GetBuffers (updates st received)).1.1
      = ((received.filter fun u => decide (u.1 = "leftEar") && decide (u.2.length ≠ 0)).map
          fun u => u.2).foldl CMonoBuffer.add (GetBuffers st).1.1 ∧
    (GetBuffers (updates st received)).1.2
      = ((received.filter fun u => decide (u.1 = "rightEar") && decide (u.2.length ≠ 0)).map
          fun u => u.2).foldl CMonoBuffer.add (GetBuffers st).1.2 := by
  induction received generalizing st with
  | nil => exact ⟨rfl, rfl, rfl⟩
  | cons u us ih =>
    obtain ⟨hs, hl, hr⟩ := updateFromEntryPoint_effect st u.1 u.2
    obtain ⟨is, il, ir⟩ := ih (updateFromEntryPoint st u.1 u.2)
    have hu : updates st (u :: us) = updates (updateFromEntryPoint st u.1 u.2) us := rfl
    rw [hu]
    refine ⟨is.trans hs, ?_, ?_⟩
    · rw [il, hl, List.filter_cons]
      by_cases hc : u.1 = "leftEar" ∧ u.2.length ≠ 0
      · simp [hc.1, hc.2]
      · rw [if_neg hc]
        have : (decide (u.1 = "leftEar") && decide (u.2.length ≠ 0)) = false := by
          simpa using hc
        simp only [this, Bool.false_eq_true, if_false]
    · rw [ir, hr, List.filter_cons]
      by_cases hc : u.1 = "rightEar" ∧ u.2.length ≠ 0
      · simp [hc.1, hc.2]
      · rw [if_neg hc]
        have : (decide (u.1 = "rightEar") && decide (u.2.length ≠ 0)) = false := by
          simpa using hc
        simp only [this, Bool.false_eq_true, if_false]

/-- C24: `GetBuffers` returns, for each ear independently, the sample-by-sample sum of all
buffers that are not empty and were received on the entry point of that ear since the
previous `GetBuffers` call, or an all-zero buffer of the configured buffer size when none
was received; it consumes the data, so that a second `GetBuffers` call with no update in
between returns all-zero buffers for both ears. -/
theorem GetBuffers_sums (st : CListenerModelBase F) (received : List (String × List F)) :
    (GetBuffers (updates (GetBuffers st).2 received)).1
      = (earSum st.bufferSize "leftEar" received, earSum st.bufferSize "rightEar" received) ∧
    (GetBuffers (GetBuffers (updates (GetBuffers st).2 received)).2).1
      = (CMonoBuffer st.bufferSize, CMonoBuffer st.bufferSize) := by
  obtain ⟨g1, g2, g3⟩ := GetBuffers_state st
  obtain ⟨u1, u2, u3⟩ := GetBuffers_updates received (GetBuffers st).2
  obtain ⟨k1, k2, k3⟩ := GetBuffers_state (updates (GetBuffers st).2 received)
  constructor
  · refine Prod.ext ?_ ?_
    · rw [u2, GetBuffers_left, g1, g3]
      rfl
    · rw [u3, GetBuffers_right, g2, g3]
      rfl
  · refine Prod.ext ?_ ?_
    · rw [GetBuffers_left, k1, k3, u1, g3]
      rfl
    · rw [GetBuffers_right, k2, k3, u1, g3]
      rfl

end CListenerModelBase

end ListenerTheorems

/-- Witness of C24: buffers of two samples; the left ear receives `[1, 2]`, an empty buffer
and `[10, 20]`, the right ear receives nothing but an empty buffer. -/
theorem GetBuffers_sums_witness :
    (CListenerModelBase.GetBuffers (CListenerModelBase.updates
      (CListenerModelBase.GetBuffers (⟨2, [7, 7], [], true, false⟩ : CListenerModelBase ℚ)).2
      [("leftEar", [1, 2]), ("leftEar", []), ("rightEar", []), ("leftEar", [10, 20])])).1
      = ([11, 22], [0, 0]) := by
  rw [(CListenerModelBase.GetBuffers_sums (⟨2, [7, 7], [], true, false⟩ : CListenerModelBase ℚ)
    [("leftEar", [1, 2]), ("leftEar", []), ("rightEar", []), ("leftEar", [10, 20])]).1]
  simp [earSum, CMonoBuffer, CMonoBuffer.add, List.replicate]
  norm_num

/-! ### Per-session source nodes -/

/-- The handling of a queued session removes its buffer. -/
theorem deleteSession_userBuffer_self {F : Type} (maps : SessionMaps F) (session : Nat) :
    (deleteSession maps session).userBuffer session = none := by
  unfold deleteSession
  split <;> simp

/-- The handling of a queued session does not bring back the buffer of any session. -/
theorem deleteSession_userBuffer_none {F : Type} (maps : SessionMaps F) (id session : Nat)
    (h : maps.userBuffer session = none) :
    (deleteSession maps id).userBuffer session = none := by
  unfold deleteSession
  by_cases hid : session = id
  · subst hid
    split <;> simp
  · split <;> simp [Function.update_noteq hid, h]

/-- After the handling of the queue no queued session has a buffer. -/
theorem foldl_deleteSession_userBuffer {F : Type} (queue : List Nat) (maps : SessionMaps F)
    (session : Nat)
    (h : session ∈ queue ∨ maps.userBuffer session = none) :
    (queue.foldl deleteSession maps).userBuffer session = none := by
  induction queue generalizing maps with
  | nil =>
    rcases h with h | h
    · exact absurd h (List.not_mem_nil _)
    · exact h
  | cons id queue ih =>
    rw [List.foldl_cons]
    apply ih
    rcases h with h | h
    · rcases List.mem_cons.mp h with rfl | h
      · exact Or.inr (deleteSession_userBuffer_self maps session)
      · exact Or.inl h
    · exact Or.inr (deleteSession_userBuffer_none maps id session h)

section SessionTheorems

variable {F : Type} [LinearOrderedField F]

/-- A session that is queued in `Manual::bufferToBeDeleted` has no buffer when the mixing loop
starts, whatever the collection pass did for it: the hand-off for it is not safe. -/
theorem sessionsAtHandOff_unsafe (env : MixEnv F) (ao : AudioOutput F)
    (frameCount : Nat) (maps : SessionMaps F) (session : Nat)
    (h : session ∈ env.bufferToBeDeleted) :
    ¬ HandOffSafe (sessionsAtHandOff env ao frameCount maps) frameCount session := by
  rintro ⟨-, size, hs, -⟩
  unfold sessionsAtHandOff at hs
  rw [foldl_deleteSession_userBuffer _ _ _ (Or.inl h)] at hs
  exact absurd hs (by simp)

/-- A session registered in the collection pass of a fresh mixer has a node and a buffer of
`frameCount` samples. -/
theorem registerSession_safe (frameCount session : Nat) :
    HandOffSafe (registerSession frameCount (exampleSessionMaps : SessionMaps F) session)
      frameCount session := by
  simp [HandOffSafe, registerSession, exampleSessionMaps, exampleEnvManager,
    CBRTManager.CreateSoundSource, CBRTManager.BeginSetup, CBRTManager.findIf,
    CBRTManager.CreateListenerModel, CBRTManager.CreateListener, CBRTManager.EndSetup,
    CBRTManager.ctor, CBRTManager.ConnectModulesCommand]

end SessionTheorems

/-- C27: evaluation of `mix` with a fresh set of per-session containers, frame size 480 and
one ready speech buffer of session 1, while session 1 is queued in
`Manual::bufferToBeDeleted`.  The buffer is in the mix list and is handed to the module
graph, but when the mixing loop starts the deletion block has removed the session again:
`envSources` and `userBuffer` hold nothing for session 1, so the hand-off is not safe.
Without the queued deletion the node and a buffer of 480 samples are there. -/
theorem handOff_after_deletion :
    ∃ m : Libm ℝ, IsRealLibm m ∧
      ((mix (exampleEnvDeleting m exampleSettings ⟨0, 0, 0⟩)
          (exampleOutput 1 [exampleSpeech 0.5]) (fun _ => 0) (fun _ => 0) 480).handOffs.map
        fun h => h.session) = [1] ∧
      (sessionsAtHandOff (exampleEnvDeleting m exampleSettings ⟨0, 0, 0⟩)
        (exampleOutput 1 [exampleSpeech 0.5]) 480 exampleSessionMaps).envSources 1 = none ∧
      (sessionsAtHandOff (exampleEnvDeleting m exampleSettings ⟨0, 0, 0⟩)
        (exampleOutput 1 [exampleSpeech 0.5]) 480 exampleSessionMaps).userBuffer 1 = none ∧
      ¬ HandOffSafe (sessionsAtHandOff (exampleEnvDeleting m exampleSettings ⟨0, 0, 0⟩)
        (exampleOutput 1 [exampleSpeech 0.5]) 480 exampleSessionMaps) 480 1 ∧
      HandOffSafe (sessionsAtHandOff (exampleEnv m exampleSettings ⟨0, 0, 0⟩)
        (exampleOutput 1 [exampleSpeech 0.5]) 480 exampleSessionMaps) 480 1 := by
  obtain ⟨m, hm⟩ := exists_isRealLibm
  have hmaps : sessionsAtHandOff (exampleEnvDeleting m exampleSettings ⟨0, 0, 0⟩)
      (exampleOutput 1 [exampleSpeech 0.5]) 480 exampleSessionMaps
      = deleteSession (registerSession 480 exampleSessionMaps 1) 1 := by
    simp [sessionsAtHandOff, exampleEnvDeleting, exampleEnv, exampleOutput, exampleSpeech,
      exampleUser, collectSessions]
  have hmaps2 : sessionsAtHandOff (exampleEnv m exampleSettings ⟨0, 0, 0⟩)
      (exampleOutput 1 [exampleSpeech 0.5]) 480 exampleSessionMaps
      = registerSession 480 exampleSessionMaps 1 := by
    simp [sessionsAtHandOff, exampleEnv, exampleOutput, exampleSpeech, exampleUser,
      collectSessions]
  have hd1 : (deleteSession (registerSession 480 (exampleSessionMaps : SessionMaps ℝ) 1)
      1).envSources 1 = none := by
    simp [deleteSession, registerSession, exampleSessionMaps, CBRTManager.CreateSoundSource,
      CBRTManager.BeginSetup, CBRTManager.findIf, exampleEnvManager,
      CBRTManager.CreateListenerModel, CBRTManager.CreateListener, CBRTManager.EndSetup,
      CBRTManager.ctor, CBRTManager.ConnectModulesCommand]
  have hd2 := deleteSession_userBuffer_self
    (registerSession 480 (exampleSessionMaps : SessionMaps ℝ) 1) 1
  refine ⟨m, hm, ?_, ?_, ?_, ?_, ?_⟩
  · have h := mix_single_speech_handOffs (exampleEnvDeleting m exampleSettings ⟨0, 0, 0⟩)
      (exampleOutput 1 [exampleSpeech 0.5]) (fun _ => 0) (fun _ => 0) 480 (exampleSpeech 0.5)
      exampleUser 1 false (by norm_num [exampleEnvDeleting, exampleEnv, exampleSettings])
      rfl rfl rfl rfl rfl (fun _ _ _ _ => rfl)
    have h2 := congrArg (List.map Prod.fst) h
    simpa [List.map_map, Function.comp_def, exampleUser] using h2
  · rw [hmaps, hd1]
  · rw [hmaps, hd2]
  · exact sessionsAtHandOff_unsafe (exampleEnvDeleting m exampleSettings ⟨0, 0, 0⟩) _ 480 _ 1
      (by simp [exampleEnvDeleting])
  · rw [hmaps2]
    exact registerSession_safe 480 1

/-! ### The lock of the output map -/

namespace OutputsState

/-- The initial state is coherent. -/
theorem initial_coherent (qmOutputs : List Nat) : (initial qmOutputs).Coherent :=
  ⟨rfl, rfl, by simp [initial, MixerPhase.holdsLock], by simp [initial]⟩

/-- Every enabled step keeps the state coherent. -/
theorem step_coherent {st st' : OutputsState} (h : st.Coherent) (e : OutputsEvent)
    (hs : step st e = some st') : st'.Coherent := by
  obtain ⟨h1, h2, h3, h4⟩ := h
  cases e with
  | removeBuffer b =>
    simp only [step, Option.some.injEq] at hs
    subst hs
    exact ⟨h1, h2, h3, h4⟩
  | handlerEnter b =>
    simp only [step] at hs
    split_ifs at hs with hc
    simp only [Option.some.injEq] at hs
    subst hs
    refine ⟨h1, ?_, ?_, h4⟩
    · simpa [hc.2, HandlerPhase.holdsLock] using h2
    · exact h3
  | handlerLock =>
    simp only [step] at hs
    split at hs
    · rename_i b hb
      split_ifs at hs with hc
      simp only [Option.some.injEq] at hs
      subst hs
      have hm : st.mixer.holdsLock = false := by
        cases hl : st.mixer.holdsLock
        · rfl
        · rw [hl] at h1; simp [hc.1] at h1
      refine ⟨h1, by simp [HandlerPhase.holdsLock], by simp [hm], ?_⟩
      intro qlMix qlDel hq
      simp only at hq
      rw [hq] at hm
      simp [MixerPhase.holdsLock] at hm
    · exact absurd hs (by simp)
  | handlerErase =>
    simp only [step] at hs
    split at hs
    · rename_i b hb
      simp only [Option.some.injEq] at hs
      subst hs
      have hw : st.writer = true := by rw [h2, hb]; rfl
      have hm : st.mixer.holdsLock = false := by
        cases hl : st.mixer.holdsLock
        · rfl
        · exact absurd ⟨hw, hl⟩ h3
      refine ⟨h1, by simp [HandlerPhase.holdsLock, hw], by simp [hm], ?_⟩
      intro qlMix qlDel hq
      simp only at hq
      rw [hq] at hm
      simp [MixerPhase.holdsLock] at hm
    · exact absurd hs (by simp)
  | handlerUnlock =>
    simp only [step] at hs
    split at hs
    · simp only [Option.some.injEq] at hs
      subst hs
      exact ⟨h1, by simp [HandlerPhase.holdsLock], by simp, h4⟩
    · exact absurd hs (by simp)
  | mixLock =>
    simp only [step] at hs
    split_ifs at hs with hc
    simp only [Option.some.injEq] at hs
    subst hs
    refine ⟨?_, h2, by simp [hc.2], by simp⟩
    simp only [MixerPhase.holdsLock, if_true]
    rw [h1, hc.1]
    rfl
  | mixCollect ex =>
    simp only [step] at hs
    split at hs
    · rename_i hb
      simp only [Option.some.injEq] at hs
      subst hs
      refine ⟨by simpa [hb, MixerPhase.holdsLock] using h1, h2, ?_, ?_⟩
      · simpa [hb, MixerPhase.holdsLock] using h3
      · intro qlMix qlDel hq b hbm
        simp only [MixerPhase.collected.injEq] at hq
        rw [← hq.1] at hbm
        exact (List.mem_filter.mp hbm).1
    · exact absurd hs (by simp)
  | mixFrame =>
    simp only [step] at hs
    split at hs
    · rename_i qlMix qlDel hb
      simp only [Option.some.injEq] at hs
      subst hs
      refine ⟨by simpa [hb, MixerPhase.holdsLock] using h1, h2, ?_, by simp⟩
      simpa [hb, MixerPhase.holdsLock] using h3
    · exact absurd hs (by simp)
  | mixUnlock =>
    simp only [step] at hs
    split at hs
    · rename_i qlDel hb
      simp only [Option.some.injEq] at hs
      subst hs
      refine ⟨?_, h2, by simp [MixerPhase.holdsLock], by simp⟩
      simp only [MixerPhase.holdsLock, Bool.false_eq_true, if_false]
      rw [h1, hb]
      rfl
    · exact absurd hs (by simp)
  | mixRemove =>
    simp only [step] at hs
    split at hs
    · rename_i qlDel hb
      simp only [Option.some.injEq] at hs
      subst hs
      refine ⟨by simpa [hb, MixerPhase.holdsLock] using h1, h2, by simp [MixerPhase.holdsLock],
        by simp⟩
    · exact absurd hs (by simp)

/-- Every run keeps the state coherent. -/
theorem run_coherent (es : List OutputsEvent) {st st' : OutputsState} (h : st.Coherent)
    (hr : run es st = some st') : st'.Coherent := by
  induction es generalizing st with
  | nil =>
    simp only [run, Option.some.injEq] at hr
    exact hr ▸ h
  | cons e es ih =>
    simp only [run, Option.bind_eq_some] at hr
    obtain ⟨s1, hs1, hrest⟩ := hr
    exact ih (step_coherent h e hs1) hrest

/-- While the audio thread holds the read lock, a step other than `mixUnlock` leaves the map
alone and the lock with the audio thread. -/
theorem step_in_frame {st st' : OutputsState} (h : st.Coherent)
    (hm : st.mixer.holdsLock = true) (e : OutputsEvent) (he : e ≠ OutputsEvent.mixUnlock)
    (hs : step st e = some st') :
    st'.qmOutputs = st.qmOutputs ∧ st'.mixer.holdsLock = true := by
  cases e with
  | removeBuffer b =>
    simp only [step, Option.some.injEq] at hs
    subst hs
    exact ⟨rfl, hm⟩
  | handlerEnter b =>
    simp only [step] at hs
    split_ifs at hs
    simp only [Option.some.injEq] at hs
    subst hs
    exact ⟨rfl, hm⟩
  | handlerLock =>
    simp only [step] at hs
    split at hs
    · split_ifs at hs with hc
      have := h.readers_eq
      rw [hm, hc.1] at this
      exact absurd this (by simp)
    · exact absurd hs (by simp)
  | handlerErase =>
    simp only [step] at hs
    split at hs
    · rename_i b hb
      have hw : st.writer = true := by rw [h.writer_eq, hb]; rfl
      exact absurd ⟨hw, hm⟩ h.exclusive
    · exact absurd hs (by simp)
  | handlerUnlock =>
    simp only [step] at hs
    split at hs
    · simp only [Option.some.injEq] at hs
      subst hs
      exact ⟨rfl, hm⟩
    · exact absurd hs (by simp)
  | mixLock =>
    simp only [step] at hs
    split_ifs at hs with hc
    rw [hc.1] at hm
    exact absurd hm (by simp [MixerPhase.holdsLock])
  | mixCollect ex =>
    simp only [step] at hs
    split at hs
    · simp only [Option.some.injEq] at hs
      subst hs
      exact ⟨rfl, rfl⟩
    · exact absurd hs (by simp)
  | mixFrame =>
    simp only [step] at hs
    split at hs
    · simp only [Option.some.injEq] at hs
      subst hs
      exact ⟨rfl, rfl⟩
    · exact absurd hs (by simp)
  | mixUnlock => exact absurd rfl he
  | mixRemove =>
    simp only [step] at hs
    split at hs
    · rename_i qlDel hb
      rw [hb] at hm
      exact absurd hm (by simp [MixerPhase.holdsLock])
    · exact absurd hs (by simp)

/-- While the audio thread holds the read lock, no run without `mixUnlock` changes the map. -/
theorem run_in_frame (es : List OutputsEvent) {st st' : OutputsState} (h : st.Coherent)
    (hm : st.mixer.holdsLock = true) (he : OutputsEvent.mixUnlock ∉ es)
    (hr : run es st = some st') :
    st'.qmOutputs = st.qmOutputs ∧ st'.mixer.holdsLock = true := by
  induction es generalizing st with
  | nil =>
    simp only [run, Option.some.injEq] at hr
    subst hr
    exact ⟨rfl, hm⟩
  | cons e es ih =>
    simp only [run, Option.bind_eq_some] at hr
    obtain ⟨s1, hs1, hrest⟩ := hr
    have hne : e ≠ OutputsEvent.mixUnlock := fun hc => he (hc ▸ List.mem_cons_self _ _)
    obtain ⟨hq, hl⟩ := step_in_frame h hm e hne hs1
    obtain ⟨hq2, hl2⟩ := ih (step_coherent h e hs1) hl
      (fun hc => he (List.mem_cons_of_mem _ hc)) hrest
    exact ⟨hq2.trans hq, hl2⟩

/-- A frame in progress holds the read lock. -/
theorem InFrame.holdsLock {q : List Nat} {fr : List (List Nat)} {st : OutputsState}
    (h : st.InFrame q fr) : st.mixer.holdsLock = true := by
  rcases h.2 with ⟨h, _⟩ | ⟨ex, h, _⟩ | ⟨ex, h, _⟩ <;> rw [h] <;> rfl

/-- A step other than `mixUnlock` keeps the frame in progress: the mix list, once collected
from the map at the time of the lock, is the one that is mixed. -/
theorem step_inFrame {q : List Nat} {fr : List (List Nat)} {st st' : OutputsState}
    (hc : st.Coherent) (h : st.InFrame q fr) (e : OutputsEvent)
    (he : e ≠ OutputsEvent.mixUnlock) (hs : step st e = some st') : st'.InFrame q fr := by
  have hq := (step_in_frame hc h.holdsLock e he hs).1
  refine ⟨hq.trans h.1, ?_⟩
  have hq0 := h.1
  cases e with
  | removeBuffer b =>
    simp only [step, Option.some.injEq] at hs
    subst hs
    exact h.2
  | handlerEnter b =>
    simp only [step] at hs
    split_ifs at hs
    simp only [Option.some.injEq] at hs
    subst hs
    exact h.2
  | handlerLock =>
    simp only [step] at hs
    split at hs
    · split_ifs at hs
      simp only [Option.some.injEq] at hs
      subst hs
      exact h.2
    · exact absurd hs (by simp)
  | handlerErase =>
    simp only [step] at hs
    split at hs
    · simp only [Option.some.injEq] at hs
      subst hs
      exact h.2
    · exact absurd hs (by simp)
  | handlerUnlock =>
    simp only [step] at hs
    split at hs
    · simp only [Option.some.injEq] at hs
      subst hs
      exact h.2
    · exact absurd hs (by simp)
  | mixLock =>
    simp only [step] at hs
    split_ifs at hs with hi
    have := h.holdsLock
    rw [hi.1] at this
    exact absurd this (by simp [MixerPhase.holdsLock])
  | mixCollect ex =>
    simp only [step] at hs
    split at hs
    · rename_i hb
      simp only [Option.some.injEq] at hs
      subst hs
      rcases h.2 with h2 | ⟨ex2, h2, _⟩ | ⟨ex2, h2, _⟩
      · exact Or.inr (Or.inl ⟨ex, by simp only [hq0], h2.2⟩)
      · rw [hb] at h2; exact absurd h2 (by simp)
      · rw [hb] at h2; exact absurd h2 (by simp)
    · exact absurd hs (by simp)
  | mixFrame =>
    simp only [step] at hs
    split at hs
    · rename_i qlMix qlDel hb
      simp only [Option.some.injEq] at hs
      subst hs
      rcases h.2 with h2 | ⟨ex2, h2, hf⟩ | ⟨ex2, h2, _⟩
      · rw [hb] at h2; exact absurd h2.1 (by simp)
      · rw [hb] at h2
        simp only [MixerPhase.collected.injEq] at h2
        exact Or.inr (Or.inr ⟨ex2, by simp only [h2.2], by simp only [hf, h2.1]⟩)
      · rw [hb] at h2; exact absurd h2 (by simp)
    · exact absurd hs (by simp)
  | mixUnlock => exact absurd rfl he
  | mixRemove =>
    simp only [step] at hs
    split at hs
    · rename_i qlDel hb
      have := h.holdsLock
      rw [hb] at this
      exact absurd this (by simp [MixerPhase.holdsLock])
    · exact absurd hs (by simp)

/-- No run without `mixUnlock` leaves the frame in progress. -/
theorem run_inFrame (es : List OutputsEvent) {q : List Nat} {fr : List (List Nat)}
    {st st' : OutputsState} (hc : st.Coherent) (h : st.InFrame q fr)
    (he : OutputsEvent.mixUnlock ∉ es) (hr : run es st = some st') : st'.InFrame q fr := by
  induction es generalizing st with
  | nil =>
    simp only [run, Option.some.injEq] at hr
    exact hr ▸ h
  | cons e es ih =>
    simp only [run, Option.bind_eq_some] at hr
    obtain ⟨s1, hs1, hrest⟩ := hr
    have hne : e ≠ OutputsEvent.mixUnlock := fun hc => he (hc ▸ List.mem_cons_self _ _)
    exact ih (step_coherent hc e hs1) (step_inFrame hc h e hne hs1)
      (fun hc => he (List.mem_cons_of_mem _ hc)) hrest

/-- C25: scenario C.  Whatever the two threads do and whenever removals are requested, from
the moment the audio thread has taken the read lock and as long as it has not released it:
the map is the one found at the lock (no removal has taken effect), and the frame mixes
exactly the mix list collected from that map.  In scenario C itself the removal of buffer 2,
requested during the first frame, cannot take the lock before that frame is over; the first
frame mixes the buffers 1 and 2 and the next frame mixes buffer 1 alone. -/
theorem removal_waits_for_frame (qmOutputs : List Nat) (before during : List OutputsEvent)
    (st st' : OutputsState) (hb : run before (initial qmOutputs) = some st)
    (hm : st.mixer = MixerPhase.locked) (hd : OutputsEvent.mixUnlock ∉ during)
    (hr : run during st = some st') :
    st'.InFrame st.qmOutputs st.frames ∧
    (run scenarioCBlocked (initial [1, 2]) = none ∧
      (run scenarioC (initial [1, 2])).map (fun s => (s.frames, s.qmOutputs))
        = some ([[1, 2], [1]], [1])) :=
  ⟨run_inFrame during (run_coherent before (initial_coherent qmOutputs) hb)
    ⟨rfl, Or.inl ⟨hm, rfl⟩⟩ hd hr, by decide, by decide⟩

/-- Witness of C25: in scenario C, from the moment the audio thread has the lock to the end of
the mixing loop of the first frame. -/
theorem removal_waits_for_frame_witness :
    ∃ st st' : OutputsState,
      run [OutputsEvent.mixLock] (initial [1, 2]) = some st ∧
      st.mixer = MixerPhase.locked ∧
      run [OutputsEvent.mixCollect [], OutputsEvent.removeBuffer 2,
        OutputsEvent.handlerEnter 2, OutputsEvent.mixFrame] st = some st' ∧
      st'.qmOutputs = [1, 2] ∧ st'.frames = [[1, 2]] ∧
      st'.InFrame st.qmOutputs st.frames :=
  ⟨_, _, rfl, rfl, rfl, rfl, rfl,
    (removal_waits_for_frame [1, 2] [OutputsEvent.mixLock]
      [OutputsEvent.mixCollect [], OutputsEvent.removeBuffer 2, OutputsEvent.handlerEnter 2,
        OutputsEvent.mixFrame] _ _ rfl rfl (by decide) rfl).1⟩

end OutputsState
end Mumble
